import Mathlib

/-!
Verification of the radix text-encoding library (hex / Base32 / Base64 /
Base64url, RFC 4648 style).

The TypeScript sources `src/hex.ts`, `src/base32.ts`, `src/base64.ts` are
shallowly embedded below:

* byte sequences (`Uint8Array`) become `List Nat` (each entry < 256, stated
  as a hypothesis where it matters);
* JavaScript strings become `List Char`; `s[i]` (which yields `undefined`
  out of range) becomes `l[i]?` (`Option Char`);
* decode functions, which `throw new Error(...)`, return
  `Except Err (List Nat)` where `Err` distinguishes the three thrown
  messages;
* the `for` loops over fixed windows (3 input bytes / 4 output chars for
  Base64, 5 bytes / 8 chars for Base32, 1 byte / 2 chars for hex) become
  structural recursion taking one window at a time, and the inner
  character loops become fuel-indexed recursion (`fuel + j = width`),
  exactly mirroring the loop bodies;
* JavaScript `<<`, `>>`, `|`, `&` on the (always nonnegative, always below
  2^32 resp. arbitrary BigInt) numbers involved become `<<<`, `>>>`,
  `|||`, `&&&` on `Nat`.
-/

deriving instance DecidableEq for Except

namespace NoteEnc

/-- The three error messages thrown by the source:
`"Invalid character"`, `"Invalid padding"` (base32.ts / base64.ts) and
`"Invalid hex string"` (hex.ts). -/
inductive Err where
  | invalidCharacter : Err
  | invalidPadding : Err
  | invalidHexString : Err
deriving DecidableEq

/-- `enum EncodingPadding { Include, None }` from base32.ts / base64.ts. -/
inductive EncodingPadding where
  | Include : EncodingPadding
  | None : EncodingPadding
deriving DecidableEq

/-- `enum DecodingPadding { Required, Ignore }` from base32.ts / base64.ts. -/
inductive DecodingPadding where
  | Required : DecodingPadding
  | Ignore : DecodingPadding
deriving DecidableEq

/-! ## hex.ts -/

/-- `const alphabetUpperCase = "0123456789ABCDEF"` (hex.ts). -/
def hexAlphabetUpperCase : List Char := "0123456789ABCDEF".data

/-- `const alphabetLowerCase = "0123456789abcdef"` (hex.ts). -/
def hexAlphabetLowerCase : List Char := "0123456789abcdef".data

/-- The key-value entries of `const decodeMap : Record<string, number>`
from hex.ts, in source order. -/
def hexDecodeEntries : List (Char × Nat) :=
  [('0', 0), ('1', 1), ('2', 2), ('3', 3), ('4', 4),
   ('5', 5), ('6', 6), ('7', 7), ('8', 8), ('9', 9),
   ('a', 10), ('A', 10), ('b', 11), ('B', 11), ('c', 12), ('C', 12),
   ('d', 13), ('D', 13), ('e', 14), ('E', 14), ('f', 15), ('F', 15)]

/-- `const decodeMap : Record<string, number>` from hex.ts: a partial map
from characters to 4-bit values, case-insensitive.  `key in decodeMap`
is `(hexDecodeMap key).isSome` and `decodeMap[key]` is its value. -/
def hexDecodeMap (c : Char) : Option Nat :=
  hexDecodeEntries.lookup c

/-- `encodeHexUpperCase` (hex.ts): two characters per byte, the high
nibble `data[i] >> 4` first, then the low nibble `data[i] & 0x0f`. -/
def encodeHexUpperCase : List Nat → List Char
  | [] => []
  | b :: rest =>
    hexAlphabetUpperCase.getD (b >>> 4) ' ' ::
    hexAlphabetUpperCase.getD (b &&& 0x0f) ' ' :: encodeHexUpperCase rest

/-- `encodeHexLowerCase` (hex.ts). -/
def encodeHexLowerCase : List Nat → List Char
  | [] => []
  | b :: rest =>
    hexAlphabetLowerCase.getD (b >>> 4) ' ' ::
    hexAlphabetLowerCase.getD (b &&& 0x0f) ' ' :: encodeHexLowerCase rest

/-- The per-pair loop of `decodeHex` (hex.ts): each iteration checks
`data[i]` and `data[i + 1]` against the decode map and combines them as
`(hi << 4) | lo`.  A leftover single character corresponds to the out of
range access `data[i + 1]` (`undefined`), which is not in the map and
fails with the invalid-character error; that branch is unreachable after
the even-length precondition. -/
def decodeHexGo : List Char → Except Err (List Nat)
  | [] => .ok []
  | [_] => .error Err.invalidCharacter
  | c0 :: c1 :: rest =>
    match hexDecodeMap c0 with
    | none => .error Err.invalidCharacter
    | some hi =>
      match hexDecodeMap c1 with
      | none => .error Err.invalidCharacter
      | some lo =>
        match decodeHexGo rest with
        | .error e => .error e
        | .ok bs => .ok (((hi <<< 4) ||| lo) :: bs)

/-- `decodeHex` (hex.ts): the odd-length check
`if (data.length % 2 !== 0) throw new Error("Invalid hex string")`
comes before any character is inspected. -/
def decodeHex (data : List Char) : Except Err (List Nat) :=
  if data.length % 2 ≠ 0 then .error Err.invalidHexString
  else decodeHexGo data

/-! ## Shared bit-buffer construction

`buffer = (buffer << 8) | bytes[i + j]` accumulated over one chunk, and
`bufferBitSize` grows by 8 per byte (so it ends at `8 * chunk.length`). -/

/-- The byte-accumulation loop shared by both encoders. -/
def byteBuffer (chunk : List Nat) : Nat :=
  chunk.foldl (fun acc b => (acc <<< 8) ||| b) 0

/-! ## base64.ts -/

/-- `const base64Alphabet` (base64.ts). -/
def base64Alphabet : List Char :=
  "ABCDEFGHIJKLMNOPQRSTUVWXYZabcdefghijklmnopqrstuvwxyz0123456789+/".data

/-- `const base64urlAlphabet` (base64.ts). -/
def base64urlAlphabet : List Char :=
  "ABCDEFGHIJKLMNOPQRSTUVWXYZabcdefghijklmnopqrstuvwxyz0123456789-_".data

/-- `const base64DecodeMap` (base64.ts), case sensitive, `+` and `/`. -/
def base64DecodeMap : Char → Option Nat
  | '0' => some 52 | '1' => some 53 | '2' => some 54 | '3' => some 55
  | '4' => some 56 | '5' => some 57 | '6' => some 58 | '7' => some 59
  | '8' => some 60 | '9' => some 61
  | 'A' => some 0 | 'B' => some 1 | 'C' => some 2 | 'D' => some 3
  | 'E' => some 4 | 'F' => some 5 | 'G' => some 6 | 'H' => some 7
  | 'I' => some 8 | 'J' => some 9 | 'K' => some 10 | 'L' => some 11
  | 'M' => some 12 | 'N' => some 13 | 'O' => some 14 | 'P' => some 15
  | 'Q' => some 16 | 'R' => some 17 | 'S' => some 18 | 'T' => some 19
  | 'U' => some 20 | 'V' => some 21 | 'W' => some 22 | 'X' => some 23
  | 'Y' => some 24 | 'Z' => some 25
  | 'a' => some 26 | 'b' => some 27 | 'c' => some 28 | 'd' => some 29
  | 'e' => some 30 | 'f' => some 31 | 'g' => some 32 | 'h' => some 33
  | 'i' => some 34 | 'j' => some 35 | 'k' => some 36 | 'l' => some 37
  | 'm' => some 38 | 'n' => some 39 | 'o' => some 40 | 'p' => some 41
  | 'q' => some 42 | 'r' => some 43 | 's' => some 44 | 't' => some 45
  | 'u' => some 46 | 'v' => some 47 | 'w' => some 48 | 'x' => some 49
  | 'y' => some 50 | 'z' => some 51
  | '+' => some 62 | '/' => some 63
  | _ => none

/-- `const base64urlDecodeMap` (base64.ts): same but `-` and `_`. -/
def base64urlDecodeMap : Char → Option Nat
  | '0' => some 52 | '1' => some 53 | '2' => some 54 | '3' => some 55
  | '4' => some 56 | '5' => some 57 | '6' => some 58 | '7' => some 59
  | '8' => some 60 | '9' => some 61
  | 'A' => some 0 | 'B' => some 1 | 'C' => some 2 | 'D' => some 3
  | 'E' => some 4 | 'F' => some 5 | 'G' => some 6 | 'H' => some 7
  | 'I' => some 8 | 'J' => some 9 | 'K' => some 10 | 'L' => some 11
  | 'M' => some 12 | 'N' => some 13 | 'O' => some 14 | 'P' => some 15
  | 'Q' => some 16 | 'R' => some 17 | 'S' => some 18 | 'T' => some 19
  | 'U' => some 20 | 'V' => some 21 | 'W' => some 22 | 'X' => some 23
  | 'Y' => some 24 | 'Z' => some 25
  | 'a' => some 26 | 'b' => some 27 | 'c' => some 28 | 'd' => some 29
  | 'e' => some 30 | 'f' => some 31 | 'g' => some 32 | 'h' => some 33
  | 'i' => some 34 | 'j' => some 35 | 'k' => some 36 | 'l' => some 37
  | 'm' => some 38 | 'n' => some 39 | 'o' => some 40 | 'p' => some 41
  | 'q' => some 42 | 'r' => some 43 | 's' => some 44 | 't' => some 45
  | 'u' => some 46 | 'v' => some 47 | 'w' => some 48 | 'x' => some 49
  | 'y' => some 50 | 'z' => some 51
  | '-' => some 62 | '_' => some 63
  | _ => none

/-- The inner `for (j = 0; j < 4; j++)` loop of `encodeBase64_internal`:
emit the top 6 bits while at least 6 remain, then one character with the
leftover bits shifted left (zero-filled on the right), then pad
characters if requested.  `fuel` counts the remaining iterations. -/
def encode64Emit (buffer : Nat) (alphabet : List Char)
    (padding : EncodingPadding) : Nat → Nat → List Char
  | 0, _ => []
  | fuel + 1, bufferBitSize =>
    if 6 ≤ bufferBitSize then
      alphabet.getD ((buffer >>> (bufferBitSize - 6)) &&& 0x3f) ' ' ::
        encode64Emit buffer alphabet padding fuel (bufferBitSize - 6)
    else if 0 < bufferBitSize then
      alphabet.getD ((buffer <<< (6 - bufferBitSize)) &&& 0x3f) ' ' ::
        encode64Emit buffer alphabet padding fuel 0
    else if padding = EncodingPadding.Include then
      '=' :: encode64Emit buffer alphabet padding fuel bufferBitSize
    else
      encode64Emit buffer alphabet padding fuel bufferBitSize

/-- One 3-byte (or shorter, final) chunk of `encodeBase64_internal`. -/
def encode64Chunk (chunk : List Nat) (alphabet : List Char)
    (padding : EncodingPadding) : List Char :=
  encode64Emit (byteBuffer chunk) alphabet padding 4 (8 * chunk.length)

/-- `encodeBase64_internal` (base64.ts): the outer loop walks the input
three bytes at a time; the final chunk may have one or two bytes. -/
def encodeBase64_internal : List Nat → List Char → EncodingPadding → List Char
  | [], _, _ => []
  | b0 :: b1 :: b2 :: rest, alphabet, padding =>
    encode64Chunk [b0, b1, b2] alphabet padding ++
      encodeBase64_internal rest alphabet padding
  | chunk, alphabet, padding => encode64Chunk chunk alphabet padding

/-- `encodeBase64` (base64.ts). -/
def encodeBase64 (bytes : List Nat) : List Char :=
  encodeBase64_internal bytes base64Alphabet EncodingPadding.Include

/-- `encodeBase64NoPadding` (base64.ts). -/
def encodeBase64NoPadding (bytes : List Nat) : List Char :=
  encodeBase64_internal bytes base64Alphabet EncodingPadding.None

/-- `encodeBase64url` (base64.ts). -/
def encodeBase64url (bytes : List Nat) : List Char :=
  encodeBase64_internal bytes base64urlAlphabet EncodingPadding.Include

/-- `encodeBase64urlNoPadding` (base64.ts). -/
def encodeBase64urlNoPadding (bytes : List Nat) : List Char :=
  encodeBase64_internal bytes base64urlAlphabet EncodingPadding.None

/-- The inner `for (j = 0; j < 4; j++)` loop of `decodeBase64_internal`,
acting on one window `w` (the slice of up to 4 characters starting at the
current outer index).  `fuel + j = 4` on every call; `w[j]?` is `none`
exactly when the original string index is out of range (`undefined`).
The branches mirror the source line by line: required-mode pad skip,
ignore-mode pad / end-of-input skip, the data-after-pad check on the
previous position, the decode-map membership check, then
`chunk |= map[c] << ((3 - j) * 6)` and `bitsRead += 6`. -/
def decode64Go (w : List Char) (decodeMap : Char → Option Nat)
    (padding : DecodingPadding) : Nat → Nat → Nat → Nat → Except Err (Nat × Nat)
  | 0, _, chunk, bitsRead => .ok (chunk, bitsRead)
  | fuel + 1, j, chunk, bitsRead =>
    if padding = DecodingPadding.Required ∧ w[j]? = some '=' then
      decode64Go w decodeMap padding fuel (j + 1) chunk bitsRead
    else if padding = DecodingPadding.Ignore ∧ (w.length ≤ j ∨ w[j]? = some '=') then
      decode64Go w decodeMap padding fuel (j + 1) chunk bitsRead
    else if 0 < j ∧ w[j - 1]? = some '=' then
      .error Err.invalidPadding
    else
      match w[j]? with
      | none => .error Err.invalidCharacter
      | some c =>
        match decodeMap c with
        | none => .error Err.invalidCharacter
        | some v =>
          decode64Go w decodeMap padding fuel (j + 1)
            (chunk ||| (v <<< ((3 - j) * 6))) (bitsRead + 6)

/-- The post-window validation and byte extraction of
`decodeBase64_internal`: a short window must have read exactly 12 or 18
bits and its unused low accumulator bits must be zero, otherwise
`Invalid padding`; then `floor(bitsRead / 8)` bytes are emitted from the
top of the 24-bit accumulator. -/
def decode64Finish (chunk bitsRead : Nat) : Except Err (List Nat) :=
  if bitsRead < 24 then
    if bitsRead = 12 then
      if chunk &&& 0xffff ≠ 0 then .error Err.invalidPadding
      else .ok ((List.range (bitsRead / 8)).map
        (fun i => (chunk >>> (16 - i * 8)) &&& 0xff))
    else if bitsRead = 18 then
      if chunk &&& 0xff ≠ 0 then .error Err.invalidPadding
      else .ok ((List.range (bitsRead / 8)).map
        (fun i => (chunk >>> (16 - i * 8)) &&& 0xff))
    else .error Err.invalidPadding
  else .ok ((List.range (bitsRead / 8)).map
    (fun i => (chunk >>> (16 - i * 8)) &&& 0xff))

/-- `decodeBase64_internal` (base64.ts): the outer loop consumes the
string four characters per window; the window sees exactly the positions
`i ..= i + 3`, so it is passed the corresponding slice.  Any window error
aborts the whole decode. -/
def decodeBase64_internal : List Char → (Char → Option Nat) → DecodingPadding →
    Except Err (List Nat)
  | [], _, _ => .ok []
  | c0 :: c1 :: c2 :: c3 :: rest, decodeMap, padding =>
    match decode64Go [c0, c1, c2, c3] decodeMap padding 4 0 0 0 with
    | .error e => .error e
    | .ok (chunk, bitsRead) =>
      match decode64Finish chunk bitsRead with
      | .error e => .error e
      | .ok bytes =>
        match decodeBase64_internal rest decodeMap padding with
        | .error e => .error e
        | .ok restBytes => .ok (bytes ++ restBytes)
  | w, decodeMap, padding =>
    match decode64Go w decodeMap padding 4 0 0 0 with
    | .error e => .error e
    | .ok (chunk, bitsRead) =>
      match decode64Finish chunk bitsRead with
      | .error e => .error e
      | .ok bytes => .ok bytes

/-- `decodeBase64` (base64.ts). -/
def decodeBase64 (encoded : List Char) : Except Err (List Nat) :=
  decodeBase64_internal encoded base64DecodeMap DecodingPadding.Required

/-- `decodeBase64IgnorePadding` (base64.ts). -/
def decodeBase64IgnorePadding (encoded : List Char) : Except Err (List Nat) :=
  decodeBase64_internal encoded base64DecodeMap DecodingPadding.Ignore

/-- `decodeBase64url` (base64.ts). -/
def decodeBase64url (encoded : List Char) : Except Err (List Nat) :=
  decodeBase64_internal encoded base64urlDecodeMap DecodingPadding.Required

/-- `decodeBase64urlIgnorePadding` (base64.ts). -/
def decodeBase64urlIgnorePadding (encoded : List Char) : Except Err (List Nat) :=
  decodeBase64_internal encoded base64urlDecodeMap DecodingPadding.Ignore

/-! ## base32.ts -/

/-- `const base32UpperCaseAlphabet` (base32.ts). -/
def base32UpperCaseAlphabet : List Char := "ABCDEFGHIJKLMNOPQRSTUVWXYZ234567".data

/-- `const base32LowerCaseAlphabet` (base32.ts). -/
def base32LowerCaseAlphabet : List Char := "abcdefghijklmnopqrstuvwxyz234567".data

/-- `const base32DecodeMap` (base32.ts), case insensitive. -/
def base32DecodeMap : Char → Option Nat
  | 'A' => some 0 | 'B' => some 1 | 'C' => some 2 | 'D' => some 3
  | 'E' => some 4 | 'F' => some 5 | 'G' => some 6 | 'H' => some 7
  | 'I' => some 8 | 'J' => some 9 | 'K' => some 10 | 'L' => some 11
  | 'M' => some 12 | 'N' => some 13 | 'O' => some 14 | 'P' => some 15
  | 'Q' => some 16 | 'R' => some 17 | 'S' => some 18 | 'T' => some 19
  | 'U' => some 20 | 'V' => some 21 | 'W' => some 22 | 'X' => some 23
  | 'Y' => some 24 | 'Z' => some 25
  | 'a' => some 0 | 'b' => some 1 | 'c' => some 2 | 'd' => some 3
  | 'e' => some 4 | 'f' => some 5 | 'g' => some 6 | 'h' => some 7
  | 'i' => some 8 | 'j' => some 9 | 'k' => some 10 | 'l' => some 11
  | 'm' => some 12 | 'n' => some 13 | 'o' => some 14 | 'p' => some 15
  | 'q' => some 16 | 'r' => some 17 | 's' => some 18 | 't' => some 19
  | 'u' => some 20 | 'v' => some 21 | 'w' => some 22 | 'x' => some 23
  | 'y' => some 24 | 'z' => some 25
  | '2' => some 26 | '3' => some 27 | '4' => some 28 | '5' => some 29
  | '6' => some 30 | '7' => some 31
  | _ => none

/-- The inner `for (j = 0; j < 8; j++)` loop of `encodeBase32_internal`.
Note the second branch is verbatim from the source, including its
`<< (6 - bufferBitSize)` / `& 0x3f` constants; it is dead code because
the bit size is normalised to a multiple of 5 before this loop runs. -/
def encode32Emit (buffer : Nat) (alphabet : List Char)
    (padding : EncodingPadding) : Nat → Nat → List Char
  | 0, _ => []
  | fuel + 1, bufferBitSize =>
    if 5 ≤ bufferBitSize then
      alphabet.getD ((buffer >>> (bufferBitSize - 5)) &&& 0x1f) ' ' ::
        encode32Emit buffer alphabet padding fuel (bufferBitSize - 5)
    else if 0 < bufferBitSize then
      alphabet.getD ((buffer <<< (6 - bufferBitSize)) &&& 0x3f) ' ' ::
        encode32Emit buffer alphabet padding fuel 0
    else if padding = EncodingPadding.Include then
      '=' :: encode32Emit buffer alphabet padding fuel bufferBitSize
    else
      encode32Emit buffer alphabet padding fuel bufferBitSize

/-- One 5-byte (or shorter, final) chunk of `encodeBase32_internal`:
first the bit size is padded up to a multiple of 5 by a left shift
(zero bits on the right), then eight positions are emitted. -/
def encode32Chunk (chunk : List Nat) (alphabet : List Char)
    (padding : EncodingPadding) : List Char :=
  if 8 * chunk.length % 5 ≠ 0 then
    encode32Emit (byteBuffer chunk <<< (5 - 8 * chunk.length % 5)) alphabet padding
      8 (8 * chunk.length + (5 - 8 * chunk.length % 5))
  else
    encode32Emit (byteBuffer chunk) alphabet padding 8 (8 * chunk.length)

/-- `encodeBase32_internal` (base32.ts): five bytes per chunk. -/
def encodeBase32_internal : List Nat → List Char → EncodingPadding → List Char
  | [], _, _ => []
  | b0 :: b1 :: b2 :: b3 :: b4 :: rest, alphabet, padding =>
    encode32Chunk [b0, b1, b2, b3, b4] alphabet padding ++
      encodeBase32_internal rest alphabet padding
  | chunk, alphabet, padding => encode32Chunk chunk alphabet padding

/-- `encodeBase32UpperCase` (base32.ts). -/
def encodeBase32UpperCase (bytes : List Nat) : List Char :=
  encodeBase32_internal bytes base32UpperCaseAlphabet EncodingPadding.Include

/-- `encodeBase32UpperCaseNoPadding` (base32.ts). -/
def encodeBase32UpperCaseNoPadding (bytes : List Nat) : List Char :=
  encodeBase32_internal bytes base32UpperCaseAlphabet EncodingPadding.None

/-- `encodeBase32LowerCase` (base32.ts). -/
def encodeBase32LowerCase (bytes : List Nat) : List Char :=
  encodeBase32_internal bytes base32LowerCaseAlphabet EncodingPadding.Include

/-- `encodeBase32LowerCaseNoPadding` (base32.ts). -/
def encodeBase32LowerCaseNoPadding (bytes : List Nat) : List Char :=
  encodeBase32_internal bytes base32LowerCaseAlphabet EncodingPadding.None

/-- `encodeBase32` (base32.ts), an alias for the padded upper-case form. -/
def encodeBase32 (bytes : List Nat) : List Char :=
  encodeBase32UpperCase bytes

/-- `encodeBase32NoPadding` (base32.ts). -/
def encodeBase32NoPadding (bytes : List Nat) : List Char :=
  encodeBase32UpperCaseNoPadding bytes

/-- The inner `for (j = 0; j < 8; j++)` loop of `decodeBase32_internal`.
Unlike Base64, required mode has an explicit end-of-input check
(`if (i + j >= encoded.length) throw Invalid padding`) right after the
pad skip. -/
def decode32Go (w : List Char) (decodeMap : Char → Option Nat)
    (padding : DecodingPadding) : Nat → Nat → Nat → Nat → Except Err (Nat × Nat)
  | 0, _, chunk, bitsRead => .ok (chunk, bitsRead)
  | fuel + 1, j, chunk, bitsRead =>
    if padding = DecodingPadding.Required ∧ w[j]? = some '=' then
      decode32Go w decodeMap padding fuel (j + 1) chunk bitsRead
    else if padding = DecodingPadding.Required ∧ w.length ≤ j then
      .error Err.invalidPadding
    else if padding = DecodingPadding.Ignore ∧ (w.length ≤ j ∨ w[j]? = some '=') then
      decode32Go w decodeMap padding fuel (j + 1) chunk bitsRead
    else if 0 < j ∧ w[j - 1]? = some '=' then
      .error Err.invalidPadding
    else
      match w[j]? with
      | none => .error Err.invalidCharacter
      | some c =>
        match decodeMap c with
        | none => .error Err.invalidCharacter
        | some v =>
          decode32Go w decodeMap padding fuel (j + 1)
            (chunk ||| (v <<< ((7 - j) * 5))) (bitsRead + 5)

/-- The post-window validation and byte extraction of
`decodeBase32_internal`: a short window must have read 10, 20, 25 or 35
bits with zero unused low bits, else `Invalid padding`; then
`floor(bitsRead / 8)` bytes come off the top of the 40-bit accumulator. -/
def decode32Finish (chunk bitsRead : Nat) : Except Err (List Nat) :=
  if bitsRead < 40 then
    if bitsRead = 10 then
      if chunk &&& 0xffffffff ≠ 0 then .error Err.invalidPadding
      else .ok ((List.range (bitsRead / 8)).map
        (fun i => (chunk >>> (32 - i * 8)) &&& 0xff))
    else if bitsRead = 20 then
      if chunk &&& 0xffffff ≠ 0 then .error Err.invalidPadding
      else .ok ((List.range (bitsRead / 8)).map
        (fun i => (chunk >>> (32 - i * 8)) &&& 0xff))
    else if bitsRead = 25 then
      if chunk &&& 0xffff ≠ 0 then .error Err.invalidPadding
      else .ok ((List.range (bitsRead / 8)).map
        (fun i => (chunk >>> (32 - i * 8)) &&& 0xff))
    else if bitsRead = 35 then
      if chunk &&& 0xff ≠ 0 then .error Err.invalidPadding
      else .ok ((List.range (bitsRead / 8)).map
        (fun i => (chunk >>> (32 - i * 8)) &&& 0xff))
    else .error Err.invalidPadding
  else .ok ((List.range (bitsRead / 8)).map
    (fun i => (chunk >>> (32 - i * 8)) &&& 0xff))

/-- `decodeBase32_internal` (base32.ts): eight characters per window. -/
def decodeBase32_internal : List Char → (Char → Option Nat) → DecodingPadding →
    Except Err (List Nat)
  | [], _, _ => .ok []
  | c0 :: c1 :: c2 :: c3 :: c4 :: c5 :: c6 :: c7 :: rest, decodeMap, padding =>
    match decode32Go [c0, c1, c2, c3, c4, c5, c6, c7] decodeMap padding 8 0 0 0 with
    | .error e => .error e
    | .ok (chunk, bitsRead) =>
      match decode32Finish chunk bitsRead with
      | .error e => .error e
      | .ok bytes =>
        match decodeBase32_internal rest decodeMap padding with
        | .error e => .error e
        | .ok restBytes => .ok (bytes ++ restBytes)
  | w, decodeMap, padding =>
    match decode32Go w decodeMap padding 8 0 0 0 with
    | .error e => .error e
    | .ok (chunk, bitsRead) =>
      match decode32Finish chunk bitsRead with
      | .error e => .error e
      | .ok bytes => .ok bytes

/-- `decodeBase32` (base32.ts). -/
def decodeBase32 (encoded : List Char) : Except Err (List Nat) :=
  decodeBase32_internal encoded base32DecodeMap DecodingPadding.Required

/-- `decodeBase32IgnorePadding` (base32.ts). -/
def decodeBase32IgnorePadding (encoded : List Char) : Except Err (List Nat) :=
  decodeBase32_internal encoded base32DecodeMap DecodingPadding.Ignore

/-! ## Positions at which a decode window is certain to fail

`ErrorPos64 w dm p t` states that iteration `t` of the Base64 window
loop on window `w` throws whatever the accumulator state is: either the
position is out of range in `Required` mode, or it holds an in-range
character that is neither the pad nor in the decode map, or it holds a
non-pad character directly preceded by a pad.  `ErrorPos32` is the same
for the Base32 window loop. -/
def ErrorPos64 (w : List Char) (dm : Char → Option Nat) (p : DecodingPadding)
    (t : Nat) : Prop :=
  (p = DecodingPadding.Required ∧ w[t]? = none) ∨
  (∃ c, w[t]? = some c ∧ c ≠ '=' ∧ dm c = none) ∨
  (∃ c, w[t]? = some c ∧ c ≠ '=' ∧ 0 < t ∧ w[t - 1]? = some '=')

def ErrorPos32 (w : List Char) (dm : Char → Option Nat) (p : DecodingPadding)
    (t : Nat) : Prop :=
  (p = DecodingPadding.Required ∧ w[t]? = none) ∨
  (∃ c, w[t]? = some c ∧ c ≠ '=' ∧ dm c = none) ∨
  (∃ c, w[t]? = some c ∧ c ≠ '=' ∧ 0 < t ∧ w[t - 1]? = some '=')

/-! ## Bit-arithmetic toolkit

The source manipulates the bit buffer with `<<`, `>>`, `|`, `&`; the
proofs translate those into `*`, `/`, `%` so that `omega` can finish. -/

/-- Disjoint bitwise or is addition: if `x` is a multiple of `2 ^ n` and
`y` fits in `n` bits then `x ||| y = x + y`. -/
theorem lor_disj (x y n : Nat) (hx : x % 2 ^ n = 0) (hy : y < 2 ^ n) :
    x ||| y = x + y := by
  have hxx : 2 ^ n * (x / 2 ^ n) = x :=
    Nat.mul_div_cancel' (Nat.dvd_of_mod_eq_zero hx)
  calc x ||| y = 2 ^ n * (x / 2 ^ n) ||| y := by rw [hxx]
    _ = 2 ^ n * (x / 2 ^ n) + y := (Nat.mul_add_lt_is_or hy _).symm
    _ = x + y := by rw [hxx]

/-- `lor_disj` with the power of two given as a plain numeral, so the
side conditions stay within omega reach. -/
theorem lor_disj_num (x y n m : Nat) (hm : 2 ^ n = m) (hx : x % m = 0)
    (hy : y < m) : x ||| y = x + y := by
  subst hm
  exact lor_disj x y n hx hy

/-- `(acc << 8) | b` appends one byte to the bit buffer. -/
theorem shiftByte (acc b : Nat) (hb : b < 256) :
    (acc <<< 8) ||| b = acc * 256 + b := by
  have h := lor_disj (acc <<< 8) b 8
    (by simp [Nat.shiftLeft_eq]) (by simpa using hb)
  rw [h, Nat.shiftLeft_eq]

theorem byteBuffer_one (b0 : Nat) : byteBuffer [b0] = b0 := by
  simp [byteBuffer, List.foldl, Nat.shiftLeft_eq]

theorem byteBuffer_two (b0 b1 : Nat) (hb1 : b1 < 256) :
    byteBuffer [b0, b1] = b0 * 256 + b1 := by
  have h0 : ((0 : Nat) <<< 8) ||| b0 = b0 := by simp
  simp only [byteBuffer, List.foldl, h0]
  exact shiftByte b0 b1 hb1

theorem byteBuffer_three (b0 b1 b2 : Nat) (hb1 : b1 < 256) (hb2 : b2 < 256) :
    byteBuffer [b0, b1, b2] = b0 * 65536 + b1 * 256 + b2 := by
  have h0 : ((0 : Nat) <<< 8) ||| b0 = b0 := by simp
  simp only [byteBuffer, List.foldl, h0]
  rw [shiftByte b0 b1 hb1, shiftByte _ b2 hb2]
  ring

theorem byteBuffer_four (b0 b1 b2 b3 : Nat) (hb1 : b1 < 256) (hb2 : b2 < 256)
    (hb3 : b3 < 256) :
    byteBuffer [b0, b1, b2, b3] = b0 * 16777216 + b1 * 65536 + b2 * 256 + b3 := by
  have h0 : ((0 : Nat) <<< 8) ||| b0 = b0 := by simp
  simp only [byteBuffer, List.foldl, h0]
  rw [shiftByte b0 b1 hb1, shiftByte _ b2 hb2, shiftByte _ b3 hb3]
  ring

theorem byteBuffer_five (b0 b1 b2 b3 b4 : Nat) (hb1 : b1 < 256) (hb2 : b2 < 256)
    (hb3 : b3 < 256) (hb4 : b4 < 256) :
    byteBuffer [b0, b1, b2, b3, b4] =
      b0 * 4294967296 + b1 * 16777216 + b2 * 65536 + b3 * 256 + b4 := by
  have h0 : ((0 : Nat) <<< 8) ||| b0 = b0 := by simp
  simp only [byteBuffer, List.foldl, h0]
  rw [shiftByte b0 b1 hb1, shiftByte _ b2 hb2, shiftByte _ b3 hb3,
    shiftByte _ b4 hb4]
  ring

/-! ## Alphabet / decode-map inverse facts -/

/-- The standard Base64 decode map inverts the standard alphabet, and no
alphabet character is the pad. -/
theorem base64_inv :
    ∀ v < 64, base64DecodeMap (base64Alphabet.getD v ' ') = some v ∧
      base64Alphabet.getD v ' ' ≠ '=' := by decide

/-- The Base64url decode map inverts the url alphabet. -/
theorem base64url_inv :
    ∀ v < 64, base64urlDecodeMap (base64urlAlphabet.getD v ' ') = some v ∧
      base64urlAlphabet.getD v ' ' ≠ '=' := by decide

/-- The (case-insensitive) Base32 decode map inverts the upper-case
alphabet. -/
theorem base32_upper_inv :
    ∀ v < 32, base32DecodeMap (base32UpperCaseAlphabet.getD v ' ') = some v ∧
      base32UpperCaseAlphabet.getD v ' ' ≠ '=' := by decide

/-- The (case-insensitive) Base32 decode map inverts the lower-case
alphabet. -/
theorem base32_lower_inv :
    ∀ v < 32, base32DecodeMap (base32LowerCaseAlphabet.getD v ' ') = some v ∧
      base32LowerCaseAlphabet.getD v ' ' ≠ '=' := by decide

/-- The hex decode map inverts the upper-case hex alphabet. -/
theorem hex_upper_inv :
    ∀ v < 16, hexDecodeMap (hexAlphabetUpperCase.getD v ' ') = some v := by decide

/-- The hex decode map inverts the lower-case hex alphabet. -/
theorem hex_lower_inv :
    ∀ v < 16, hexDecodeMap (hexAlphabetLowerCase.getD v ' ') = some v := by decide

/-! ## Base64: evaluation of the encoder window -/

theorem encode64Emit_24 (buffer : Nat) (alphabet : List Char) (p : EncodingPadding) :
    encode64Emit buffer alphabet p 4 24 =
      [alphabet.getD ((buffer >>> 18) &&& 63) ' ',
       alphabet.getD ((buffer >>> 12) &&& 63) ' ',
       alphabet.getD ((buffer >>> 6) &&& 63) ' ',
       alphabet.getD (buffer &&& 63) ' '] := by
  rfl

theorem encode64Emit_16 (buffer : Nat) (alphabet : List Char) (p : EncodingPadding) :
    encode64Emit buffer alphabet p 4 16 =
      [alphabet.getD ((buffer >>> 10) &&& 63) ' ',
       alphabet.getD ((buffer >>> 4) &&& 63) ' ',
       alphabet.getD ((buffer <<< 2) &&& 63) ' '] ++
      (if p = EncodingPadding.Include then ['='] else []) := by
  cases p <;> rfl

theorem encode64Emit_8 (buffer : Nat) (alphabet : List Char) (p : EncodingPadding) :
    encode64Emit buffer alphabet p 4 8 =
      [alphabet.getD ((buffer >>> 2) &&& 63) ' ',
       alphabet.getD ((buffer <<< 4) &&& 63) ' '] ++
      (if p = EncodingPadding.Include then ['=', '='] else []) := by
  cases p <;> rfl

/-! ## Base64: evaluation of the decoder window on well-formed windows -/

theorem decode64Go_data4 (decodeMap : Char → Option Nat) (p : DecodingPadding)
    (x0 x1 x2 x3 : Char) (e0 e1 e2 e3 : Nat)
    (h0 : decodeMap x0 = some e0) (n0 : x0 ≠ '=')
    (h1 : decodeMap x1 = some e1) (n1 : x1 ≠ '=')
    (h2 : decodeMap x2 = some e2) (n2 : x2 ≠ '=')
    (h3 : decodeMap x3 = some e3) (n3 : x3 ≠ '=')
    (he0 : e0 < 64) (he1 : e1 < 64) (he2 : e2 < 64) (he3 : e3 < 64) :
    decode64Go [x0, x1, x2, x3] decodeMap p 4 0 0 0 =
      .ok (e0 * 262144 + e1 * 4096 + e2 * 64 + e3, 24) := by
  simp [decode64Go, h0, h1, h2, h3, n0, n1, n2, n3]
  rw [Nat.shiftLeft_eq, Nat.shiftLeft_eq, Nat.shiftLeft_eq]
  norm_num
  rw [lor_disj_num (e0 * 262144) (e1 * 4096) 18 262144 (by norm_num)
        (by omega) (by omega),
      lor_disj_num (e0 * 262144 + e1 * 4096) (e2 * 64) 12 4096 (by norm_num)
        (by omega) (by omega),
      lor_disj_num (e0 * 262144 + e1 * 4096 + e2 * 64) e3 6 64 (by norm_num)
        (by omega) (by omega)]

theorem decode64Go_data3 (decodeMap : Char → Option Nat) (p : DecodingPadding)
    (x0 x1 x2 : Char) (e0 e1 e2 : Nat)
    (h0 : decodeMap x0 = some e0) (n0 : x0 ≠ '=')
    (h1 : decodeMap x1 = some e1) (n1 : x1 ≠ '=')
    (h2 : decodeMap x2 = some e2) (n2 : x2 ≠ '=')
    (he0 : e0 < 64) (he1 : e1 < 64) (he2 : e2 < 64)
    (w : List Char)
    (hw : (p = DecodingPadding.Required ∧ w = [x0, x1, x2, '=']) ∨
      (p = DecodingPadding.Ignore ∧ (w = [x0, x1, x2, '='] ∨ w = [x0, x1, x2]))) :
    decode64Go w decodeMap p 4 0 0 0 =
      .ok (e0 * 262144 + e1 * 4096 + e2 * 64, 18) := by
  have harith : e0 <<< 18 ||| e1 <<< 12 ||| e2 <<< 6 =
      e0 * 262144 + e1 * 4096 + e2 * 64 := by
    rw [Nat.shiftLeft_eq, Nat.shiftLeft_eq, Nat.shiftLeft_eq]
    norm_num
    rw [lor_disj_num (e0 * 262144) (e1 * 4096) 18 262144 (by norm_num)
          (by omega) (by omega),
        lor_disj_num (e0 * 262144 + e1 * 4096) (e2 * 64) 12 4096 (by norm_num)
          (by omega) (by omega)]
  rcases hw with ⟨hp, hw⟩ | ⟨hp, hw | hw⟩ <;> subst hp <;> subst hw <;>
    simp [decode64Go, h0, h1, h2, n0, n1, n2, harith]

theorem decode64Go_data2 (decodeMap : Char → Option Nat) (p : DecodingPadding)
    (x0 x1 : Char) (e0 e1 : Nat)
    (h0 : decodeMap x0 = some e0) (n0 : x0 ≠ '=')
    (h1 : decodeMap x1 = some e1) (n1 : x1 ≠ '=')
    (he0 : e0 < 64) (he1 : e1 < 64)
    (w : List Char)
    (hw : (p = DecodingPadding.Required ∧ w = [x0, x1, '=', '=']) ∨
      (p = DecodingPadding.Ignore ∧ (w = [x0, x1, '=', '='] ∨ w = [x0, x1]))) :
    decode64Go w decodeMap p 4 0 0 0 = .ok (e0 * 262144 + e1 * 4096, 12) := by
  have harith : e0 <<< 18 ||| e1 <<< 12 = e0 * 262144 + e1 * 4096 := by
    rw [Nat.shiftLeft_eq, Nat.shiftLeft_eq]
    norm_num
    rw [lor_disj_num (e0 * 262144) (e1 * 4096) 18 262144 (by norm_num)
          (by omega) (by omega)]
  rcases hw with ⟨hp, hw⟩ | ⟨hp, hw | hw⟩ <;> subst hp <;> subst hw <;>
    simp [decode64Go, h0, h1, n0, n1, harith]

/-! ## Mask lemmas: `& (2^n - 1)` is `% 2^n` -/

theorem and15 (x : Nat) : x &&& 15 = x % 16 := by
  have h := Nat.and_pow_two_sub_one_eq_mod x 4
  norm_num at h
  exact h

theorem and31 (x : Nat) : x &&& 31 = x % 32 := by
  have h := Nat.and_pow_two_sub_one_eq_mod x 5
  norm_num at h
  exact h

theorem and63 (x : Nat) : x &&& 63 = x % 64 := by
  have h := Nat.and_pow_two_sub_one_eq_mod x 6
  norm_num at h
  exact h

theorem and255 (x : Nat) : x &&& 255 = x % 256 := by
  have h := Nat.and_pow_two_sub_one_eq_mod x 8
  norm_num at h
  exact h

theorem and65535 (x : Nat) : x &&& 65535 = x % 65536 := by
  have h := Nat.and_pow_two_sub_one_eq_mod x 16
  norm_num at h
  exact h

theorem and16777215 (x : Nat) : x &&& 16777215 = x % 16777216 := by
  have h := Nat.and_pow_two_sub_one_eq_mod x 24
  norm_num at h
  exact h

theorem and4294967295 (x : Nat) : x &&& 4294967295 = x % 4294967296 := by
  have h := Nat.and_pow_two_sub_one_eq_mod x 32
  norm_num at h
  exact h

/-! ## Base64: window validation / extraction on the well-formed sizes -/

theorem decode64Finish_24 (chunk : Nat) :
    decode64Finish chunk 24 =
      .ok [(chunk >>> 16) &&& 255, (chunk >>> 8) &&& 255, chunk &&& 255] := rfl

theorem decode64Finish_18 (chunk : Nat) (h : chunk &&& 255 = 0) :
    decode64Finish chunk 18 = .ok [(chunk >>> 16) &&& 255, (chunk >>> 8) &&& 255] := by
  simp [decode64Finish, h]
  rfl

theorem decode64Finish_12 (chunk : Nat) (h : chunk &&& 65535 = 0) :
    decode64Finish chunk 12 = .ok [(chunk >>> 16) &&& 255] := by
  simp [decode64Finish, h]
  rfl

/-- Unfolding equation for `decodeBase64_internal` on a full window. -/
theorem decodeBase64_internal_cons4 (c0 c1 c2 c3 : Char) (rest : List Char)
    (decodeMap : Char → Option Nat) (padding : DecodingPadding) :
    decodeBase64_internal (c0 :: c1 :: c2 :: c3 :: rest) decodeMap padding =
      match decode64Go [c0, c1, c2, c3] decodeMap padding 4 0 0 0 with
      | .error e => .error e
      | .ok (chunk, bitsRead) =>
        match decode64Finish chunk bitsRead with
        | .error e => .error e
        | .ok bytes =>
          match decodeBase64_internal rest decodeMap padding with
          | .error e => .error e
          | .ok restBytes => .ok (bytes ++ restBytes) := rfl

/-- Decoding one full encoded 3-byte chunk prepends the three bytes. -/
theorem dec64_chunk3 (alphabet : List Char) (dm : Char → Option Nat)
    (hinv : ∀ v < 64, dm (alphabet.getD v ' ') = some v ∧ alphabet.getD v ' ' ≠ '=')
    (pe : EncodingPadding) (pd : DecodingPadding)
    (b0 b1 b2 : Nat) (hb0 : b0 < 256) (hb1 : b1 < 256) (hb2 : b2 < 256)
    (rest : List Char) :
    decodeBase64_internal (encode64Chunk [b0, b1, b2] alphabet pe ++ rest) dm pd =
      match decodeBase64_internal rest dm pd with
      | .error e => .error e
      | .ok bs => .ok (b0 :: b1 :: b2 :: bs) := by
  have hbuf : byteBuffer [b0, b1, b2] = b0 * 65536 + b1 * 256 + b2 :=
    byteBuffer_three b0 b1 b2 hb1 hb2
  have henc : encode64Chunk [b0, b1, b2] alphabet pe =
      [alphabet.getD (((b0 * 65536 + b1 * 256 + b2) >>> 18) &&& 63) ' ',
       alphabet.getD (((b0 * 65536 + b1 * 256 + b2) >>> 12) &&& 63) ' ',
       alphabet.getD (((b0 * 65536 + b1 * 256 + b2) >>> 6) &&& 63) ' ',
       alphabet.getD ((b0 * 65536 + b1 * 256 + b2) &&& 63) ' '] := by
    rw [encode64Chunk, hbuf, show (8 : Nat) * ([b0, b1, b2] : List Nat).length = 24
      from by simp, encode64Emit_24]
  have hv0 : ((b0 * 65536 + b1 * 256 + b2) >>> 18) &&& 63 < 64 := by
    rw [and63]; omega
  have hv1 : ((b0 * 65536 + b1 * 256 + b2) >>> 12) &&& 63 < 64 := by
    rw [and63]; omega
  have hv2 : ((b0 * 65536 + b1 * 256 + b2) >>> 6) &&& 63 < 64 := by
    rw [and63]; omega
  have hv3 : (b0 * 65536 + b1 * 256 + b2) &&& 63 < 64 := by
    rw [and63]; omega
  obtain ⟨hm0, hn0⟩ := hinv _ hv0
  obtain ⟨hm1, hn1⟩ := hinv _ hv1
  obtain ⟨hm2, hn2⟩ := hinv _ hv2
  obtain ⟨hm3, hn3⟩ := hinv _ hv3
  have hchunk : (((b0 * 65536 + b1 * 256 + b2) >>> 18) &&& 63) * 262144 +
      (((b0 * 65536 + b1 * 256 + b2) >>> 12) &&& 63) * 4096 +
      (((b0 * 65536 + b1 * 256 + b2) >>> 6) &&& 63) * 64 +
      ((b0 * 65536 + b1 * 256 + b2) &&& 63) = b0 * 65536 + b1 * 256 + b2 := by
    rw [and63, and63, and63, and63, Nat.shiftRight_eq_div_pow,
      Nat.shiftRight_eq_div_pow, Nat.shiftRight_eq_div_pow]
    norm_num
    omega
  have hbyte0 : ((b0 * 65536 + b1 * 256 + b2) >>> 16) &&& 255 = b0 := by
    rw [and255, Nat.shiftRight_eq_div_pow]
    norm_num
    omega
  have hbyte1 : ((b0 * 65536 + b1 * 256 + b2) >>> 8) &&& 255 = b1 := by
    rw [and255, Nat.shiftRight_eq_div_pow]
    norm_num
    omega
  have hbyte2 : (b0 * 65536 + b1 * 256 + b2) &&& 255 = b2 := by
    rw [and255]
    omega
  rw [henc]
  simp only [List.cons_append, List.nil_append]
  rw [decodeBase64_internal_cons4,
    decode64Go_data4 dm pd _ _ _ _ _ _ _ _ hm0 hn0 hm1 hn1 hm2 hn2 hm3 hn3
      hv0 hv1 hv2 hv3, hchunk]
  simp only [decode64Finish_24, hbyte0, hbyte1, hbyte2]
  cases decodeBase64_internal rest dm pd <;> rfl

/-- Unfolding equation for `decodeBase64_internal` on a final 3-char window. -/
theorem decodeBase64_internal_short3 (c0 c1 c2 : Char)
    (decodeMap : Char → Option Nat) (padding : DecodingPadding) :
    decodeBase64_internal [c0, c1, c2] decodeMap padding =
      match decode64Go [c0, c1, c2] decodeMap padding 4 0 0 0 with
      | .error e => .error e
      | .ok (chunk, bitsRead) =>
        match decode64Finish chunk bitsRead with
        | .error e => .error e
        | .ok bytes => .ok bytes := rfl

/-- Unfolding equation for `decodeBase64_internal` on a final 2-char window. -/
theorem decodeBase64_internal_short2 (c0 c1 : Char)
    (decodeMap : Char → Option Nat) (padding : DecodingPadding) :
    decodeBase64_internal [c0, c1] decodeMap padding =
      match decode64Go [c0, c1] decodeMap padding 4 0 0 0 with
      | .error e => .error e
      | .ok (chunk, bitsRead) =>
        match decode64Finish chunk bitsRead with
        | .error e => .error e
        | .ok bytes => .ok bytes := rfl

/-- Unfolding equation for `decodeBase64_internal` on a final 1-char window. -/
theorem decodeBase64_internal_short1 (c0 : Char)
    (decodeMap : Char → Option Nat) (padding : DecodingPadding) :
    decodeBase64_internal [c0] decodeMap padding =
      match decode64Go [c0] decodeMap padding 4 0 0 0 with
      | .error e => .error e
      | .ok (chunk, bitsRead) =>
        match decode64Finish chunk bitsRead with
        | .error e => .error e
        | .ok bytes => .ok bytes := rfl

/-- Decoding an encoded final 2-byte chunk (with its pad in `Include`
mode, or unpadded in `Ignore` mode) recovers the two bytes. -/
theorem dec64_chunk2 (alphabet : List Char) (dm : Char → Option Nat)
    (hinv : ∀ v < 64, dm (alphabet.getD v ' ') = some v ∧ alphabet.getD v ' ' ≠ '=')
    (pe : EncodingPadding) (pd : DecodingPadding)
    (hpad : pe = EncodingPadding.Include ∨ pd = DecodingPadding.Ignore)
    (b0 b1 : Nat) (hb0 : b0 < 256) (hb1 : b1 < 256) :
    decodeBase64_internal (encode64Chunk [b0, b1] alphabet pe) dm pd = .ok [b0, b1] := by
  have hbuf : byteBuffer [b0, b1] = b0 * 256 + b1 := byteBuffer_two b0 b1 hb1
  have hv0 : ((b0 * 256 + b1) >>> 10) &&& 63 < 64 := by rw [and63]; omega
  have hv1 : ((b0 * 256 + b1) >>> 4) &&& 63 < 64 := by rw [and63]; omega
  have hv2 : ((b0 * 256 + b1) <<< 2) &&& 63 < 64 := by rw [and63]; omega
  obtain ⟨hm0, hn0⟩ := hinv _ hv0
  obtain ⟨hm1, hn1⟩ := hinv _ hv1
  obtain ⟨hm2, hn2⟩ := hinv _ hv2
  have hzero : ((((b0 * 256 + b1) >>> 10) &&& 63) * 262144 +
      (((b0 * 256 + b1) >>> 4) &&& 63) * 4096 +
      (((b0 * 256 + b1) <<< 2) &&& 63) * 64) &&& 255 = 0 := by
    rw [and255, and63, and63, and63, Nat.shiftRight_eq_div_pow,
      Nat.shiftRight_eq_div_pow, Nat.shiftLeft_eq]
    norm_num
    omega
  have hbyte0 : ((((b0 * 256 + b1) >>> 10) &&& 63) * 262144 +
      (((b0 * 256 + b1) >>> 4) &&& 63) * 4096 +
      (((b0 * 256 + b1) <<< 2) &&& 63) * 64) >>> 16 &&& 255 = b0 := by
    rw [and255, and63, and63, and63, Nat.shiftRight_eq_div_pow,
      Nat.shiftRight_eq_div_pow, Nat.shiftRight_eq_div_pow, Nat.shiftLeft_eq]
    norm_num
    omega
  have hbyte1 : ((((b0 * 256 + b1) >>> 10) &&& 63) * 262144 +
      (((b0 * 256 + b1) >>> 4) &&& 63) * 4096 +
      (((b0 * 256 + b1) <<< 2) &&& 63) * 64) >>> 8 &&& 255 = b1 := by
    rw [and255, and63, and63, and63, Nat.shiftRight_eq_div_pow,
      Nat.shiftRight_eq_div_pow, Nat.shiftRight_eq_div_pow, Nat.shiftLeft_eq]
    norm_num
    omega
  cases pe with
  | Include =>
    have henc : encode64Chunk [b0, b1] alphabet EncodingPadding.Include =
        [alphabet.getD (((b0 * 256 + b1) >>> 10) &&& 63) ' ',
         alphabet.getD (((b0 * 256 + b1) >>> 4) &&& 63) ' ',
         alphabet.getD (((b0 * 256 + b1) <<< 2) &&& 63) ' ', '='] := by
      rw [encode64Chunk, hbuf, show (8 : Nat) * ([b0, b1] : List Nat).length = 16
        from by simp, encode64Emit_16]
      simp
    rw [henc, decodeBase64_internal_cons4]
    cases pd with
    | Required =>
      rw [decode64Go_data3 dm _ _ _ _ _ _ _ hm0 hn0 hm1 hn1 hm2 hn2 hv0 hv1 hv2 _
        (Or.inl ⟨rfl, rfl⟩)]
      simp only [decode64Finish_18 _ hzero, hbyte0, hbyte1]
      rfl
    | Ignore =>
      rw [decode64Go_data3 dm _ _ _ _ _ _ _ hm0 hn0 hm1 hn1 hm2 hn2 hv0 hv1 hv2 _
        (Or.inr ⟨rfl, Or.inl rfl⟩)]
      simp only [decode64Finish_18 _ hzero, hbyte0, hbyte1]
      rfl
  | None =>
    have hpd : pd = DecodingPadding.Ignore := by
      rcases hpad with h | h
      · exact absurd h (by decide)
      · exact h
    subst hpd
    have henc : encode64Chunk [b0, b1] alphabet EncodingPadding.None =
        [alphabet.getD (((b0 * 256 + b1) >>> 10) &&& 63) ' ',
         alphabet.getD (((b0 * 256 + b1) >>> 4) &&& 63) ' ',
         alphabet.getD (((b0 * 256 + b1) <<< 2) &&& 63) ' '] := by
      rw [encode64Chunk, hbuf, show (8 : Nat) * ([b0, b1] : List Nat).length = 16
        from by simp, encode64Emit_16]
      simp
    rw [henc, decodeBase64_internal_short3]
    rw [decode64Go_data3 dm _ _ _ _ _ _ _ hm0 hn0 hm1 hn1 hm2 hn2 hv0 hv1 hv2 _
      (Or.inr ⟨rfl, Or.inr rfl⟩)]
    simp only [decode64Finish_18 _ hzero, hbyte0, hbyte1]

/-- Decoding an encoded final 1-byte chunk recovers the byte. -/
theorem dec64_chunk1 (alphabet : List Char) (dm : Char → Option Nat)
    (hinv : ∀ v < 64, dm (alphabet.getD v ' ') = some v ∧ alphabet.getD v ' ' ≠ '=')
    (pe : EncodingPadding) (pd : DecodingPadding)
    (hpad : pe = EncodingPadding.Include ∨ pd = DecodingPadding.Ignore)
    (b0 : Nat) (hb0 : b0 < 256) :
    decodeBase64_internal (encode64Chunk [b0] alphabet pe) dm pd = .ok [b0] := by
  have hbuf : byteBuffer [b0] = b0 := byteBuffer_one b0
  have hv0 : (b0 >>> 2) &&& 63 < 64 := by rw [and63]; omega
  have hv1 : (b0 <<< 4) &&& 63 < 64 := by rw [and63]; omega
  obtain ⟨hm0, hn0⟩ := hinv _ hv0
  obtain ⟨hm1, hn1⟩ := hinv _ hv1
  have hzero : (((b0 >>> 2) &&& 63) * 262144 + ((b0 <<< 4) &&& 63) * 4096) &&&
      65535 = 0 := by
    rw [and65535, and63, and63, Nat.shiftRight_eq_div_pow, Nat.shiftLeft_eq]
    norm_num
    omega
  have hbyte0 : (((b0 >>> 2) &&& 63) * 262144 + ((b0 <<< 4) &&& 63) * 4096) >>> 16 &&&
      255 = b0 := by
    rw [and255, and63, and63, Nat.shiftRight_eq_div_pow, Nat.shiftRight_eq_div_pow,
      Nat.shiftLeft_eq]
    norm_num
    omega
  cases pe with
  | Include =>
    have henc : encode64Chunk [b0] alphabet EncodingPadding.Include =
        [alphabet.getD ((b0 >>> 2) &&& 63) ' ',
         alphabet.getD ((b0 <<< 4) &&& 63) ' ', '=', '='] := by
      rw [encode64Chunk, hbuf, show (8 : Nat) * ([b0] : List Nat).length = 8
        from by simp, encode64Emit_8]
      simp
    rw [henc, decodeBase64_internal_cons4]
    cases pd with
    | Required =>
      rw [decode64Go_data2 dm _ _ _ _ _ hm0 hn0 hm1 hn1 hv0 hv1 _
        (Or.inl ⟨rfl, rfl⟩)]
      simp only [decode64Finish_12 _ hzero, hbyte0]
      rfl
    | Ignore =>
      rw [decode64Go_data2 dm _ _ _ _ _ hm0 hn0 hm1 hn1 hv0 hv1 _
        (Or.inr ⟨rfl, Or.inl rfl⟩)]
      simp only [decode64Finish_12 _ hzero, hbyte0]
      rfl
  | None =>
    have hpd : pd = DecodingPadding.Ignore := by
      rcases hpad with h | h
      · exact absurd h (by decide)
      · exact h
    subst hpd
    have henc : encode64Chunk [b0] alphabet EncodingPadding.None =
        [alphabet.getD ((b0 >>> 2) &&& 63) ' ',
         alphabet.getD ((b0 <<< 4) &&& 63) ' '] := by
      rw [encode64Chunk, hbuf, show (8 : Nat) * ([b0] : List Nat).length = 8
        from by simp, encode64Emit_8]
      simp
    rw [henc, decodeBase64_internal_short2]
    rw [decode64Go_data2 dm _ _ _ _ _ hm0 hn0 hm1 hn1 hv0 hv1 _
      (Or.inr ⟨rfl, Or.inr rfl⟩)]
    simp only [decode64Finish_12 _ hzero, hbyte0]

/-- Base64 round trip, generic in alphabet/decode-map pair and in the
padding pairing: a padded encode decodes in either mode, an unpadded
encode decodes in `Ignore` mode. -/
theorem dec64_enc64 (alphabet : List Char) (dm : Char → Option Nat)
    (hinv : ∀ v < 64, dm (alphabet.getD v ' ') = some v ∧ alphabet.getD v ' ' ≠ '=')
    (pe : EncodingPadding) (pd : DecodingPadding)
    (hpad : pe = EncodingPadding.Include ∨ pd = DecodingPadding.Ignore) :
    ∀ (n : Nat) (B : List Nat), B.length ≤ n → (∀ b ∈ B, b < 256) →
      decodeBase64_internal (encodeBase64_internal B alphabet pe) dm pd = .ok B := by
  intro n
  induction n with
  | zero =>
    intro B hlen hB
    have hnil : B = [] := by
      cases B with
      | nil => rfl
      | cons b bs => simp at hlen
    subst hnil
    rfl
  | succ n ih =>
    intro B hlen hB
    match B with
    | [] => rfl
    | [b0] =>
      exact dec64_chunk1 alphabet dm hinv pe pd hpad b0 (hB b0 (by simp))
    | [b0, b1] =>
      exact dec64_chunk2 alphabet dm hinv pe pd hpad b0 b1 (hB b0 (by simp))
        (hB b1 (by simp))
    | b0 :: b1 :: b2 :: rest =>
      have hstep : encodeBase64_internal (b0 :: b1 :: b2 :: rest) alphabet pe =
          encode64Chunk [b0, b1, b2] alphabet pe ++
            encodeBase64_internal rest alphabet pe := rfl
      rw [hstep, dec64_chunk3 alphabet dm hinv pe pd b0 b1 b2 (hB b0 (by simp))
        (hB b1 (by simp)) (hB b2 (by simp)) _]
      rw [ih rest (by simp at hlen ⊢; omega) (fun b hb => hB b (by simp [hb]))]

/-! ## Hex round trip -/

theorem decHexGo_encHexUpper (B : List Nat) (hB : ∀ b ∈ B, b < 256) :
    decodeHexGo (encodeHexUpperCase B) = .ok B := by
  induction B with
  | nil => rfl
  | cons b rest ih =>
    have hb : b < 256 := hB b (by simp)
    have hv0 : b >>> 4 < 16 := by
      rw [Nat.shiftRight_eq_div_pow]
      norm_num
      omega
    have hv1 : b &&& 15 < 16 := by rw [and15]; omega
    have hm0 := hex_upper_inv _ hv0
    have hm1 := hex_upper_inv _ hv1
    have hbyte : ((b >>> 4) <<< 4) ||| (b &&& 15) = b := by
      rw [lor_disj_num _ _ 4 16 (by norm_num)
        (by rw [Nat.shiftLeft_eq]; norm_num) (by rw [and15]; omega)]
      rw [Nat.shiftLeft_eq, Nat.shiftRight_eq_div_pow, and15]
      norm_num
      omega
    have hstep : encodeHexUpperCase (b :: rest) =
        hexAlphabetUpperCase.getD (b >>> 4) ' ' ::
        hexAlphabetUpperCase.getD (b &&& 15) ' ' :: encodeHexUpperCase rest := rfl
    rw [hstep]
    have hrec : decodeHexGo (hexAlphabetUpperCase.getD (b >>> 4) ' ' ::
        hexAlphabetUpperCase.getD (b &&& 15) ' ' :: encodeHexUpperCase rest) =
        match hexDecodeMap (hexAlphabetUpperCase.getD (b >>> 4) ' ') with
        | none => .error Err.invalidCharacter
        | some hi =>
          match hexDecodeMap (hexAlphabetUpperCase.getD (b &&& 15) ' ') with
          | none => .error Err.invalidCharacter
          | some lo =>
            match decodeHexGo (encodeHexUpperCase rest) with
            | .error e => .error e
            | .ok bs => .ok (((hi <<< 4) ||| lo) :: bs) := rfl
    rw [hrec, hm0, hm1, ih (fun x hx => hB x (by simp [hx]))]
    simp only [hbyte]

theorem decHexGo_encHexLower (B : List Nat) (hB : ∀ b ∈ B, b < 256) :
    decodeHexGo (encodeHexLowerCase B) = .ok B := by
  induction B with
  | nil => rfl
  | cons b rest ih =>
    have hb : b < 256 := hB b (by simp)
    have hv0 : b >>> 4 < 16 := by
      rw [Nat.shiftRight_eq_div_pow]
      norm_num
      omega
    have hv1 : b &&& 15 < 16 := by rw [and15]; omega
    have hm0 := hex_lower_inv _ hv0
    have hm1 := hex_lower_inv _ hv1
    have hbyte : ((b >>> 4) <<< 4) ||| (b &&& 15) = b := by
      rw [lor_disj_num _ _ 4 16 (by norm_num)
        (by rw [Nat.shiftLeft_eq]; norm_num) (by rw [and15]; omega)]
      rw [Nat.shiftLeft_eq, Nat.shiftRight_eq_div_pow, and15]
      norm_num
      omega
    have hstep : encodeHexLowerCase (b :: rest) =
        hexAlphabetLowerCase.getD (b >>> 4) ' ' ::
        hexAlphabetLowerCase.getD (b &&& 15) ' ' :: encodeHexLowerCase rest := rfl
    rw [hstep]
    have hrec : decodeHexGo (hexAlphabetLowerCase.getD (b >>> 4) ' ' ::
        hexAlphabetLowerCase.getD (b &&& 15) ' ' :: encodeHexLowerCase rest) =
        match hexDecodeMap (hexAlphabetLowerCase.getD (b >>> 4) ' ') with
        | none => .error Err.invalidCharacter
        | some hi =>
          match hexDecodeMap (hexAlphabetLowerCase.getD (b &&& 15) ' ') with
          | none => .error Err.invalidCharacter
          | some lo =>
            match decodeHexGo (encodeHexLowerCase rest) with
            | .error e => .error e
            | .ok bs => .ok (((hi <<< 4) ||| lo) :: bs) := rfl
    rw [hrec, hm0, hm1, ih (fun x hx => hB x (by simp [hx]))]
    simp only [hbyte]

theorem encodeHexUpperCase_length (B : List Nat) :
    (encodeHexUpperCase B).length = 2 * B.length := by
  induction B with
  | nil => rfl
  | cons b rest ih => simp [encodeHexUpperCase, ih]; omega

theorem encodeHexLowerCase_length (B : List Nat) :
    (encodeHexLowerCase B).length = 2 * B.length := by
  induction B with
  | nil => rfl
  | cons b rest ih => simp [encodeHexLowerCase, ih]; omega

theorem decHex_encHexUpper (B : List Nat) (hB : ∀ b ∈ B, b < 256) :
    decodeHex (encodeHexUpperCase B) = .ok B := by
  rw [decodeHex, if_neg (by rw [encodeHexUpperCase_length]; omega)]
  exact decHexGo_encHexUpper B hB

theorem decHex_encHexLower (B : List Nat) (hB : ∀ b ∈ B, b < 256) :
    decodeHex (encodeHexLowerCase B) = .ok B := by
  rw [decodeHex, if_neg (by rw [encodeHexLowerCase_length]; omega)]
  exact decHexGo_encHexLower B hB

/-! ## Base32: evaluation of the encoder window -/

theorem encode32Emit_40 (buffer : Nat) (alphabet : List Char) (p : EncodingPadding) :
    encode32Emit buffer alphabet p 8 40 =
      [alphabet.getD ((buffer >>> 35) &&& 31) ' ',
       alphabet.getD ((buffer >>> 30) &&& 31) ' ',
       alphabet.getD ((buffer >>> 25) &&& 31) ' ',
       alphabet.getD ((buffer >>> 20) &&& 31) ' ',
       alphabet.getD ((buffer >>> 15) &&& 31) ' ',
       alphabet.getD ((buffer >>> 10) &&& 31) ' ',
       alphabet.getD ((buffer >>> 5) &&& 31) ' ',
       alphabet.getD (buffer &&& 31) ' '] := by
  rfl

theorem encode32Emit_35 (buffer : Nat) (alphabet : List Char) (p : EncodingPadding) :
    encode32Emit buffer alphabet p 8 35 =
      [alphabet.getD ((buffer >>> 30) &&& 31) ' ',
       alphabet.getD ((buffer >>> 25) &&& 31) ' ',
       alphabet.getD ((buffer >>> 20) &&& 31) ' ',
       alphabet.getD ((buffer >>> 15) &&& 31) ' ',
       alphabet.getD ((buffer >>> 10) &&& 31) ' ',
       alphabet.getD ((buffer >>> 5) &&& 31) ' ',
       alphabet.getD (buffer &&& 31) ' '] ++
      (if p = EncodingPadding.Include then ['='] else []) := by
  cases p <;> rfl

theorem encode32Emit_25 (buffer : Nat) (alphabet : List Char) (p : EncodingPadding) :
    encode32Emit buffer alphabet p 8 25 =
      [alphabet.getD ((buffer >>> 20) &&& 31) ' ',
       alphabet.getD ((buffer >>> 15) &&& 31) ' ',
       alphabet.getD ((buffer >>> 10) &&& 31) ' ',
       alphabet.getD ((buffer >>> 5) &&& 31) ' ',
       alphabet.getD (buffer &&& 31) ' '] ++
      (if p = EncodingPadding.Include then ['=', '=', '='] else []) := by
  cases p <;> rfl

theorem encode32Emit_20 (buffer : Nat) (alphabet : List Char) (p : EncodingPadding) :
    encode32Emit buffer alphabet p 8 20 =
      [alphabet.getD ((buffer >>> 15) &&& 31) ' ',
       alphabet.getD ((buffer >>> 10) &&& 31) ' ',
       alphabet.getD ((buffer >>> 5) &&& 31) ' ',
       alphabet.getD (buffer &&& 31) ' '] ++
      (if p = EncodingPadding.Include then ['=', '=', '=', '='] else []) := by
  cases p <;> rfl

theorem encode32Emit_10 (buffer : Nat) (alphabet : List Char) (p : EncodingPadding) :
    encode32Emit buffer alphabet p 8 10 =
      [alphabet.getD ((buffer >>> 5) &&& 31) ' ',
       alphabet.getD (buffer &&& 31) ' '] ++
      (if p = EncodingPadding.Include then ['=', '=', '=', '=', '=', '='] else []) := by
  cases p <;> rfl

/-! ## Base32: window validation / extraction on the well-formed sizes -/

theorem decode32Finish_40 (chunk : Nat) :
    decode32Finish chunk 40 =
      .ok [(chunk >>> 32) &&& 255, (chunk >>> 24) &&& 255, (chunk >>> 16) &&& 255,
        (chunk >>> 8) &&& 255, chunk &&& 255] := rfl

theorem decode32Finish_35 (chunk : Nat) (h : chunk &&& 255 = 0) :
    decode32Finish chunk 35 =
      .ok [(chunk >>> 32) &&& 255, (chunk >>> 24) &&& 255, (chunk >>> 16) &&& 255,
        (chunk >>> 8) &&& 255] := by
  simp [decode32Finish, h]
  rfl

theorem decode32Finish_25 (chunk : Nat) (h : chunk &&& 65535 = 0) :
    decode32Finish chunk 25 =
      .ok [(chunk >>> 32) &&& 255, (chunk >>> 24) &&& 255, (chunk >>> 16) &&& 255] := by
  simp [decode32Finish, h]
  rfl

theorem decode32Finish_20 (chunk : Nat) (h : chunk &&& 16777215 = 0) :
    decode32Finish chunk 20 =
      .ok [(chunk >>> 32) &&& 255, (chunk >>> 24) &&& 255] := by
  simp [decode32Finish, h]
  rfl

theorem decode32Finish_10 (chunk : Nat) (h : chunk &&& 4294967295 = 0) :
    decode32Finish chunk 10 = .ok [(chunk >>> 32) &&& 255] := by
  simp [decode32Finish, h]
  rfl

/-- Unfolding equation for `decodeBase32_internal` on a full window. -/
theorem decodeBase32_internal_cons8 (c0 c1 c2 c3 c4 c5 c6 c7 : Char)
    (rest : List Char) (decodeMap : Char → Option Nat) (padding : DecodingPadding) :
    decodeBase32_internal (c0 :: c1 :: c2 :: c3 :: c4 :: c5 :: c6 :: c7 :: rest)
        decodeMap padding =
      match decode32Go [c0, c1, c2, c3, c4, c5, c6, c7] decodeMap padding 8 0 0 0 with
      | .error e => .error e
      | .ok (chunk, bitsRead) =>
        match decode32Finish chunk bitsRead with
        | .error e => .error e
        | .ok bytes =>
          match decodeBase32_internal rest decodeMap padding with
          | .error e => .error e
          | .ok restBytes => .ok (bytes ++ restBytes) := rfl

/-- Unfolding equation for `decodeBase32_internal` on a short (1..7 char)
final window. -/
theorem decodeBase32_internal_short (w : List Char) (hne : w ≠ [])
    (hlt : w.length < 8) (decodeMap : Char → Option Nat) (padding : DecodingPadding) :
    decodeBase32_internal w decodeMap padding =
      match decode32Go w decodeMap padding 8 0 0 0 with
      | .error e => .error e
      | .ok (chunk, bitsRead) =>
        match decode32Finish chunk bitsRead with
        | .error e => .error e
        | .ok bytes => .ok bytes := by
  match w with
  | [] => exact absurd rfl hne
  | [c0] => rfl
  | [c0, c1] => rfl
  | [c0, c1, c2] => rfl
  | [c0, c1, c2, c3] => rfl
  | [c0, c1, c2, c3, c4] => rfl
  | [c0, c1, c2, c3, c4, c5] => rfl
  | [c0, c1, c2, c3, c4, c5, c6] => rfl
  | c0 :: c1 :: c2 :: c3 :: c4 :: c5 :: c6 :: c7 :: rest =>
    exact absurd hlt (by simp)

/-! ## Base32: evaluation of the decoder window on well-formed windows -/

theorem decode32Go_data8 (decodeMap : Char → Option Nat) (p : DecodingPadding)
    (x0 x1 x2 x3 x4 x5 x6 x7 : Char) (e0 e1 e2 e3 e4 e5 e6 e7 : Nat)
    (h0 : decodeMap x0 = some e0) (n0 : x0 ≠ '=')
    (h1 : decodeMap x1 = some e1) (n1 : x1 ≠ '=')
    (h2 : decodeMap x2 = some e2) (n2 : x2 ≠ '=')
    (h3 : decodeMap x3 = some e3) (n3 : x3 ≠ '=')
    (h4 : decodeMap x4 = some e4) (n4 : x4 ≠ '=')
    (h5 : decodeMap x5 = some e5) (n5 : x5 ≠ '=')
    (h6 : decodeMap x6 = some e6) (n6 : x6 ≠ '=')
    (h7 : decodeMap x7 = some e7) (n7 : x7 ≠ '=')
    (he0 : e0 < 32) (he1 : e1 < 32) (he2 : e2 < 32) (he3 : e3 < 32) (he4 : e4 < 32) (he5 : e5 < 32) (he6 : e6 < 32) (he7 : e7 < 32)
    :
    decode32Go [x0, x1, x2, x3, x4, x5, x6, x7] decodeMap p 8 0 0 0 =
      .ok (e0 * 34359738368 + e1 * 1073741824 + e2 * 33554432 + e3 * 1048576 + e4 * 32768 + e5 * 1024 + e6 * 32 + e7, 40) := by
  have harith : e0 <<< 35 ||| e1 <<< 30 ||| e2 <<< 25 ||| e3 <<< 20 ||| e4 <<< 15 ||| e5 <<< 10 ||| e6 <<< 5 ||| e7 =
      e0 * 34359738368 + e1 * 1073741824 + e2 * 33554432 + e3 * 1048576 + e4 * 32768 + e5 * 1024 + e6 * 32 + e7 := by
    rw [Nat.shiftLeft_eq, Nat.shiftLeft_eq, Nat.shiftLeft_eq, Nat.shiftLeft_eq, Nat.shiftLeft_eq, Nat.shiftLeft_eq, Nat.shiftLeft_eq]
    norm_num
    rw [lor_disj_num (e0 * 34359738368) (e1 * 1073741824) 35 34359738368 (by norm_num)
          (by omega) (by omega),
        lor_disj_num (e0 * 34359738368 + e1 * 1073741824) (e2 * 33554432) 30 1073741824 (by norm_num)
          (by omega) (by omega),
        lor_disj_num (e0 * 34359738368 + e1 * 1073741824 + e2 * 33554432) (e3 * 1048576) 25 33554432 (by norm_num)
          (by omega) (by omega),
        lor_disj_num (e0 * 34359738368 + e1 * 1073741824 + e2 * 33554432 + e3 * 1048576) (e4 * 32768) 20 1048576 (by norm_num)
          (by omega) (by omega),
        lor_disj_num (e0 * 34359738368 + e1 * 1073741824 + e2 * 33554432 + e3 * 1048576 + e4 * 32768) (e5 * 1024) 15 32768 (by norm_num)
          (by omega) (by omega),
        lor_disj_num (e0 * 34359738368 + e1 * 1073741824 + e2 * 33554432 + e3 * 1048576 + e4 * 32768 + e5 * 1024) (e6 * 32) 10 1024 (by norm_num)
          (by omega) (by omega),
        lor_disj_num (e0 * 34359738368 + e1 * 1073741824 + e2 * 33554432 + e3 * 1048576 + e4 * 32768 + e5 * 1024 + e6 * 32) (e7) 5 32 (by norm_num)
          (by omega) (by omega)]
  simp [decode32Go, h0, h1, h2, h3, h4, h5, h6, h7, n0, n1, n2, n3, n4, n5, n6, n7, harith]

theorem decode32Go_data7 (decodeMap : Char → Option Nat) (p : DecodingPadding)
    (x0 x1 x2 x3 x4 x5 x6 : Char) (e0 e1 e2 e3 e4 e5 e6 : Nat)
    (h0 : decodeMap x0 = some e0) (n0 : x0 ≠ '=')
    (h1 : decodeMap x1 = some e1) (n1 : x1 ≠ '=')
    (h2 : decodeMap x2 = some e2) (n2 : x2 ≠ '=')
    (h3 : decodeMap x3 = some e3) (n3 : x3 ≠ '=')
    (h4 : decodeMap x4 = some e4) (n4 : x4 ≠ '=')
    (h5 : decodeMap x5 = some e5) (n5 : x5 ≠ '=')
    (h6 : decodeMap x6 = some e6) (n6 : x6 ≠ '=')
    (he0 : e0 < 32) (he1 : e1 < 32) (he2 : e2 < 32) (he3 : e3 < 32) (he4 : e4 < 32) (he5 : e5 < 32) (he6 : e6 < 32)
    (w : List Char)
    (hw : (p = DecodingPadding.Required ∧ w = [x0, x1, x2, x3, x4, x5, x6, '=']) ∨
      (p = DecodingPadding.Ignore ∧ (w = [x0, x1, x2, x3, x4, x5, x6, '='] ∨
        w = [x0, x1, x2, x3, x4, x5, x6]))) :
    decode32Go w decodeMap p 8 0 0 0 =
      .ok (e0 * 34359738368 + e1 * 1073741824 + e2 * 33554432 + e3 * 1048576 + e4 * 32768 + e5 * 1024 + e6 * 32, 35) := by
  have harith : e0 <<< 35 ||| e1 <<< 30 ||| e2 <<< 25 ||| e3 <<< 20 ||| e4 <<< 15 ||| e5 <<< 10 ||| e6 <<< 5 =
      e0 * 34359738368 + e1 * 1073741824 + e2 * 33554432 + e3 * 1048576 + e4 * 32768 + e5 * 1024 + e6 * 32 := by
    rw [Nat.shiftLeft_eq, Nat.shiftLeft_eq, Nat.shiftLeft_eq, Nat.shiftLeft_eq, Nat.shiftLeft_eq, Nat.shiftLeft_eq, Nat.shiftLeft_eq]
    norm_num
    rw [lor_disj_num (e0 * 34359738368) (e1 * 1073741824) 35 34359738368 (by norm_num)
          (by omega) (by omega),
        lor_disj_num (e0 * 34359738368 + e1 * 1073741824) (e2 * 33554432) 30 1073741824 (by norm_num)
          (by omega) (by omega),
        lor_disj_num (e0 * 34359738368 + e1 * 1073741824 + e2 * 33554432) (e3 * 1048576) 25 33554432 (by norm_num)
          (by omega) (by omega),
        lor_disj_num (e0 * 34359738368 + e1 * 1073741824 + e2 * 33554432 + e3 * 1048576) (e4 * 32768) 20 1048576 (by norm_num)
          (by omega) (by omega),
        lor_disj_num (e0 * 34359738368 + e1 * 1073741824 + e2 * 33554432 + e3 * 1048576 + e4 * 32768) (e5 * 1024) 15 32768 (by norm_num)
          (by omega) (by omega),
        lor_disj_num (e0 * 34359738368 + e1 * 1073741824 + e2 * 33554432 + e3 * 1048576 + e4 * 32768 + e5 * 1024) (e6 * 32) 10 1024 (by norm_num)
          (by omega) (by omega)]
  rcases hw with ⟨hp, hw⟩ | ⟨hp, hw | hw⟩ <;> subst hp <;> subst hw <;>
    simp [decode32Go, h0, h1, h2, h3, h4, h5, h6, n0, n1, n2, n3, n4, n5, n6, harith]

theorem decode32Go_data5 (decodeMap : Char → Option Nat) (p : DecodingPadding)
    (x0 x1 x2 x3 x4 : Char) (e0 e1 e2 e3 e4 : Nat)
    (h0 : decodeMap x0 = some e0) (n0 : x0 ≠ '=')
    (h1 : decodeMap x1 = some e1) (n1 : x1 ≠ '=')
    (h2 : decodeMap x2 = some e2) (n2 : x2 ≠ '=')
    (h3 : decodeMap x3 = some e3) (n3 : x3 ≠ '=')
    (h4 : decodeMap x4 = some e4) (n4 : x4 ≠ '=')
    (he0 : e0 < 32) (he1 : e1 < 32) (he2 : e2 < 32) (he3 : e3 < 32) (he4 : e4 < 32)
    (w : List Char)
    (hw : (p = DecodingPadding.Required ∧ w = [x0, x1, x2, x3, x4, '=', '=', '=']) ∨
      (p = DecodingPadding.Ignore ∧ (w = [x0, x1, x2, x3, x4, '=', '=', '='] ∨
        w = [x0, x1, x2, x3, x4]))) :
    decode32Go w decodeMap p 8 0 0 0 =
      .ok (e0 * 34359738368 + e1 * 1073741824 + e2 * 33554432 + e3 * 1048576 + e4 * 32768, 25) := by
  have harith : e0 <<< 35 ||| e1 <<< 30 ||| e2 <<< 25 ||| e3 <<< 20 ||| e4 <<< 15 =
      e0 * 34359738368 + e1 * 1073741824 + e2 * 33554432 + e3 * 1048576 + e4 * 32768 := by
    rw [Nat.shiftLeft_eq, Nat.shiftLeft_eq, Nat.shiftLeft_eq, Nat.shiftLeft_eq, Nat.shiftLeft_eq]
    norm_num
    rw [lor_disj_num (e0 * 34359738368) (e1 * 1073741824) 35 34359738368 (by norm_num)
          (by omega) (by omega),
        lor_disj_num (e0 * 34359738368 + e1 * 1073741824) (e2 * 33554432) 30 1073741824 (by norm_num)
          (by omega) (by omega),
        lor_disj_num (e0 * 34359738368 + e1 * 1073741824 + e2 * 33554432) (e3 * 1048576) 25 33554432 (by norm_num)
          (by omega) (by omega),
        lor_disj_num (e0 * 34359738368 + e1 * 1073741824 + e2 * 33554432 + e3 * 1048576) (e4 * 32768) 20 1048576 (by norm_num)
          (by omega) (by omega)]
  rcases hw with ⟨hp, hw⟩ | ⟨hp, hw | hw⟩ <;> subst hp <;> subst hw <;>
    simp [decode32Go, h0, h1, h2, h3, h4, n0, n1, n2, n3, n4, harith]

theorem decode32Go_data4 (decodeMap : Char → Option Nat) (p : DecodingPadding)
    (x0 x1 x2 x3 : Char) (e0 e1 e2 e3 : Nat)
    (h0 : decodeMap x0 = some e0) (n0 : x0 ≠ '=')
    (h1 : decodeMap x1 = some e1) (n1 : x1 ≠ '=')
    (h2 : decodeMap x2 = some e2) (n2 : x2 ≠ '=')
    (h3 : decodeMap x3 = some e3) (n3 : x3 ≠ '=')
    (he0 : e0 < 32) (he1 : e1 < 32) (he2 : e2 < 32) (he3 : e3 < 32)
    (w : List Char)
    (hw : (p = DecodingPadding.Required ∧ w = [x0, x1, x2, x3, '=', '=', '=', '=']) ∨
      (p = DecodingPadding.Ignore ∧ (w = [x0, x1, x2, x3, '=', '=', '=', '='] ∨
        w = [x0, x1, x2, x3]))) :
    decode32Go w decodeMap p 8 0 0 0 =
      .ok (e0 * 34359738368 + e1 * 1073741824 + e2 * 33554432 + e3 * 1048576, 20) := by
  have harith : e0 <<< 35 ||| e1 <<< 30 ||| e2 <<< 25 ||| e3 <<< 20 =
      e0 * 34359738368 + e1 * 1073741824 + e2 * 33554432 + e3 * 1048576 := by
    rw [Nat.shiftLeft_eq, Nat.shiftLeft_eq, Nat.shiftLeft_eq, Nat.shiftLeft_eq]
    norm_num
    rw [lor_disj_num (e0 * 34359738368) (e1 * 1073741824) 35 34359738368 (by norm_num)
          (by omega) (by omega),
        lor_disj_num (e0 * 34359738368 + e1 * 1073741824) (e2 * 33554432) 30 1073741824 (by norm_num)
          (by omega) (by omega),
        lor_disj_num (e0 * 34359738368 + e1 * 1073741824 + e2 * 33554432) (e3 * 1048576) 25 33554432 (by norm_num)
          (by omega) (by omega)]
  rcases hw with ⟨hp, hw⟩ | ⟨hp, hw | hw⟩ <;> subst hp <;> subst hw <;>
    simp [decode32Go, h0, h1, h2, h3, n0, n1, n2, n3, harith]

theorem decode32Go_data2 (decodeMap : Char → Option Nat) (p : DecodingPadding)
    (x0 x1 : Char) (e0 e1 : Nat)
    (h0 : decodeMap x0 = some e0) (n0 : x0 ≠ '=')
    (h1 : decodeMap x1 = some e1) (n1 : x1 ≠ '=')
    (he0 : e0 < 32) (he1 : e1 < 32)
    (w : List Char)
    (hw : (p = DecodingPadding.Required ∧ w = [x0, x1, '=', '=', '=', '=', '=', '=']) ∨
      (p = DecodingPadding.Ignore ∧ (w = [x0, x1, '=', '=', '=', '=', '=', '='] ∨
        w = [x0, x1]))) :
    decode32Go w decodeMap p 8 0 0 0 =
      .ok (e0 * 34359738368 + e1 * 1073741824, 10) := by
  have harith : e0 <<< 35 ||| e1 <<< 30 =
      e0 * 34359738368 + e1 * 1073741824 := by
    rw [Nat.shiftLeft_eq, Nat.shiftLeft_eq]
    norm_num
    rw [lor_disj_num (e0 * 34359738368) (e1 * 1073741824) 35 34359738368 (by norm_num)
          (by omega) (by omega)]
  rcases hw with ⟨hp, hw⟩ | ⟨hp, hw | hw⟩ <;> subst hp <;> subst hw <;>
    simp [decode32Go, h0, h1, n0, n1, harith]

/-! ## Base32: chunk-level round trips -/

set_option maxHeartbeats 2000000 in
/-- Decoding an encoded full 5-byte Base32 chunk recovers its bytes. -/
theorem dec32_chunk5 (alphabet : List Char) (dm : Char → Option Nat)
    (hinv : ∀ v < 32, dm (alphabet.getD v ' ') = some v ∧ alphabet.getD v ' ' ≠ '=')
    (pe : EncodingPadding) (pd : DecodingPadding)
    (b0 b1 b2 b3 b4 : Nat) (hb0 : b0 < 256) (hb1 : b1 < 256) (hb2 : b2 < 256) (hb3 : b3 < 256) (hb4 : b4 < 256)
    (rest : List Char) :
    decodeBase32_internal (encode32Chunk [b0, b1, b2, b3, b4] alphabet pe ++ rest) dm pd =
      match decodeBase32_internal rest dm pd with
      | .error e => .error e
      | .ok bs => .ok (b0 :: b1 :: b2 :: b3 :: b4 :: bs) := by
  have hbuf : byteBuffer [b0, b1, b2, b3, b4] = b0 * 4294967296 + b1 * 16777216 + b2 * 65536 + b3 * 256 + b4 := byteBuffer_five b0 b1 b2 b3 b4 hb1 hb2 hb3 hb4
  have hv0 : ((b0 * 4294967296 + b1 * 16777216 + b2 * 65536 + b3 * 256 + b4) >>> 35) &&& 31 < 32 := by
    simp only [and15, and31, and63, and255, and65535, and16777215,
      and4294967295, Nat.shiftRight_eq_div_pow, Nat.shiftLeft_eq]
    norm_num
    omega
  have hv1 : ((b0 * 4294967296 + b1 * 16777216 + b2 * 65536 + b3 * 256 + b4) >>> 30) &&& 31 < 32 := by
    simp only [and15, and31, and63, and255, and65535, and16777215,
      and4294967295, Nat.shiftRight_eq_div_pow, Nat.shiftLeft_eq]
    norm_num
    omega
  have hv2 : ((b0 * 4294967296 + b1 * 16777216 + b2 * 65536 + b3 * 256 + b4) >>> 25) &&& 31 < 32 := by
    simp only [and15, and31, and63, and255, and65535, and16777215,
      and4294967295, Nat.shiftRight_eq_div_pow, Nat.shiftLeft_eq]
    norm_num
    omega
  have hv3 : ((b0 * 4294967296 + b1 * 16777216 + b2 * 65536 + b3 * 256 + b4) >>> 20) &&& 31 < 32 := by
    simp only [and15, and31, and63, and255, and65535, and16777215,
      and4294967295, Nat.shiftRight_eq_div_pow, Nat.shiftLeft_eq]
    norm_num
    omega
  have hv4 : ((b0 * 4294967296 + b1 * 16777216 + b2 * 65536 + b3 * 256 + b4) >>> 15) &&& 31 < 32 := by
    simp only [and15, and31, and63, and255, and65535, and16777215,
      and4294967295, Nat.shiftRight_eq_div_pow, Nat.shiftLeft_eq]
    norm_num
    omega
  have hv5 : ((b0 * 4294967296 + b1 * 16777216 + b2 * 65536 + b3 * 256 + b4) >>> 10) &&& 31 < 32 := by
    simp only [and15, and31, and63, and255, and65535, and16777215,
      and4294967295, Nat.shiftRight_eq_div_pow, Nat.shiftLeft_eq]
    norm_num
    omega
  have hv6 : ((b0 * 4294967296 + b1 * 16777216 + b2 * 65536 + b3 * 256 + b4) >>> 5) &&& 31 < 32 := by
    simp only [and15, and31, and63, and255, and65535, and16777215,
      and4294967295, Nat.shiftRight_eq_div_pow, Nat.shiftLeft_eq]
    norm_num
    omega
  have hv7 : (b0 * 4294967296 + b1 * 16777216 + b2 * 65536 + b3 * 256 + b4) &&& 31 < 32 := by
    simp only [and15, and31, and63, and255, and65535, and16777215,
      and4294967295, Nat.shiftRight_eq_div_pow, Nat.shiftLeft_eq]
    norm_num
    omega
  obtain ⟨hm0, hn0⟩ := hinv _ hv0
  obtain ⟨hm1, hn1⟩ := hinv _ hv1
  obtain ⟨hm2, hn2⟩ := hinv _ hv2
  obtain ⟨hm3, hn3⟩ := hinv _ hv3
  obtain ⟨hm4, hn4⟩ := hinv _ hv4
  obtain ⟨hm5, hn5⟩ := hinv _ hv5
  obtain ⟨hm6, hn6⟩ := hinv _ hv6
  obtain ⟨hm7, hn7⟩ := hinv _ hv7
  have hchunk : (((b0 * 4294967296 + b1 * 16777216 + b2 * 65536 + b3 * 256 + b4) >>> 35) &&& 31) * 34359738368 + (((b0 * 4294967296 + b1 * 16777216 + b2 * 65536 + b3 * 256 + b4) >>> 30) &&& 31) * 1073741824 + (((b0 * 4294967296 + b1 * 16777216 + b2 * 65536 + b3 * 256 + b4) >>> 25) &&& 31) * 33554432 + (((b0 * 4294967296 + b1 * 16777216 + b2 * 65536 + b3 * 256 + b4) >>> 20) &&& 31) * 1048576 + (((b0 * 4294967296 + b1 * 16777216 + b2 * 65536 + b3 * 256 + b4) >>> 15) &&& 31) * 32768 + (((b0 * 4294967296 + b1 * 16777216 + b2 * 65536 + b3 * 256 + b4) >>> 10) &&& 31) * 1024 + (((b0 * 4294967296 + b1 * 16777216 + b2 * 65536 + b3 * 256 + b4) >>> 5) &&& 31) * 32 + ((b0 * 4294967296 + b1 * 16777216 + b2 * 65536 + b3 * 256 + b4) &&& 31) =
      b0 * 4294967296 + b1 * 16777216 + b2 * 65536 + b3 * 256 + b4 := by
    simp only [and15, and31, and63, and255, and65535, and16777215,
      and4294967295, Nat.shiftRight_eq_div_pow, Nat.shiftLeft_eq]
    norm_num
    omega
  have hbyte0 : ((b0 * 4294967296 + b1 * 16777216 + b2 * 65536 + b3 * 256 + b4) >>> 32) &&& 255 = b0 := by
    simp only [and15, and31, and63, and255, and65535, and16777215,
      and4294967295, Nat.shiftRight_eq_div_pow, Nat.shiftLeft_eq]
    norm_num
    omega
  have hbyte1 : ((b0 * 4294967296 + b1 * 16777216 + b2 * 65536 + b3 * 256 + b4) >>> 24) &&& 255 = b1 := by
    simp only [and15, and31, and63, and255, and65535, and16777215,
      and4294967295, Nat.shiftRight_eq_div_pow, Nat.shiftLeft_eq]
    norm_num
    omega
  have hbyte2 : ((b0 * 4294967296 + b1 * 16777216 + b2 * 65536 + b3 * 256 + b4) >>> 16) &&& 255 = b2 := by
    simp only [and15, and31, and63, and255, and65535, and16777215,
      and4294967295, Nat.shiftRight_eq_div_pow, Nat.shiftLeft_eq]
    norm_num
    omega
  have hbyte3 : ((b0 * 4294967296 + b1 * 16777216 + b2 * 65536 + b3 * 256 + b4) >>> 8) &&& 255 = b3 := by
    simp only [and15, and31, and63, and255, and65535, and16777215,
      and4294967295, Nat.shiftRight_eq_div_pow, Nat.shiftLeft_eq]
    norm_num
    omega
  have hbyte4 : (b0 * 4294967296 + b1 * 16777216 + b2 * 65536 + b3 * 256 + b4) &&& 255 = b4 := by
    simp only [and15, and31, and63, and255, and65535, and16777215,
      and4294967295, Nat.shiftRight_eq_div_pow, Nat.shiftLeft_eq]
    norm_num
    omega
  have henc : encode32Chunk [b0, b1, b2, b3, b4] alphabet pe =
      encode32Emit (b0 * 4294967296 + b1 * 16777216 + b2 * 65536 + b3 * 256 + b4) alphabet pe 8 40 := by
    rw [encode32Chunk]
    norm_num [hbuf]
  rw [henc, encode32Emit_40]
  simp only [List.cons_append, List.nil_append]
  rw [decodeBase32_internal_cons8,
    decode32Go_data8 dm pd _ _ _ _ _ _ _ _ _ _ _ _ _ _ _ _ hm0 hn0 hm1 hn1 hm2 hn2 hm3 hn3 hm4 hn4 hm5 hn5 hm6 hn6 hm7 hn7
      hv0 hv1 hv2 hv3 hv4 hv5 hv6 hv7, hchunk]
  simp only [decode32Finish_40, hbyte0, hbyte1, hbyte2, hbyte3, hbyte4]
  cases decodeBase32_internal rest dm pd <;> rfl

set_option maxHeartbeats 2000000 in
/-- Decoding an encoded final 4-byte Base32 chunk recovers its bytes. -/
theorem dec32_chunk4 (alphabet : List Char) (dm : Char → Option Nat)
    (hinv : ∀ v < 32, dm (alphabet.getD v ' ') = some v ∧ alphabet.getD v ' ' ≠ '=')
    (pe : EncodingPadding) (pd : DecodingPadding)
    (hpad : pe = EncodingPadding.Include ∨ pd = DecodingPadding.Ignore)
    (b0 b1 b2 b3 : Nat) (hb0 : b0 < 256) (hb1 : b1 < 256) (hb2 : b2 < 256) (hb3 : b3 < 256)
    :
    decodeBase32_internal (encode32Chunk [b0, b1, b2, b3] alphabet pe) dm pd = .ok [b0, b1, b2, b3] := by
  have hbuf : byteBuffer [b0, b1, b2, b3] = b0 * 16777216 + b1 * 65536 + b2 * 256 + b3 := byteBuffer_four b0 b1 b2 b3 hb1 hb2 hb3
  have hA : byteBuffer [b0, b1, b2, b3] <<< 3 = b0 * 134217728 + b1 * 524288 + b2 * 2048 + b3 * 8 := by
    rw [hbuf, Nat.shiftLeft_eq]
    try ring
  have hv0 : ((b0 * 134217728 + b1 * 524288 + b2 * 2048 + b3 * 8) >>> 30) &&& 31 < 32 := by
    simp only [and15, and31, and63, and255, and65535, and16777215,
      and4294967295, Nat.shiftRight_eq_div_pow, Nat.shiftLeft_eq]
    norm_num
    omega
  have hv1 : ((b0 * 134217728 + b1 * 524288 + b2 * 2048 + b3 * 8) >>> 25) &&& 31 < 32 := by
    simp only [and15, and31, and63, and255, and65535, and16777215,
      and4294967295, Nat.shiftRight_eq_div_pow, Nat.shiftLeft_eq]
    norm_num
    omega
  have hv2 : ((b0 * 134217728 + b1 * 524288 + b2 * 2048 + b3 * 8) >>> 20) &&& 31 < 32 := by
    simp only [and15, and31, and63, and255, and65535, and16777215,
      and4294967295, Nat.shiftRight_eq_div_pow, Nat.shiftLeft_eq]
    norm_num
    omega
  have hv3 : ((b0 * 134217728 + b1 * 524288 + b2 * 2048 + b3 * 8) >>> 15) &&& 31 < 32 := by
    simp only [and15, and31, and63, and255, and65535, and16777215,
      and4294967295, Nat.shiftRight_eq_div_pow, Nat.shiftLeft_eq]
    norm_num
    omega
  have hv4 : ((b0 * 134217728 + b1 * 524288 + b2 * 2048 + b3 * 8) >>> 10) &&& 31 < 32 := by
    simp only [and15, and31, and63, and255, and65535, and16777215,
      and4294967295, Nat.shiftRight_eq_div_pow, Nat.shiftLeft_eq]
    norm_num
    omega
  have hv5 : ((b0 * 134217728 + b1 * 524288 + b2 * 2048 + b3 * 8) >>> 5) &&& 31 < 32 := by
    simp only [and15, and31, and63, and255, and65535, and16777215,
      and4294967295, Nat.shiftRight_eq_div_pow, Nat.shiftLeft_eq]
    norm_num
    omega
  have hv6 : (b0 * 134217728 + b1 * 524288 + b2 * 2048 + b3 * 8) &&& 31 < 32 := by
    simp only [and15, and31, and63, and255, and65535, and16777215,
      and4294967295, Nat.shiftRight_eq_div_pow, Nat.shiftLeft_eq]
    norm_num
    omega
  obtain ⟨hm0, hn0⟩ := hinv _ hv0
  obtain ⟨hm1, hn1⟩ := hinv _ hv1
  obtain ⟨hm2, hn2⟩ := hinv _ hv2
  obtain ⟨hm3, hn3⟩ := hinv _ hv3
  obtain ⟨hm4, hn4⟩ := hinv _ hv4
  obtain ⟨hm5, hn5⟩ := hinv _ hv5
  obtain ⟨hm6, hn6⟩ := hinv _ hv6
  have hzero : ((((b0 * 134217728 + b1 * 524288 + b2 * 2048 + b3 * 8) >>> 30) &&& 31) * 34359738368 + (((b0 * 134217728 + b1 * 524288 + b2 * 2048 + b3 * 8) >>> 25) &&& 31) * 1073741824 + (((b0 * 134217728 + b1 * 524288 + b2 * 2048 + b3 * 8) >>> 20) &&& 31) * 33554432 + (((b0 * 134217728 + b1 * 524288 + b2 * 2048 + b3 * 8) >>> 15) &&& 31) * 1048576 + (((b0 * 134217728 + b1 * 524288 + b2 * 2048 + b3 * 8) >>> 10) &&& 31) * 32768 + (((b0 * 134217728 + b1 * 524288 + b2 * 2048 + b3 * 8) >>> 5) &&& 31) * 1024 + ((b0 * 134217728 + b1 * 524288 + b2 * 2048 + b3 * 8) &&& 31) * 32) &&& 255 = 0 := by
    simp only [and15, and31, and63, and255, and65535, and16777215,
      and4294967295, Nat.shiftRight_eq_div_pow, Nat.shiftLeft_eq]
    norm_num
    omega
  have hbyte0 : (((((b0 * 134217728 + b1 * 524288 + b2 * 2048 + b3 * 8) >>> 30) &&& 31) * 34359738368 + (((b0 * 134217728 + b1 * 524288 + b2 * 2048 + b3 * 8) >>> 25) &&& 31) * 1073741824 + (((b0 * 134217728 + b1 * 524288 + b2 * 2048 + b3 * 8) >>> 20) &&& 31) * 33554432 + (((b0 * 134217728 + b1 * 524288 + b2 * 2048 + b3 * 8) >>> 15) &&& 31) * 1048576 + (((b0 * 134217728 + b1 * 524288 + b2 * 2048 + b3 * 8) >>> 10) &&& 31) * 32768 + (((b0 * 134217728 + b1 * 524288 + b2 * 2048 + b3 * 8) >>> 5) &&& 31) * 1024 + ((b0 * 134217728 + b1 * 524288 + b2 * 2048 + b3 * 8) &&& 31) * 32) >>> 32) &&& 255 = b0 := by
    simp only [and15, and31, and63, and255, and65535, and16777215,
      and4294967295, Nat.shiftRight_eq_div_pow, Nat.shiftLeft_eq]
    norm_num
    omega
  have hbyte1 : (((((b0 * 134217728 + b1 * 524288 + b2 * 2048 + b3 * 8) >>> 30) &&& 31) * 34359738368 + (((b0 * 134217728 + b1 * 524288 + b2 * 2048 + b3 * 8) >>> 25) &&& 31) * 1073741824 + (((b0 * 134217728 + b1 * 524288 + b2 * 2048 + b3 * 8) >>> 20) &&& 31) * 33554432 + (((b0 * 134217728 + b1 * 524288 + b2 * 2048 + b3 * 8) >>> 15) &&& 31) * 1048576 + (((b0 * 134217728 + b1 * 524288 + b2 * 2048 + b3 * 8) >>> 10) &&& 31) * 32768 + (((b0 * 134217728 + b1 * 524288 + b2 * 2048 + b3 * 8) >>> 5) &&& 31) * 1024 + ((b0 * 134217728 + b1 * 524288 + b2 * 2048 + b3 * 8) &&& 31) * 32) >>> 24) &&& 255 = b1 := by
    simp only [and15, and31, and63, and255, and65535, and16777215,
      and4294967295, Nat.shiftRight_eq_div_pow, Nat.shiftLeft_eq]
    norm_num
    omega
  have hbyte2 : (((((b0 * 134217728 + b1 * 524288 + b2 * 2048 + b3 * 8) >>> 30) &&& 31) * 34359738368 + (((b0 * 134217728 + b1 * 524288 + b2 * 2048 + b3 * 8) >>> 25) &&& 31) * 1073741824 + (((b0 * 134217728 + b1 * 524288 + b2 * 2048 + b3 * 8) >>> 20) &&& 31) * 33554432 + (((b0 * 134217728 + b1 * 524288 + b2 * 2048 + b3 * 8) >>> 15) &&& 31) * 1048576 + (((b0 * 134217728 + b1 * 524288 + b2 * 2048 + b3 * 8) >>> 10) &&& 31) * 32768 + (((b0 * 134217728 + b1 * 524288 + b2 * 2048 + b3 * 8) >>> 5) &&& 31) * 1024 + ((b0 * 134217728 + b1 * 524288 + b2 * 2048 + b3 * 8) &&& 31) * 32) >>> 16) &&& 255 = b2 := by
    simp only [and15, and31, and63, and255, and65535, and16777215,
      and4294967295, Nat.shiftRight_eq_div_pow, Nat.shiftLeft_eq]
    norm_num
    omega
  have hbyte3 : (((((b0 * 134217728 + b1 * 524288 + b2 * 2048 + b3 * 8) >>> 30) &&& 31) * 34359738368 + (((b0 * 134217728 + b1 * 524288 + b2 * 2048 + b3 * 8) >>> 25) &&& 31) * 1073741824 + (((b0 * 134217728 + b1 * 524288 + b2 * 2048 + b3 * 8) >>> 20) &&& 31) * 33554432 + (((b0 * 134217728 + b1 * 524288 + b2 * 2048 + b3 * 8) >>> 15) &&& 31) * 1048576 + (((b0 * 134217728 + b1 * 524288 + b2 * 2048 + b3 * 8) >>> 10) &&& 31) * 32768 + (((b0 * 134217728 + b1 * 524288 + b2 * 2048 + b3 * 8) >>> 5) &&& 31) * 1024 + ((b0 * 134217728 + b1 * 524288 + b2 * 2048 + b3 * 8) &&& 31) * 32) >>> 8) &&& 255 = b3 := by
    simp only [and15, and31, and63, and255, and65535, and16777215,
      and4294967295, Nat.shiftRight_eq_div_pow, Nat.shiftLeft_eq]
    norm_num
    omega
  have henc : encode32Chunk [b0, b1, b2, b3] alphabet pe =
      encode32Emit (b0 * 134217728 + b1 * 524288 + b2 * 2048 + b3 * 8) alphabet pe 8 35 := by
    rw [encode32Chunk]
    norm_num [hA]
  cases pe with
  | Include =>
    have hlist : encode32Chunk [b0, b1, b2, b3] alphabet EncodingPadding.Include =
        [alphabet.getD (((b0 * 134217728 + b1 * 524288 + b2 * 2048 + b3 * 8) >>> 30) &&& 31) ' ', alphabet.getD (((b0 * 134217728 + b1 * 524288 + b2 * 2048 + b3 * 8) >>> 25) &&& 31) ' ', alphabet.getD (((b0 * 134217728 + b1 * 524288 + b2 * 2048 + b3 * 8) >>> 20) &&& 31) ' ', alphabet.getD (((b0 * 134217728 + b1 * 524288 + b2 * 2048 + b3 * 8) >>> 15) &&& 31) ' ', alphabet.getD (((b0 * 134217728 + b1 * 524288 + b2 * 2048 + b3 * 8) >>> 10) &&& 31) ' ', alphabet.getD (((b0 * 134217728 + b1 * 524288 + b2 * 2048 + b3 * 8) >>> 5) &&& 31) ' ', alphabet.getD ((b0 * 134217728 + b1 * 524288 + b2 * 2048 + b3 * 8) &&& 31) ' ',
         '='] := by
      rw [henc, encode32Emit_35]
      simp
    rw [hlist, decodeBase32_internal_cons8]
    cases pd with
    | Required =>
      rw [decode32Go_data7 dm _ _ _ _ _ _ _ _ _ _ _ _ _ _ _ hm0 hn0 hm1 hn1 hm2 hn2 hm3 hn3 hm4 hn4 hm5 hn5 hm6 hn6 hv0 hv1 hv2 hv3 hv4 hv5 hv6 _
        (Or.inl ⟨rfl, rfl⟩)]
      simp only [decode32Finish_35 _ hzero, hbyte0, hbyte1, hbyte2, hbyte3]
      rfl
    | Ignore =>
      rw [decode32Go_data7 dm _ _ _ _ _ _ _ _ _ _ _ _ _ _ _ hm0 hn0 hm1 hn1 hm2 hn2 hm3 hn3 hm4 hn4 hm5 hn5 hm6 hn6 hv0 hv1 hv2 hv3 hv4 hv5 hv6 _
        (Or.inr ⟨rfl, Or.inl rfl⟩)]
      simp only [decode32Finish_35 _ hzero, hbyte0, hbyte1, hbyte2, hbyte3]
      rfl
  | None =>
    have hpd : pd = DecodingPadding.Ignore := by
      rcases hpad with h | h
      · exact absurd h (by decide)
      · exact h
    subst hpd
    have hlist : encode32Chunk [b0, b1, b2, b3] alphabet EncodingPadding.None =
        [alphabet.getD (((b0 * 134217728 + b1 * 524288 + b2 * 2048 + b3 * 8) >>> 30) &&& 31) ' ', alphabet.getD (((b0 * 134217728 + b1 * 524288 + b2 * 2048 + b3 * 8) >>> 25) &&& 31) ' ', alphabet.getD (((b0 * 134217728 + b1 * 524288 + b2 * 2048 + b3 * 8) >>> 20) &&& 31) ' ', alphabet.getD (((b0 * 134217728 + b1 * 524288 + b2 * 2048 + b3 * 8) >>> 15) &&& 31) ' ', alphabet.getD (((b0 * 134217728 + b1 * 524288 + b2 * 2048 + b3 * 8) >>> 10) &&& 31) ' ', alphabet.getD (((b0 * 134217728 + b1 * 524288 + b2 * 2048 + b3 * 8) >>> 5) &&& 31) ' ', alphabet.getD ((b0 * 134217728 + b1 * 524288 + b2 * 2048 + b3 * 8) &&& 31) ' '] := by
      rw [henc, encode32Emit_35]
      simp
    rw [hlist, decodeBase32_internal_short _ (by simp) (by simp)]
    rw [decode32Go_data7 dm _ _ _ _ _ _ _ _ _ _ _ _ _ _ _ hm0 hn0 hm1 hn1 hm2 hn2 hm3 hn3 hm4 hn4 hm5 hn5 hm6 hn6 hv0 hv1 hv2 hv3 hv4 hv5 hv6 _
      (Or.inr ⟨rfl, Or.inr rfl⟩)]
    simp only [decode32Finish_35 _ hzero, hbyte0, hbyte1, hbyte2, hbyte3]

set_option maxHeartbeats 2000000 in
/-- Decoding an encoded final 3-byte Base32 chunk recovers its bytes. -/
theorem dec32_chunk3 (alphabet : List Char) (dm : Char → Option Nat)
    (hinv : ∀ v < 32, dm (alphabet.getD v ' ') = some v ∧ alphabet.getD v ' ' ≠ '=')
    (pe : EncodingPadding) (pd : DecodingPadding)
    (hpad : pe = EncodingPadding.Include ∨ pd = DecodingPadding.Ignore)
    (b0 b1 b2 : Nat) (hb0 : b0 < 256) (hb1 : b1 < 256) (hb2 : b2 < 256)
    :
    decodeBase32_internal (encode32Chunk [b0, b1, b2] alphabet pe) dm pd = .ok [b0, b1, b2] := by
  have hbuf : byteBuffer [b0, b1, b2] = b0 * 65536 + b1 * 256 + b2 := byteBuffer_three b0 b1 b2 hb1 hb2
  have hA : byteBuffer [b0, b1, b2] <<< 1 = b0 * 131072 + b1 * 512 + b2 * 2 := by
    rw [hbuf, Nat.shiftLeft_eq]
    try ring
  have hv0 : ((b0 * 131072 + b1 * 512 + b2 * 2) >>> 20) &&& 31 < 32 := by
    simp only [and15, and31, and63, and255, and65535, and16777215,
      and4294967295, Nat.shiftRight_eq_div_pow, Nat.shiftLeft_eq]
    norm_num
    omega
  have hv1 : ((b0 * 131072 + b1 * 512 + b2 * 2) >>> 15) &&& 31 < 32 := by
    simp only [and15, and31, and63, and255, and65535, and16777215,
      and4294967295, Nat.shiftRight_eq_div_pow, Nat.shiftLeft_eq]
    norm_num
    omega
  have hv2 : ((b0 * 131072 + b1 * 512 + b2 * 2) >>> 10) &&& 31 < 32 := by
    simp only [and15, and31, and63, and255, and65535, and16777215,
      and4294967295, Nat.shiftRight_eq_div_pow, Nat.shiftLeft_eq]
    norm_num
    omega
  have hv3 : ((b0 * 131072 + b1 * 512 + b2 * 2) >>> 5) &&& 31 < 32 := by
    simp only [and15, and31, and63, and255, and65535, and16777215,
      and4294967295, Nat.shiftRight_eq_div_pow, Nat.shiftLeft_eq]
    norm_num
    omega
  have hv4 : (b0 * 131072 + b1 * 512 + b2 * 2) &&& 31 < 32 := by
    simp only [and15, and31, and63, and255, and65535, and16777215,
      and4294967295, Nat.shiftRight_eq_div_pow, Nat.shiftLeft_eq]
    norm_num
    omega
  obtain ⟨hm0, hn0⟩ := hinv _ hv0
  obtain ⟨hm1, hn1⟩ := hinv _ hv1
  obtain ⟨hm2, hn2⟩ := hinv _ hv2
  obtain ⟨hm3, hn3⟩ := hinv _ hv3
  obtain ⟨hm4, hn4⟩ := hinv _ hv4
  have hzero : ((((b0 * 131072 + b1 * 512 + b2 * 2) >>> 20) &&& 31) * 34359738368 + (((b0 * 131072 + b1 * 512 + b2 * 2) >>> 15) &&& 31) * 1073741824 + (((b0 * 131072 + b1 * 512 + b2 * 2) >>> 10) &&& 31) * 33554432 + (((b0 * 131072 + b1 * 512 + b2 * 2) >>> 5) &&& 31) * 1048576 + ((b0 * 131072 + b1 * 512 + b2 * 2) &&& 31) * 32768) &&& 65535 = 0 := by
    simp only [and15, and31, and63, and255, and65535, and16777215,
      and4294967295, Nat.shiftRight_eq_div_pow, Nat.shiftLeft_eq]
    norm_num
    omega
  have hbyte0 : (((((b0 * 131072 + b1 * 512 + b2 * 2) >>> 20) &&& 31) * 34359738368 + (((b0 * 131072 + b1 * 512 + b2 * 2) >>> 15) &&& 31) * 1073741824 + (((b0 * 131072 + b1 * 512 + b2 * 2) >>> 10) &&& 31) * 33554432 + (((b0 * 131072 + b1 * 512 + b2 * 2) >>> 5) &&& 31) * 1048576 + ((b0 * 131072 + b1 * 512 + b2 * 2) &&& 31) * 32768) >>> 32) &&& 255 = b0 := by
    simp only [and15, and31, and63, and255, and65535, and16777215,
      and4294967295, Nat.shiftRight_eq_div_pow, Nat.shiftLeft_eq]
    norm_num
    omega
  have hbyte1 : (((((b0 * 131072 + b1 * 512 + b2 * 2) >>> 20) &&& 31) * 34359738368 + (((b0 * 131072 + b1 * 512 + b2 * 2) >>> 15) &&& 31) * 1073741824 + (((b0 * 131072 + b1 * 512 + b2 * 2) >>> 10) &&& 31) * 33554432 + (((b0 * 131072 + b1 * 512 + b2 * 2) >>> 5) &&& 31) * 1048576 + ((b0 * 131072 + b1 * 512 + b2 * 2) &&& 31) * 32768) >>> 24) &&& 255 = b1 := by
    simp only [and15, and31, and63, and255, and65535, and16777215,
      and4294967295, Nat.shiftRight_eq_div_pow, Nat.shiftLeft_eq]
    norm_num
    omega
  have hbyte2 : (((((b0 * 131072 + b1 * 512 + b2 * 2) >>> 20) &&& 31) * 34359738368 + (((b0 * 131072 + b1 * 512 + b2 * 2) >>> 15) &&& 31) * 1073741824 + (((b0 * 131072 + b1 * 512 + b2 * 2) >>> 10) &&& 31) * 33554432 + (((b0 * 131072 + b1 * 512 + b2 * 2) >>> 5) &&& 31) * 1048576 + ((b0 * 131072 + b1 * 512 + b2 * 2) &&& 31) * 32768) >>> 16) &&& 255 = b2 := by
    simp only [and15, and31, and63, and255, and65535, and16777215,
      and4294967295, Nat.shiftRight_eq_div_pow, Nat.shiftLeft_eq]
    norm_num
    omega
  have henc : encode32Chunk [b0, b1, b2] alphabet pe =
      encode32Emit (b0 * 131072 + b1 * 512 + b2 * 2) alphabet pe 8 25 := by
    rw [encode32Chunk]
    norm_num [hA]
  cases pe with
  | Include =>
    have hlist : encode32Chunk [b0, b1, b2] alphabet EncodingPadding.Include =
        [alphabet.getD (((b0 * 131072 + b1 * 512 + b2 * 2) >>> 20) &&& 31) ' ', alphabet.getD (((b0 * 131072 + b1 * 512 + b2 * 2) >>> 15) &&& 31) ' ', alphabet.getD (((b0 * 131072 + b1 * 512 + b2 * 2) >>> 10) &&& 31) ' ', alphabet.getD (((b0 * 131072 + b1 * 512 + b2 * 2) >>> 5) &&& 31) ' ', alphabet.getD ((b0 * 131072 + b1 * 512 + b2 * 2) &&& 31) ' ',
         '=', '=', '='] := by
      rw [henc, encode32Emit_25]
      simp
    rw [hlist, decodeBase32_internal_cons8]
    cases pd with
    | Required =>
      rw [decode32Go_data5 dm _ _ _ _ _ _ _ _ _ _ _ hm0 hn0 hm1 hn1 hm2 hn2 hm3 hn3 hm4 hn4 hv0 hv1 hv2 hv3 hv4 _
        (Or.inl ⟨rfl, rfl⟩)]
      simp only [decode32Finish_25 _ hzero, hbyte0, hbyte1, hbyte2]
      rfl
    | Ignore =>
      rw [decode32Go_data5 dm _ _ _ _ _ _ _ _ _ _ _ hm0 hn0 hm1 hn1 hm2 hn2 hm3 hn3 hm4 hn4 hv0 hv1 hv2 hv3 hv4 _
        (Or.inr ⟨rfl, Or.inl rfl⟩)]
      simp only [decode32Finish_25 _ hzero, hbyte0, hbyte1, hbyte2]
      rfl
  | None =>
    have hpd : pd = DecodingPadding.Ignore := by
      rcases hpad with h | h
      · exact absurd h (by decide)
      · exact h
    subst hpd
    have hlist : encode32Chunk [b0, b1, b2] alphabet EncodingPadding.None =
        [alphabet.getD (((b0 * 131072 + b1 * 512 + b2 * 2) >>> 20) &&& 31) ' ', alphabet.getD (((b0 * 131072 + b1 * 512 + b2 * 2) >>> 15) &&& 31) ' ', alphabet.getD (((b0 * 131072 + b1 * 512 + b2 * 2) >>> 10) &&& 31) ' ', alphabet.getD (((b0 * 131072 + b1 * 512 + b2 * 2) >>> 5) &&& 31) ' ', alphabet.getD ((b0 * 131072 + b1 * 512 + b2 * 2) &&& 31) ' '] := by
      rw [henc, encode32Emit_25]
      simp
    rw [hlist, decodeBase32_internal_short _ (by simp) (by simp)]
    rw [decode32Go_data5 dm _ _ _ _ _ _ _ _ _ _ _ hm0 hn0 hm1 hn1 hm2 hn2 hm3 hn3 hm4 hn4 hv0 hv1 hv2 hv3 hv4 _
      (Or.inr ⟨rfl, Or.inr rfl⟩)]
    simp only [decode32Finish_25 _ hzero, hbyte0, hbyte1, hbyte2]

set_option maxHeartbeats 2000000 in
/-- Decoding an encoded final 2-byte Base32 chunk recovers its bytes. -/
theorem dec32_chunk2 (alphabet : List Char) (dm : Char → Option Nat)
    (hinv : ∀ v < 32, dm (alphabet.getD v ' ') = some v ∧ alphabet.getD v ' ' ≠ '=')
    (pe : EncodingPadding) (pd : DecodingPadding)
    (hpad : pe = EncodingPadding.Include ∨ pd = DecodingPadding.Ignore)
    (b0 b1 : Nat) (hb0 : b0 < 256) (hb1 : b1 < 256)
    :
    decodeBase32_internal (encode32Chunk [b0, b1] alphabet pe) dm pd = .ok [b0, b1] := by
  have hbuf : byteBuffer [b0, b1] = b0 * 256 + b1 := byteBuffer_two b0 b1 hb1
  have hA : byteBuffer [b0, b1] <<< 4 = b0 * 4096 + b1 * 16 := by
    rw [hbuf, Nat.shiftLeft_eq]
    try ring
  have hv0 : ((b0 * 4096 + b1 * 16) >>> 15) &&& 31 < 32 := by
    simp only [and15, and31, and63, and255, and65535, and16777215,
      and4294967295, Nat.shiftRight_eq_div_pow, Nat.shiftLeft_eq]
    norm_num
    omega
  have hv1 : ((b0 * 4096 + b1 * 16) >>> 10) &&& 31 < 32 := by
    simp only [and15, and31, and63, and255, and65535, and16777215,
      and4294967295, Nat.shiftRight_eq_div_pow, Nat.shiftLeft_eq]
    norm_num
    omega
  have hv2 : ((b0 * 4096 + b1 * 16) >>> 5) &&& 31 < 32 := by
    simp only [and15, and31, and63, and255, and65535, and16777215,
      and4294967295, Nat.shiftRight_eq_div_pow, Nat.shiftLeft_eq]
    norm_num
    omega
  have hv3 : (b0 * 4096 + b1 * 16) &&& 31 < 32 := by
    simp only [and15, and31, and63, and255, and65535, and16777215,
      and4294967295, Nat.shiftRight_eq_div_pow, Nat.shiftLeft_eq]
    norm_num
    omega
  obtain ⟨hm0, hn0⟩ := hinv _ hv0
  obtain ⟨hm1, hn1⟩ := hinv _ hv1
  obtain ⟨hm2, hn2⟩ := hinv _ hv2
  obtain ⟨hm3, hn3⟩ := hinv _ hv3
  have hzero : ((((b0 * 4096 + b1 * 16) >>> 15) &&& 31) * 34359738368 + (((b0 * 4096 + b1 * 16) >>> 10) &&& 31) * 1073741824 + (((b0 * 4096 + b1 * 16) >>> 5) &&& 31) * 33554432 + ((b0 * 4096 + b1 * 16) &&& 31) * 1048576) &&& 16777215 = 0 := by
    simp only [and15, and31, and63, and255, and65535, and16777215,
      and4294967295, Nat.shiftRight_eq_div_pow, Nat.shiftLeft_eq]
    norm_num
    omega
  have hbyte0 : (((((b0 * 4096 + b1 * 16) >>> 15) &&& 31) * 34359738368 + (((b0 * 4096 + b1 * 16) >>> 10) &&& 31) * 1073741824 + (((b0 * 4096 + b1 * 16) >>> 5) &&& 31) * 33554432 + ((b0 * 4096 + b1 * 16) &&& 31) * 1048576) >>> 32) &&& 255 = b0 := by
    simp only [and15, and31, and63, and255, and65535, and16777215,
      and4294967295, Nat.shiftRight_eq_div_pow, Nat.shiftLeft_eq]
    norm_num
    omega
  have hbyte1 : (((((b0 * 4096 + b1 * 16) >>> 15) &&& 31) * 34359738368 + (((b0 * 4096 + b1 * 16) >>> 10) &&& 31) * 1073741824 + (((b0 * 4096 + b1 * 16) >>> 5) &&& 31) * 33554432 + ((b0 * 4096 + b1 * 16) &&& 31) * 1048576) >>> 24) &&& 255 = b1 := by
    simp only [and15, and31, and63, and255, and65535, and16777215,
      and4294967295, Nat.shiftRight_eq_div_pow, Nat.shiftLeft_eq]
    norm_num
    omega
  have henc : encode32Chunk [b0, b1] alphabet pe =
      encode32Emit (b0 * 4096 + b1 * 16) alphabet pe 8 20 := by
    rw [encode32Chunk]
    norm_num [hA]
  cases pe with
  | Include =>
    have hlist : encode32Chunk [b0, b1] alphabet EncodingPadding.Include =
        [alphabet.getD (((b0 * 4096 + b1 * 16) >>> 15) &&& 31) ' ', alphabet.getD (((b0 * 4096 + b1 * 16) >>> 10) &&& 31) ' ', alphabet.getD (((b0 * 4096 + b1 * 16) >>> 5) &&& 31) ' ', alphabet.getD ((b0 * 4096 + b1 * 16) &&& 31) ' ',
         '=', '=', '=', '='] := by
      rw [henc, encode32Emit_20]
      simp
    rw [hlist, decodeBase32_internal_cons8]
    cases pd with
    | Required =>
      rw [decode32Go_data4 dm _ _ _ _ _ _ _ _ _ hm0 hn0 hm1 hn1 hm2 hn2 hm3 hn3 hv0 hv1 hv2 hv3 _
        (Or.inl ⟨rfl, rfl⟩)]
      simp only [decode32Finish_20 _ hzero, hbyte0, hbyte1]
      rfl
    | Ignore =>
      rw [decode32Go_data4 dm _ _ _ _ _ _ _ _ _ hm0 hn0 hm1 hn1 hm2 hn2 hm3 hn3 hv0 hv1 hv2 hv3 _
        (Or.inr ⟨rfl, Or.inl rfl⟩)]
      simp only [decode32Finish_20 _ hzero, hbyte0, hbyte1]
      rfl
  | None =>
    have hpd : pd = DecodingPadding.Ignore := by
      rcases hpad with h | h
      · exact absurd h (by decide)
      · exact h
    subst hpd
    have hlist : encode32Chunk [b0, b1] alphabet EncodingPadding.None =
        [alphabet.getD (((b0 * 4096 + b1 * 16) >>> 15) &&& 31) ' ', alphabet.getD (((b0 * 4096 + b1 * 16) >>> 10) &&& 31) ' ', alphabet.getD (((b0 * 4096 + b1 * 16) >>> 5) &&& 31) ' ', alphabet.getD ((b0 * 4096 + b1 * 16) &&& 31) ' '] := by
      rw [henc, encode32Emit_20]
      simp
    rw [hlist, decodeBase32_internal_short _ (by simp) (by simp)]
    rw [decode32Go_data4 dm _ _ _ _ _ _ _ _ _ hm0 hn0 hm1 hn1 hm2 hn2 hm3 hn3 hv0 hv1 hv2 hv3 _
      (Or.inr ⟨rfl, Or.inr rfl⟩)]
    simp only [decode32Finish_20 _ hzero, hbyte0, hbyte1]

set_option maxHeartbeats 2000000 in
/-- Decoding an encoded final 1-byte Base32 chunk recovers its bytes. -/
theorem dec32_chunk1 (alphabet : List Char) (dm : Char → Option Nat)
    (hinv : ∀ v < 32, dm (alphabet.getD v ' ') = some v ∧ alphabet.getD v ' ' ≠ '=')
    (pe : EncodingPadding) (pd : DecodingPadding)
    (hpad : pe = EncodingPadding.Include ∨ pd = DecodingPadding.Ignore)
    (b0 : Nat) (hb0 : b0 < 256)
    :
    decodeBase32_internal (encode32Chunk [b0] alphabet pe) dm pd = .ok [b0] := by
  have hbuf : byteBuffer [b0] = b0 := byteBuffer_one b0
  have hA : byteBuffer [b0] <<< 2 = b0 * 4 := by
    rw [hbuf, Nat.shiftLeft_eq]
    try ring
  have hv0 : ((b0 * 4) >>> 5) &&& 31 < 32 := by
    simp only [and15, and31, and63, and255, and65535, and16777215,
      and4294967295, Nat.shiftRight_eq_div_pow, Nat.shiftLeft_eq]
    norm_num
    omega
  have hv1 : (b0 * 4) &&& 31 < 32 := by
    simp only [and15, and31, and63, and255, and65535, and16777215,
      and4294967295, Nat.shiftRight_eq_div_pow, Nat.shiftLeft_eq]
    norm_num
    omega
  obtain ⟨hm0, hn0⟩ := hinv _ hv0
  obtain ⟨hm1, hn1⟩ := hinv _ hv1
  have hzero : ((((b0 * 4) >>> 5) &&& 31) * 34359738368 + ((b0 * 4) &&& 31) * 1073741824) &&& 4294967295 = 0 := by
    simp only [and15, and31, and63, and255, and65535, and16777215,
      and4294967295, Nat.shiftRight_eq_div_pow, Nat.shiftLeft_eq]
    norm_num
    omega
  have hbyte0 : (((((b0 * 4) >>> 5) &&& 31) * 34359738368 + ((b0 * 4) &&& 31) * 1073741824) >>> 32) &&& 255 = b0 := by
    simp only [and15, and31, and63, and255, and65535, and16777215,
      and4294967295, Nat.shiftRight_eq_div_pow, Nat.shiftLeft_eq]
    norm_num
    omega
  have henc : encode32Chunk [b0] alphabet pe =
      encode32Emit (b0 * 4) alphabet pe 8 10 := by
    rw [encode32Chunk]
    norm_num [hA]
  cases pe with
  | Include =>
    have hlist : encode32Chunk [b0] alphabet EncodingPadding.Include =
        [alphabet.getD (((b0 * 4) >>> 5) &&& 31) ' ', alphabet.getD ((b0 * 4) &&& 31) ' ',
         '=', '=', '=', '=', '=', '='] := by
      rw [henc, encode32Emit_10]
      simp
    rw [hlist, decodeBase32_internal_cons8]
    cases pd with
    | Required =>
      rw [decode32Go_data2 dm _ _ _ _ _ hm0 hn0 hm1 hn1 hv0 hv1 _
        (Or.inl ⟨rfl, rfl⟩)]
      simp only [decode32Finish_10 _ hzero, hbyte0]
      rfl
    | Ignore =>
      rw [decode32Go_data2 dm _ _ _ _ _ hm0 hn0 hm1 hn1 hv0 hv1 _
        (Or.inr ⟨rfl, Or.inl rfl⟩)]
      simp only [decode32Finish_10 _ hzero, hbyte0]
      rfl
  | None =>
    have hpd : pd = DecodingPadding.Ignore := by
      rcases hpad with h | h
      · exact absurd h (by decide)
      · exact h
    subst hpd
    have hlist : encode32Chunk [b0] alphabet EncodingPadding.None =
        [alphabet.getD (((b0 * 4) >>> 5) &&& 31) ' ', alphabet.getD ((b0 * 4) &&& 31) ' '] := by
      rw [henc, encode32Emit_10]
      simp
    rw [hlist, decodeBase32_internal_short _ (by simp) (by simp)]
    rw [decode32Go_data2 dm _ _ _ _ _ hm0 hn0 hm1 hn1 hv0 hv1 _
      (Or.inr ⟨rfl, Or.inr rfl⟩)]
    simp only [decode32Finish_10 _ hzero, hbyte0]

/-- Base32 round trip, generic in the alphabet and the padding pairing. -/
theorem dec32_enc32 (alphabet : List Char) (dm : Char → Option Nat)
    (hinv : ∀ v < 32, dm (alphabet.getD v ' ') = some v ∧ alphabet.getD v ' ' ≠ '=')
    (pe : EncodingPadding) (pd : DecodingPadding)
    (hpad : pe = EncodingPadding.Include ∨ pd = DecodingPadding.Ignore) :
    ∀ (n : Nat) (B : List Nat), B.length ≤ n → (∀ b ∈ B, b < 256) →
      decodeBase32_internal (encodeBase32_internal B alphabet pe) dm pd = .ok B := by
  intro n
  induction n with
  | zero =>
    intro B hlen hB
    have hnil : B = [] := by
      cases B with
      | nil => rfl
      | cons b bs => simp at hlen
    subst hnil
    rfl
  | succ n ih =>
    intro B hlen hB
    match B with
    | [] => rfl
    | [b0] =>
      exact dec32_chunk1 alphabet dm hinv pe pd hpad b0 (hB b0 (by simp))
    | [b0, b1] =>
      exact dec32_chunk2 alphabet dm hinv pe pd hpad b0 b1 (hB b0 (by simp))
        (hB b1 (by simp))
    | [b0, b1, b2] =>
      exact dec32_chunk3 alphabet dm hinv pe pd hpad b0 b1 b2 (hB b0 (by simp))
        (hB b1 (by simp)) (hB b2 (by simp))
    | [b0, b1, b2, b3] =>
      exact dec32_chunk4 alphabet dm hinv pe pd hpad b0 b1 b2 b3 (hB b0 (by simp))
        (hB b1 (by simp)) (hB b2 (by simp)) (hB b3 (by simp))
    | b0 :: b1 :: b2 :: b3 :: b4 :: rest =>
      have hstep : encodeBase32_internal (b0 :: b1 :: b2 :: b3 :: b4 :: rest)
          alphabet pe =
          encode32Chunk [b0, b1, b2, b3, b4] alphabet pe ++
            encodeBase32_internal rest alphabet pe := rfl
      rw [hstep, dec32_chunk5 alphabet dm hinv pe pd b0 b1 b2 b3 b4
        (hB b0 (by simp)) (hB b1 (by simp)) (hB b2 (by simp)) (hB b3 (by simp))
        (hB b4 (by simp)) _]
      rw [ih rest (by simp at hlen ⊢; omega) (fun b hb => hB b (by simp [hb]))]

/-! ## Basic sanity checks (fixed vectors from the spec) -/

example : encodeHexUpperCase [255, 10, 15] = ['F', 'F', '0', 'A', '0', 'F'] := by decide
example : encodeHexLowerCase [255, 10, 15] = ['f', 'f', '0', 'a', '0', 'f'] := by decide
example : decodeHex ['f', 'f', '0', 'a', '0', 'F'] = .ok [255, 10, 15] := by decide
example : encodeBase64 [72, 101, 108, 108, 111] =
    ['S', 'G', 'V', 's', 'b', 'G', '8', '='] := by decide
example : encodeBase64NoPadding [72, 101, 108, 108, 111] =
    ['S', 'G', 'V', 's', 'b', 'G', '8'] := by decide
example : decodeBase64 ['S', 'G', 'V', 's', 'b', 'G', '8', '='] =
    .ok [72, 101, 108, 108, 111] := by decide
example : decodeBase64IgnorePadding ['S', 'G', 'V', 's', 'b', 'G', '8'] =
    .ok [72, 101, 108, 108, 111] := by decide
example : encodeBase32UpperCase [72, 101, 108, 108, 111] =
    ['J', 'B', 'S', 'W', 'Y', '3', 'D', 'P'] := by decide
example : decodeBase32 ['J', 'B', 'S', 'W', 'Y', '3', 'D', 'P'] =
    .ok [72, 101, 108, 108, 111] := by decide

/-! ## Encoded-output lengths -/

theorem enc64_len (alphabet : List Char) (p : EncodingPadding) :
    ∀ (n : Nat) (B : List Nat), B.length ≤ n →
      (encodeBase64_internal B alphabet p).length =
        (if p = EncodingPadding.Include then 4 * ((B.length + 2) / 3)
         else (8 * B.length + 5) / 6) := by
  intro n
  induction n with
  | zero =>
    intro B hlen
    have hnil : B = [] := by
      cases B with
      | nil => rfl
      | cons b bs => simp at hlen
    subst hnil
    cases p
    · rw [if_pos rfl,
        show (encodeBase64_internal [] alphabet EncodingPadding.Include).length = 0
          from rfl]
      simp
    · rw [if_neg (by decide),
        show (encodeBase64_internal [] alphabet EncodingPadding.None).length = 0
          from rfl]
      simp
  | succ n ih =>
    intro B hlen
    match B with
    | [] =>
      cases p
      · rw [if_pos rfl,
          show (encodeBase64_internal [] alphabet EncodingPadding.Include).length = 0
            from rfl]
        simp
      · rw [if_neg (by decide),
          show (encodeBase64_internal [] alphabet EncodingPadding.None).length = 0
            from rfl]
        simp
    | [b0] =>
      cases p
      · rw [if_pos rfl,
          show (encodeBase64_internal [b0] alphabet
            EncodingPadding.Include).length = 4 from rfl]
        simp
      · rw [if_neg (by decide),
          show (encodeBase64_internal [b0] alphabet
            EncodingPadding.None).length = 2 from rfl]
        simp
    | [b0, b1] =>
      cases p
      · rw [if_pos rfl,
          show (encodeBase64_internal [b0, b1] alphabet
            EncodingPadding.Include).length = 4 from rfl]
        simp
      · rw [if_neg (by decide),
          show (encodeBase64_internal [b0, b1] alphabet
            EncodingPadding.None).length = 3 from rfl]
        simp
    | b0 :: b1 :: b2 :: rest =>
      have hstep : encodeBase64_internal (b0 :: b1 :: b2 :: rest) alphabet p =
          encode64Chunk [b0, b1, b2] alphabet p ++
            encodeBase64_internal rest alphabet p := rfl
      have hchunklen : (encode64Chunk [b0, b1, b2] alphabet p).length = 4 := by
        cases p <;> rfl
      rw [hstep, List.length_append, hchunklen,
        ih rest (by simp at hlen ⊢; omega)]
      cases p <;> simp <;> omega

theorem encode32Chunk_one (alphabet : List Char) (p : EncodingPadding) (b0 : Nat) :
    encode32Chunk [b0] alphabet p =
      encode32Emit (byteBuffer [b0] <<< 2) alphabet p 8 10 := by
  rw [encode32Chunk]
  norm_num

theorem encode32Chunk_two (alphabet : List Char) (p : EncodingPadding) (b0 b1 : Nat) :
    encode32Chunk [b0, b1] alphabet p =
      encode32Emit (byteBuffer [b0, b1] <<< 4) alphabet p 8 20 := by
  rw [encode32Chunk]
  norm_num

theorem encode32Chunk_three (alphabet : List Char) (p : EncodingPadding)
    (b0 b1 b2 : Nat) :
    encode32Chunk [b0, b1, b2] alphabet p =
      encode32Emit (byteBuffer [b0, b1, b2] <<< 1) alphabet p 8 25 := by
  rw [encode32Chunk]
  norm_num

theorem encode32Chunk_four (alphabet : List Char) (p : EncodingPadding)
    (b0 b1 b2 b3 : Nat) :
    encode32Chunk [b0, b1, b2, b3] alphabet p =
      encode32Emit (byteBuffer [b0, b1, b2, b3] <<< 3) alphabet p 8 35 := by
  rw [encode32Chunk]
  norm_num

theorem encode32Chunk_five (alphabet : List Char) (p : EncodingPadding)
    (b0 b1 b2 b3 b4 : Nat) :
    encode32Chunk [b0, b1, b2, b3, b4] alphabet p =
      encode32Emit (byteBuffer [b0, b1, b2, b3, b4]) alphabet p 8 40 := by
  rw [encode32Chunk]
  norm_num

theorem enc32_len (alphabet : List Char) (p : EncodingPadding) :
    ∀ (n : Nat) (B : List Nat), B.length ≤ n →
      (encodeBase32_internal B alphabet p).length =
        (if p = EncodingPadding.Include then 8 * ((B.length + 4) / 5)
         else (8 * B.length + 4) / 5) := by
  intro n
  induction n with
  | zero =>
    intro B hlen
    have hnil : B = [] := by
      cases B with
      | nil => rfl
      | cons b bs => simp at hlen
    subst hnil
    cases p
    · rw [if_pos rfl,
        show (encodeBase32_internal [] alphabet EncodingPadding.Include).length = 0
          from rfl]
      simp
    · rw [if_neg (by decide),
        show (encodeBase32_internal [] alphabet EncodingPadding.None).length = 0
          from rfl]
      simp
  | succ n ih =>
    intro B hlen
    match B with
    | [] =>
      cases p
      · rw [if_pos rfl,
          show (encodeBase32_internal [] alphabet EncodingPadding.Include).length = 0
            from rfl]
        simp
      · rw [if_neg (by decide),
          show (encodeBase32_internal [] alphabet EncodingPadding.None).length = 0
            from rfl]
        simp
    | [b0] =>
      rw [show encodeBase32_internal [b0] alphabet p =
        encode32Chunk [b0] alphabet p from rfl, encode32Chunk_one]
      cases p
      · rw [if_pos rfl,
          show (encode32Emit (byteBuffer [b0] <<< 2) alphabet
            EncodingPadding.Include 8 10).length = 8 from rfl]
        simp
      · rw [if_neg (by decide),
          show (encode32Emit (byteBuffer [b0] <<< 2) alphabet
            EncodingPadding.None 8 10).length = 2 from rfl]
        simp
    | [b0, b1] =>
      rw [show encodeBase32_internal [b0, b1] alphabet p =
        encode32Chunk [b0, b1] alphabet p from rfl, encode32Chunk_two]
      cases p
      · rw [if_pos rfl,
          show (encode32Emit (byteBuffer [b0, b1] <<< 4) alphabet
            EncodingPadding.Include 8 20).length = 8 from rfl]
        simp
      · rw [if_neg (by decide),
          show (encode32Emit (byteBuffer [b0, b1] <<< 4) alphabet
            EncodingPadding.None 8 20).length = 4 from rfl]
        simp
    | [b0, b1, b2] =>
      rw [show encodeBase32_internal [b0, b1, b2] alphabet p =
        encode32Chunk [b0, b1, b2] alphabet p from rfl, encode32Chunk_three]
      cases p
      · rw [if_pos rfl,
          show (encode32Emit (byteBuffer [b0, b1, b2] <<< 1) alphabet
            EncodingPadding.Include 8 25).length = 8 from rfl]
        simp
      · rw [if_neg (by decide),
          show (encode32Emit (byteBuffer [b0, b1, b2] <<< 1) alphabet
            EncodingPadding.None 8 25).length = 5 from rfl]
        simp
    | [b0, b1, b2, b3] =>
      rw [show encodeBase32_internal [b0, b1, b2, b3] alphabet p =
        encode32Chunk [b0, b1, b2, b3] alphabet p from rfl, encode32Chunk_four]
      cases p
      · rw [if_pos rfl,
          show (encode32Emit (byteBuffer [b0, b1, b2, b3] <<< 3) alphabet
            EncodingPadding.Include 8 35).length = 8 from rfl]
        simp
      · rw [if_neg (by decide),
          show (encode32Emit (byteBuffer [b0, b1, b2, b3] <<< 3) alphabet
            EncodingPadding.None 8 35).length = 7 from rfl]
        simp
    | b0 :: b1 :: b2 :: b3 :: b4 :: rest =>
      have hstep : encodeBase32_internal (b0 :: b1 :: b2 :: b3 :: b4 :: rest)
          alphabet p =
          encode32Chunk [b0, b1, b2, b3, b4] alphabet p ++
            encodeBase32_internal rest alphabet p := rfl
      have hchunklen : (encode32Chunk [b0, b1, b2, b3, b4] alphabet p).length = 8 := by
        rw [encode32Chunk_five]
        cases p <;> rfl
      rw [hstep, List.length_append, hchunklen,
        ih rest (by simp at hlen ⊢; omega)]
      cases p <;> simp <;> omega

/-! ## The final partial-group character -/

theorem enc64_chunk1_eq (alphabet : List Char) (p : EncodingPadding) (b0 : Nat) :
    encodeBase64_internal [b0] alphabet p =
      [alphabet.getD ((byteBuffer [b0] >>> 2) &&& 63) ' ',
       alphabet.getD ((byteBuffer [b0] <<< 4) &&& 63) ' '] ++
      (if p = EncodingPadding.Include then ['=', '='] else []) := by
  rw [show encodeBase64_internal [b0] alphabet p = encode64Chunk [b0] alphabet p
    from rfl, encode64Chunk]
  norm_num [encode64Emit_8]

theorem enc64_chunk2_eq (alphabet : List Char) (p : EncodingPadding) (b0 b1 : Nat) :
    encodeBase64_internal [b0, b1] alphabet p =
      [alphabet.getD ((byteBuffer [b0, b1] >>> 10) &&& 63) ' ',
       alphabet.getD ((byteBuffer [b0, b1] >>> 4) &&& 63) ' ',
       alphabet.getD ((byteBuffer [b0, b1] <<< 2) &&& 63) ' '] ++
      (if p = EncodingPadding.Include then ['='] else []) := by
  rw [show encodeBase64_internal [b0, b1] alphabet p = encode64Chunk [b0, b1] alphabet p
    from rfl, encode64Chunk]
  norm_num [encode64Emit_16]

/-- The character at the last data position of the Base64 output is the
leftover 2 or 4 bits of the last byte, left-shifted to fill the 6-bit
slot with zeros on the right. -/
theorem enc64_last (alphabet : List Char) (p : EncodingPadding) :
    ∀ (n : Nat) (B : List Nat) (lastb : Nat), B.length ≤ n → (∀ b ∈ B, b < 256) →
      B.length % 3 ≠ 0 → B.getLast? = some lastb →
      (encodeBase64_internal B alphabet p).getD ((8 * B.length + 5) / 6 - 1) ' ' =
        alphabet.getD ((lastb % 2 ^ (8 * B.length % 6)) <<< (6 - 8 * B.length % 6))
          ' ' := by
  intro n
  induction n with
  | zero =>
    intro B lastb hlen hB h3 hlast
    have hnil : B = [] := by
      cases B with
      | nil => rfl
      | cons b bs => simp at hlen
    subst hnil
    simp at hlast
  | succ n ih =>
    intro B lastb hlen hB h3 hlast
    match B with
    | [] => simp at hlast
    | [b0] =>
      have hb0 : b0 = lastb := by simpa using hlast
      subst hb0
      rw [enc64_chunk1_eq]
      have hidx : (8 * ([b0] : List Nat).length + 5) / 6 - 1 = 1 := by simp
      rw [hidx, List.getD_append _ _ _ _ (by simp)]
      have hval : (byteBuffer [b0] <<< 4) &&& 63 =
          (b0 % 2 ^ (8 * ([b0] : List Nat).length % 6)) <<<
            (6 - 8 * ([b0] : List Nat).length % 6) := by
        rw [byteBuffer_one]
        simp only [List.length_cons, List.length_nil]
        norm_num [and63, Nat.shiftLeft_eq]
        omega
      rw [show ([alphabet.getD ((byteBuffer [b0] >>> 2) &&& 63) ' ',
        alphabet.getD ((byteBuffer [b0] <<< 4) &&& 63) ' '].getD 1 ' ') =
        alphabet.getD ((byteBuffer [b0] <<< 4) &&& 63) ' ' from rfl, hval]
    | [b0, b1] =>
      have hb1 : b1 = lastb := by simpa using hlast
      subst hb1
      rw [enc64_chunk2_eq]
      have hidx : (8 * ([b0, b1] : List Nat).length + 5) / 6 - 1 = 2 := by simp
      rw [hidx, List.getD_append _ _ _ _ (by simp)]
      have hval : (byteBuffer [b0, b1] <<< 2) &&& 63 =
          (b1 % 2 ^ (8 * ([b0, b1] : List Nat).length % 6)) <<<
            (6 - 8 * ([b0, b1] : List Nat).length % 6) := by
        rw [byteBuffer_two b0 b1 (hB b1 (by simp))]
        simp only [List.length_cons, List.length_nil]
        norm_num [and63, Nat.shiftLeft_eq]
        omega
      rw [show ([alphabet.getD ((byteBuffer [b0, b1] >>> 10) &&& 63) ' ',
        alphabet.getD ((byteBuffer [b0, b1] >>> 4) &&& 63) ' ',
        alphabet.getD ((byteBuffer [b0, b1] <<< 2) &&& 63) ' '].getD 2 ' ') =
        alphabet.getD ((byteBuffer [b0, b1] <<< 2) &&& 63) ' ' from rfl, hval]
    | b0 :: b1 :: b2 :: rest =>
      match rest with
      | [] => simp at h3
      | r :: rtail =>
        have hrest : (r :: rtail).getLast? = some lastb := by
          simpa using hlast
        have hstep : encodeBase64_internal (b0 :: b1 :: b2 :: r :: rtail) alphabet p =
            encode64Chunk [b0, b1, b2] alphabet p ++
              encodeBase64_internal (r :: rtail) alphabet p := rfl
        have hchunklen : (encode64Chunk [b0, b1, b2] alphabet p).length = 4 := by
          cases p <;> rfl
        have hge : (encode64Chunk [b0, b1, b2] alphabet p).length ≤
            (8 * (b0 :: b1 :: b2 :: r :: rtail).length + 5) / 6 - 1 := by
          rw [hchunklen]
          simp only [List.length_cons]
          omega
        rw [hstep, List.getD_append_right _ _ _ _ hge]
        have hidx : (8 * (b0 :: b1 :: b2 :: r :: rtail).length + 5) / 6 - 1 -
            (encode64Chunk [b0, b1, b2] alphabet p).length =
            (8 * (r :: rtail).length + 5) / 6 - 1 := by
          rw [hchunklen]
          simp only [List.length_cons]
          omega
        have hr : 8 * (b0 :: b1 :: b2 :: r :: rtail).length % 6 =
            8 * (r :: rtail).length % 6 := by
          simp only [List.length_cons]
          omega
        rw [hidx, hr]
        exact ih (r :: rtail) lastb (by simp at hlen ⊢; omega)
          (fun b hb => hB b (by simp at hb ⊢; tauto))
          (by simp at h3 ⊢; omega) hrest

theorem enc32_chunk1_eq (alphabet : List Char) (p : EncodingPadding) (b0 : Nat) :
    encodeBase32_internal [b0] alphabet p =
      [alphabet.getD (((byteBuffer [b0] <<< 2) >>> 5) &&& 31) ' ',
       alphabet.getD ((byteBuffer [b0] <<< 2) &&& 31) ' '] ++
      (if p = EncodingPadding.Include then ['=', '=', '=', '=', '=', '='] else []) := by
  rw [show encodeBase32_internal [b0] alphabet p = encode32Chunk [b0] alphabet p
    from rfl, encode32Chunk_one, encode32Emit_10]

theorem enc32_chunk2_eq (alphabet : List Char) (p : EncodingPadding) (b0 b1 : Nat) :
    encodeBase32_internal [b0, b1] alphabet p =
      [alphabet.getD (((byteBuffer [b0, b1] <<< 4) >>> 15) &&& 31) ' ',
       alphabet.getD (((byteBuffer [b0, b1] <<< 4) >>> 10) &&& 31) ' ',
       alphabet.getD (((byteBuffer [b0, b1] <<< 4) >>> 5) &&& 31) ' ',
       alphabet.getD ((byteBuffer [b0, b1] <<< 4) &&& 31) ' '] ++
      (if p = EncodingPadding.Include then ['=', '=', '=', '='] else []) := by
  rw [show encodeBase32_internal [b0, b1] alphabet p =
    encode32Chunk [b0, b1] alphabet p from rfl, encode32Chunk_two, encode32Emit_20]

theorem enc32_chunk3_eq (alphabet : List Char) (p : EncodingPadding) (b0 b1 b2 : Nat) :
    encodeBase32_internal [b0, b1, b2] alphabet p =
      [alphabet.getD (((byteBuffer [b0, b1, b2] <<< 1) >>> 20) &&& 31) ' ',
       alphabet.getD (((byteBuffer [b0, b1, b2] <<< 1) >>> 15) &&& 31) ' ',
       alphabet.getD (((byteBuffer [b0, b1, b2] <<< 1) >>> 10) &&& 31) ' ',
       alphabet.getD (((byteBuffer [b0, b1, b2] <<< 1) >>> 5) &&& 31) ' ',
       alphabet.getD ((byteBuffer [b0, b1, b2] <<< 1) &&& 31) ' '] ++
      (if p = EncodingPadding.Include then ['=', '=', '='] else []) := by
  rw [show encodeBase32_internal [b0, b1, b2] alphabet p =
    encode32Chunk [b0, b1, b2] alphabet p from rfl, encode32Chunk_three,
    encode32Emit_25]

theorem enc32_chunk4_eq (alphabet : List Char) (p : EncodingPadding)
    (b0 b1 b2 b3 : Nat) :
    encodeBase32_internal [b0, b1, b2, b3] alphabet p =
      [alphabet.getD (((byteBuffer [b0, b1, b2, b3] <<< 3) >>> 30) &&& 31) ' ',
       alphabet.getD (((byteBuffer [b0, b1, b2, b3] <<< 3) >>> 25) &&& 31) ' ',
       alphabet.getD (((byteBuffer [b0, b1, b2, b3] <<< 3) >>> 20) &&& 31) ' ',
       alphabet.getD (((byteBuffer [b0, b1, b2, b3] <<< 3) >>> 15) &&& 31) ' ',
       alphabet.getD (((byteBuffer [b0, b1, b2, b3] <<< 3) >>> 10) &&& 31) ' ',
       alphabet.getD (((byteBuffer [b0, b1, b2, b3] <<< 3) >>> 5) &&& 31) ' ',
       alphabet.getD ((byteBuffer [b0, b1, b2, b3] <<< 3) &&& 31) ' '] ++
      (if p = EncodingPadding.Include then ['='] else []) := by
  rw [show encodeBase32_internal [b0, b1, b2, b3] alphabet p =
    encode32Chunk [b0, b1, b2, b3] alphabet p from rfl, encode32Chunk_four,
    encode32Emit_35]

/-- The character at the last data position of the Base32 output is the
leftover 1..4 bits of the last byte, left-shifted to fill the 5-bit slot
with zeros on the right. -/
theorem enc32_last (alphabet : List Char) (p : EncodingPadding) :
    ∀ (n : Nat) (B : List Nat) (lastb : Nat), B.length ≤ n → (∀ b ∈ B, b < 256) →
      B.length % 5 ≠ 0 → B.getLast? = some lastb →
      (encodeBase32_internal B alphabet p).getD ((8 * B.length + 4) / 5 - 1) ' ' =
        alphabet.getD ((lastb % 2 ^ (8 * B.length % 5)) <<< (5 - 8 * B.length % 5))
          ' ' := by
  intro n
  induction n with
  | zero =>
    intro B lastb hlen hB h5 hlast
    have hnil : B = [] := by
      cases B with
      | nil => rfl
      | cons b bs => simp at hlen
    subst hnil
    simp at hlast
  | succ n ih =>
    intro B lastb hlen hB h5 hlast
    match B with
    | [] => simp at hlast
    | [b0] =>
      have hb0 : b0 = lastb := by simpa using hlast
      subst hb0
      rw [enc32_chunk1_eq]
      have hidx : (8 * ([b0] : List Nat).length + 4) / 5 - 1 = 1 := by simp
      rw [hidx, List.getD_append _ _ _ _ (by simp)]
      have hval : (byteBuffer [b0] <<< 2) &&& 31 =
          (b0 % 2 ^ (8 * ([b0] : List Nat).length % 5)) <<<
            (5 - 8 * ([b0] : List Nat).length % 5) := by
        rw [byteBuffer_one]
        simp only [List.length_cons, List.length_nil]
        norm_num [and31, Nat.shiftLeft_eq]
        omega
      rw [show ([alphabet.getD (((byteBuffer [b0] <<< 2) >>> 5) &&& 31) ' ',
        alphabet.getD ((byteBuffer [b0] <<< 2) &&& 31) ' '].getD 1 ' ') =
        alphabet.getD ((byteBuffer [b0] <<< 2) &&& 31) ' ' from rfl, hval]
    | [b0, b1] =>
      have hb1 : b1 = lastb := by simpa using hlast
      subst hb1
      rw [enc32_chunk2_eq]
      have hidx : (8 * ([b0, b1] : List Nat).length + 4) / 5 - 1 = 3 := by simp
      rw [hidx, List.getD_append _ _ _ _ (by simp)]
      have hval : (byteBuffer [b0, b1] <<< 4) &&& 31 =
          (b1 % 2 ^ (8 * ([b0, b1] : List Nat).length % 5)) <<<
            (5 - 8 * ([b0, b1] : List Nat).length % 5) := by
        rw [byteBuffer_two b0 b1 (hB b1 (by simp))]
        simp only [List.length_cons, List.length_nil]
        norm_num [and31, Nat.shiftLeft_eq]
        omega
      rw [show ([alphabet.getD (((byteBuffer [b0, b1] <<< 4) >>> 15) &&& 31) ' ',
        alphabet.getD (((byteBuffer [b0, b1] <<< 4) >>> 10) &&& 31) ' ',
        alphabet.getD (((byteBuffer [b0, b1] <<< 4) >>> 5) &&& 31) ' ',
        alphabet.getD ((byteBuffer [b0, b1] <<< 4) &&& 31) ' '].getD 3 ' ') =
        alphabet.getD ((byteBuffer [b0, b1] <<< 4) &&& 31) ' ' from rfl, hval]
    | [b0, b1, b2] =>
      have hb2 : b2 = lastb := by simpa using hlast
      subst hb2
      rw [enc32_chunk3_eq]
      have hidx : (8 * ([b0, b1, b2] : List Nat).length + 4) / 5 - 1 = 4 := by simp
      rw [hidx, List.getD_append _ _ _ _ (by simp)]
      have hval : (byteBuffer [b0, b1, b2] <<< 1) &&& 31 =
          (b2 % 2 ^ (8 * ([b0, b1, b2] : List Nat).length % 5)) <<<
            (5 - 8 * ([b0, b1, b2] : List Nat).length % 5) := by
        rw [byteBuffer_three b0 b1 b2 (hB b1 (by simp)) (hB b2 (by simp))]
        simp only [List.length_cons, List.length_nil]
        norm_num [and31, Nat.shiftLeft_eq]
        omega
      rw [show ([alphabet.getD (((byteBuffer [b0, b1, b2] <<< 1) >>> 20) &&& 31) ' ',
        alphabet.getD (((byteBuffer [b0, b1, b2] <<< 1) >>> 15) &&& 31) ' ',
        alphabet.getD (((byteBuffer [b0, b1, b2] <<< 1) >>> 10) &&& 31) ' ',
        alphabet.getD (((byteBuffer [b0, b1, b2] <<< 1) >>> 5) &&& 31) ' ',
        alphabet.getD ((byteBuffer [b0, b1, b2] <<< 1) &&& 31) ' '].getD 4 ' ') =
        alphabet.getD ((byteBuffer [b0, b1, b2] <<< 1) &&& 31) ' ' from rfl, hval]
    | [b0, b1, b2, b3] =>
      have hb3 : b3 = lastb := by simpa using hlast
      subst hb3
      rw [enc32_chunk4_eq]
      have hidx : (8 * ([b0, b1, b2, b3] : List Nat).length + 4) / 5 - 1 = 6 := by
        simp
      rw [hidx, List.getD_append _ _ _ _ (by simp)]
      have hval : (byteBuffer [b0, b1, b2, b3] <<< 3) &&& 31 =
          (b3 % 2 ^ (8 * ([b0, b1, b2, b3] : List Nat).length % 5)) <<<
            (5 - 8 * ([b0, b1, b2, b3] : List Nat).length % 5) := by
        rw [byteBuffer_four b0 b1 b2 b3 (hB b1 (by simp)) (hB b2 (by simp))
          (hB b3 (by simp))]
        simp only [List.length_cons, List.length_nil]
        norm_num [and31, Nat.shiftLeft_eq]
        omega
      rw [show ([alphabet.getD (((byteBuffer [b0, b1, b2, b3] <<< 3) >>> 30) &&& 31) ' ',
        alphabet.getD (((byteBuffer [b0, b1, b2, b3] <<< 3) >>> 25) &&& 31) ' ',
        alphabet.getD (((byteBuffer [b0, b1, b2, b3] <<< 3) >>> 20) &&& 31) ' ',
        alphabet.getD (((byteBuffer [b0, b1, b2, b3] <<< 3) >>> 15) &&& 31) ' ',
        alphabet.getD (((byteBuffer [b0, b1, b2, b3] <<< 3) >>> 10) &&& 31) ' ',
        alphabet.getD (((byteBuffer [b0, b1, b2, b3] <<< 3) >>> 5) &&& 31) ' ',
        alphabet.getD ((byteBuffer [b0, b1, b2, b3] <<< 3) &&& 31) ' '].getD 6 ' ') =
        alphabet.getD ((byteBuffer [b0, b1, b2, b3] <<< 3) &&& 31) ' ' from rfl, hval]
    | b0 :: b1 :: b2 :: b3 :: b4 :: rest =>
      match rest with
      | [] => simp at h5
      | r :: rtail =>
        have hrest : (r :: rtail).getLast? = some lastb := by
          simpa using hlast
        have hstep : encodeBase32_internal (b0 :: b1 :: b2 :: b3 :: b4 :: r :: rtail)
            alphabet p =
            encode32Chunk [b0, b1, b2, b3, b4] alphabet p ++
              encodeBase32_internal (r :: rtail) alphabet p := rfl
        have hchunklen : (encode32Chunk [b0, b1, b2, b3, b4] alphabet p).length = 8 := by
          rw [encode32Chunk_five]
          cases p <;> rfl
        have hge : (encode32Chunk [b0, b1, b2, b3, b4] alphabet p).length ≤
            (8 * (b0 :: b1 :: b2 :: b3 :: b4 :: r :: rtail).length + 4) / 5 - 1 := by
          rw [hchunklen]
          simp only [List.length_cons]
          omega
        rw [hstep, List.getD_append_right _ _ _ _ hge]
        have hidx : (8 * (b0 :: b1 :: b2 :: b3 :: b4 :: r :: rtail).length + 4) / 5 - 1 -
            (encode32Chunk [b0, b1, b2, b3, b4] alphabet p).length =
            (8 * (r :: rtail).length + 4) / 5 - 1 := by
          rw [hchunklen]
          simp only [List.length_cons]
          omega
        have hr : 8 * (b0 :: b1 :: b2 :: b3 :: b4 :: r :: rtail).length % 5 =
            8 * (r :: rtail).length % 5 := by
          simp only [List.length_cons]
          omega
        rw [hidx, hr]
        exact ih (r :: rtail) lastb (by simp at hlen ⊢; omega)
          (fun b hb => hB b (by simp at hb ⊢; tauto))
          (by simp at h5 ⊢; omega) hrest

/-! ## Failure propagation: Base64 -/

theorem lt_of_getElem?_some {α : Type} {l : List α} {n : Nat} {a : α}
    (h : l[n]? = some a) : n < l.length :=
  (List.getElem?_eq_some_iff.mp h).1

/-- An `ErrorPos64` position makes its window-loop iteration throw,
whatever the accumulator state. -/
theorem err_at64 (w : List Char) (dm : Char → Option Nat) (p : DecodingPadding)
    (t : Nat) (h : ErrorPos64 w dm p t) (fuel chunk bits : Nat) :
    ∃ e, decode64Go w dm p (fuel + 1) t chunk bits = .error e := by
  rcases h with ⟨hp, hw⟩ | ⟨c, hw, hc, hdm⟩ | ⟨c, hw, hc, ht, hprev⟩
  · subst hp
    by_cases hpv : 0 < t ∧ w[t - 1]? = some '='
    · exact ⟨Err.invalidPadding, by simp [decode64Go, hw, hpv]⟩
    · exact ⟨Err.invalidCharacter, by simp [decode64Go, hw, hpv]⟩
  · have hnle : ¬ (w.length ≤ t) := by
      have := lt_of_getElem?_some hw
      omega
    by_cases hpv : 0 < t ∧ w[t - 1]? = some '='
    · exact ⟨Err.invalidPadding, by simp [decode64Go, hw, hc, hnle, hpv]⟩
    · exact ⟨Err.invalidCharacter, by simp [decode64Go, hw, hc, hdm, hnle, hpv]⟩
  · have hnle : ¬ (w.length ≤ t) := by
      have := lt_of_getElem?_some hw
      omega
    exact ⟨Err.invalidPadding, by simp [decode64Go, hw, hc, hnle, ht, hprev]⟩

/-- Every window-loop iteration either throws or moves to the next
position. -/
theorem go64_step (w : List Char) (dm : Char → Option Nat) (p : DecodingPadding)
    (fuel t chunk bits : Nat) :
    (∃ e, decode64Go w dm p (fuel + 1) t chunk bits = .error e) ∨
    (∃ chunk' bits', decode64Go w dm p (fuel + 1) t chunk bits =
      decode64Go w dm p fuel (t + 1) chunk' bits') := by
  rw [decode64Go]
  split_ifs with h1 h2 h3
  · right
    exact ⟨chunk, bits, rfl⟩
  · right
    exact ⟨chunk, bits, rfl⟩
  · left
    exact ⟨_, rfl⟩
  · cases hw : w[t]? with
    | none =>
      left
      exact ⟨Err.invalidCharacter, by simp [hw]⟩
    | some c =>
      cases hdm : dm c with
      | none =>
        left
        exact ⟨Err.invalidCharacter, by simp [hw, hdm]⟩
      | some v =>
        right
        exact ⟨chunk ||| v <<< ((3 - t) * 6), bits + 6, by simp [hw, hdm]⟩

/-- If some position still ahead of the loop is an `ErrorPos64`, the
window loop fails. -/
theorem go64_err (w : List Char) (dm : Char → Option Nat) (p : DecodingPadding) :
    ∀ (fuel t chunk bits : Nat),
      (∃ u, t ≤ u ∧ u < t + fuel ∧ ErrorPos64 w dm p u) →
      ∃ e, decode64Go w dm p fuel t chunk bits = .error e := by
  intro fuel
  induction fuel with
  | zero =>
    intro t chunk bits ⟨u, h1, h2, _⟩
    omega
  | succ fuel ih =>
    intro t chunk bits ⟨u, hu1, hu2, hup⟩
    by_cases hut : u = t
    · subst hut
      exact err_at64 w dm p u hup fuel chunk bits
    · rcases go64_step w dm p fuel t chunk bits with ⟨e, he⟩ | ⟨c', b', hrec⟩
      · exact ⟨e, he⟩
      · rw [hrec]
        exact ih (t + 1) c' b' ⟨u, by omega, by omega, hup⟩

/-- A failing head window makes the whole decode fail. -/
theorem dec64_err_head (c0 c1 c2 c3 : Char) (rest : List Char)
    (dm : Char → Option Nat) (p : DecodingPadding)
    (h : ∃ e, decode64Go [c0, c1, c2, c3] dm p 4 0 0 0 = .error e) :
    ∃ e, decodeBase64_internal (c0 :: c1 :: c2 :: c3 :: rest) dm p = .error e := by
  obtain ⟨e, he⟩ := h
  exact ⟨e, by rw [decodeBase64_internal_cons4, he]⟩

/-- A failing tail makes the whole decode fail. -/
theorem dec64_err_tail (c0 c1 c2 c3 : Char) (rest : List Char)
    (dm : Char → Option Nat) (p : DecodingPadding)
    (h : ∃ e, decodeBase64_internal rest dm p = .error e) :
    ∃ e, decodeBase64_internal (c0 :: c1 :: c2 :: c3 :: rest) dm p = .error e := by
  cases hgo : decode64Go [c0, c1, c2, c3] dm p 4 0 0 0 with
  | error e => exact ⟨e, by rw [decodeBase64_internal_cons4, hgo]⟩
  | ok val =>
    obtain ⟨chunk, bits⟩ := val
    cases hfin : decode64Finish chunk bits with
    | error e =>
      exact ⟨e, by rw [decodeBase64_internal_cons4]; simp [hgo, hfin]⟩
    | ok bytes =>
      obtain ⟨e, he⟩ := h
      exact ⟨e, by rw [decodeBase64_internal_cons4]; simp [hgo, hfin, he]⟩

/-- A failing short final window makes the whole decode fail. -/
theorem dec64_err_short (w : List Char) (dm : Char → Option Nat)
    (p : DecodingPadding) (hne : w ≠ []) (hlt : w.length < 4)
    (h : ∃ e, decode64Go w dm p 4 0 0 0 = .error e) :
    ∃ e, decodeBase64_internal w dm p = .error e := by
  obtain ⟨e, he⟩ := h
  match w with
  | [] => exact absurd rfl hne
  | [c0] => exact ⟨e, by rw [decodeBase64_internal_short1, he]⟩
  | [c0, c1] => exact ⟨e, by rw [decodeBase64_internal_short2, he]⟩
  | [c0, c1, c2] => exact ⟨e, by rw [decodeBase64_internal_short3, he]⟩
  | c0 :: c1 :: c2 :: c3 :: rest => exact absurd hlt (by simp)

/-! ## Failure propagation: Base32 -/

/-- An `ErrorPos32` position makes its window-loop iteration throw. -/
theorem err_at32 (w : List Char) (dm : Char → Option Nat) (p : DecodingPadding)
    (t : Nat) (h : ErrorPos32 w dm p t) (fuel chunk bits : Nat) :
    ∃ e, decode32Go w dm p (fuel + 1) t chunk bits = .error e := by
  rcases h with ⟨hp, hw⟩ | ⟨c, hw, hc, hdm⟩ | ⟨c, hw, hc, ht, hprev⟩
  · subst hp
    have hle : w.length ≤ t := List.getElem?_eq_none_iff.mp hw
    exact ⟨Err.invalidPadding, by simp [decode32Go, hw, hle]⟩
  · have hnle : ¬ (w.length ≤ t) := by
      have := lt_of_getElem?_some hw
      omega
    by_cases hpv : 0 < t ∧ w[t - 1]? = some '='
    · exact ⟨Err.invalidPadding, by simp [decode32Go, hw, hc, hnle, hpv]⟩
    · exact ⟨Err.invalidCharacter, by simp [decode32Go, hw, hc, hdm, hnle, hpv]⟩
  · have hnle : ¬ (w.length ≤ t) := by
      have := lt_of_getElem?_some hw
      omega
    exact ⟨Err.invalidPadding, by simp [decode32Go, hw, hc, hnle, ht, hprev]⟩

/-- Every Base32 window-loop iteration either throws or advances. -/
theorem go32_step (w : List Char) (dm : Char → Option Nat) (p : DecodingPadding)
    (fuel t chunk bits : Nat) :
    (∃ e, decode32Go w dm p (fuel + 1) t chunk bits = .error e) ∨
    (∃ chunk' bits', decode32Go w dm p (fuel + 1) t chunk bits =
      decode32Go w dm p fuel (t + 1) chunk' bits') := by
  rw [decode32Go]
  split_ifs with h1 h2 h3 h4
  · right
    exact ⟨chunk, bits, rfl⟩
  · left
    exact ⟨Err.invalidPadding, rfl⟩
  · right
    exact ⟨chunk, bits, rfl⟩
  · left
    exact ⟨Err.invalidPadding, rfl⟩
  · cases hw : w[t]? with
    | none =>
      left
      exact ⟨Err.invalidCharacter, by simp [hw]⟩
    | some c =>
      cases hdm : dm c with
      | none =>
        left
        exact ⟨Err.invalidCharacter, by simp [hw, hdm]⟩
      | some v =>
        right
        exact ⟨chunk ||| v <<< ((7 - t) * 5), bits + 5, by simp [hw, hdm]⟩

/-- If some position ahead of the Base32 window loop is an `ErrorPos32`,
the loop fails. -/
theorem go32_err (w : List Char) (dm : Char → Option Nat) (p : DecodingPadding) :
    ∀ (fuel t chunk bits : Nat),
      (∃ u, t ≤ u ∧ u < t + fuel ∧ ErrorPos32 w dm p u) →
      ∃ e, decode32Go w dm p fuel t chunk bits = .error e := by
  intro fuel
  induction fuel with
  | zero =>
    intro t chunk bits ⟨u, h1, h2, _⟩
    omega
  | succ fuel ih =>
    intro t chunk bits ⟨u, hu1, hu2, hup⟩
    by_cases hut : u = t
    · subst hut
      exact err_at32 w dm p u hup fuel chunk bits
    · rcases go32_step w dm p fuel t chunk bits with ⟨e, he⟩ | ⟨c', b', hrec⟩
      · exact ⟨e, he⟩
      · rw [hrec]
        exact ih (t + 1) c' b' ⟨u, by omega, by omega, hup⟩

/-- A failing head window makes the whole Base32 decode fail. -/
theorem dec32_err_head (c0 c1 c2 c3 c4 c5 c6 c7 : Char) (rest : List Char)
    (dm : Char → Option Nat) (p : DecodingPadding)
    (h : ∃ e, decode32Go [c0, c1, c2, c3, c4, c5, c6, c7] dm p 8 0 0 0 = .error e) :
    ∃ e, decodeBase32_internal (c0 :: c1 :: c2 :: c3 :: c4 :: c5 :: c6 :: c7 :: rest)
      dm p = .error e := by
  obtain ⟨e, he⟩ := h
  exact ⟨e, by rw [decodeBase32_internal_cons8, he]⟩

/-- A failing tail makes the whole Base32 decode fail. -/
theorem dec32_err_tail (c0 c1 c2 c3 c4 c5 c6 c7 : Char) (rest : List Char)
    (dm : Char → Option Nat) (p : DecodingPadding)
    (h : ∃ e, decodeBase32_internal rest dm p = .error e) :
    ∃ e, decodeBase32_internal (c0 :: c1 :: c2 :: c3 :: c4 :: c5 :: c6 :: c7 :: rest)
      dm p = .error e := by
  cases hgo : decode32Go [c0, c1, c2, c3, c4, c5, c6, c7] dm p 8 0 0 0 with
  | error e => exact ⟨e, by rw [decodeBase32_internal_cons8, hgo]⟩
  | ok val =>
    obtain ⟨chunk, bits⟩ := val
    cases hfin : decode32Finish chunk bits with
    | error e =>
      exact ⟨e, by rw [decodeBase32_internal_cons8]; simp [hgo, hfin]⟩
    | ok bytes =>
      obtain ⟨e, he⟩ := h
      exact ⟨e, by rw [decodeBase32_internal_cons8]; simp [hgo, hfin, he]⟩

/-- A failing short final window makes the whole Base32 decode fail. -/
theorem dec32_err_short (w : List Char) (dm : Char → Option Nat)
    (p : DecodingPadding) (hne : w ≠ []) (hlt : w.length < 8)
    (h : ∃ e, decode32Go w dm p 8 0 0 0 = .error e) :
    ∃ e, decodeBase32_internal w dm p = .error e := by
  obtain ⟨e, he⟩ := h
  exact ⟨e, by rw [decodeBase32_internal_short w hne hlt, he]⟩

/-- In `Required` mode, a Base64 decode of a non-window-aligned input
always fails: the final short window has an out-of-range position. -/
theorem dec64_nonaligned (dm : Char → Option Nat) :
    ∀ (n : Nat) (encoded : List Char), encoded.length ≤ n → encoded ≠ [] →
      encoded.length % 4 ≠ 0 →
      ∃ e, decodeBase64_internal encoded dm DecodingPadding.Required = .error e := by
  intro n
  induction n with
  | zero =>
    intro encoded hlen hne h4
    cases encoded with
    | nil => exact absurd rfl hne
    | cons c cs => simp at hlen
  | succ n ih =>
    intro encoded hlen hne h4
    match encoded with
    | [] => exact absurd rfl hne
    | [c0] =>
      exact dec64_err_short _ _ _ (by simp) (by simp)
        (go64_err _ _ _ 4 0 0 0 ⟨1, by omega, by omega, Or.inl ⟨rfl, rfl⟩⟩)
    | [c0, c1] =>
      exact dec64_err_short _ _ _ (by simp) (by simp)
        (go64_err _ _ _ 4 0 0 0 ⟨2, by omega, by omega, Or.inl ⟨rfl, rfl⟩⟩)
    | [c0, c1, c2] =>
      exact dec64_err_short _ _ _ (by simp) (by simp)
        (go64_err _ _ _ 4 0 0 0 ⟨3, by omega, by omega, Or.inl ⟨rfl, rfl⟩⟩)
    | c0 :: c1 :: c2 :: c3 :: rest =>
      have hrne : rest ≠ [] := by
        intro hr
        subst hr
        simp at h4
      exact dec64_err_tail _ _ _ _ _ _ _
        (ih rest (by simp at hlen ⊢; omega) hrne (by simp at h4 ⊢; omega))

/-- In `Required` mode, a Base32 decode of a non-window-aligned input
always fails. -/
theorem dec32_nonaligned (dm : Char → Option Nat) :
    ∀ (n : Nat) (encoded : List Char), encoded.length ≤ n → encoded ≠ [] →
      encoded.length % 8 ≠ 0 →
      ∃ e, decodeBase32_internal encoded dm DecodingPadding.Required = .error e := by
  intro n
  induction n with
  | zero =>
    intro encoded hlen hne h8
    cases encoded with
    | nil => exact absurd rfl hne
    | cons c cs => simp at hlen
  | succ n ih =>
    intro encoded hlen hne h8
    match encoded with
    | [] => exact absurd rfl hne
    | [c0] =>
      exact dec32_err_short _ _ _ (by simp) (by simp)
        (go32_err _ _ _ 8 0 0 0 ⟨1, by omega, by omega, Or.inl ⟨rfl, rfl⟩⟩)
    | [c0, c1] =>
      exact dec32_err_short _ _ _ (by simp) (by simp)
        (go32_err _ _ _ 8 0 0 0 ⟨2, by omega, by omega, Or.inl ⟨rfl, rfl⟩⟩)
    | [c0, c1, c2] =>
      exact dec32_err_short _ _ _ (by simp) (by simp)
        (go32_err _ _ _ 8 0 0 0 ⟨3, by omega, by omega, Or.inl ⟨rfl, rfl⟩⟩)
    | [c0, c1, c2, c3] =>
      exact dec32_err_short _ _ _ (by simp) (by simp)
        (go32_err _ _ _ 8 0 0 0 ⟨4, by omega, by omega, Or.inl ⟨rfl, rfl⟩⟩)
    | [c0, c1, c2, c3, c4] =>
      exact dec32_err_short _ _ _ (by simp) (by simp)
        (go32_err _ _ _ 8 0 0 0 ⟨5, by omega, by omega, Or.inl ⟨rfl, rfl⟩⟩)
    | [c0, c1, c2, c3, c4, c5] =>
      exact dec32_err_short _ _ _ (by simp) (by simp)
        (go32_err _ _ _ 8 0 0 0 ⟨6, by omega, by omega, Or.inl ⟨rfl, rfl⟩⟩)
    | [c0, c1, c2, c3, c4, c5, c6] =>
      exact dec32_err_short _ _ _ (by simp) (by simp)
        (go32_err _ _ _ 8 0 0 0 ⟨7, by omega, by omega, Or.inl ⟨rfl, rfl⟩⟩)
    | c0 :: c1 :: c2 :: c3 :: c4 :: c5 :: c6 :: c7 :: rest =>
      have hrne : rest ≠ [] := by
        intro hr
        subst hr
        simp at h8
      exact dec32_err_tail _ _ _ _ _ _ _ _ _ _ _
        (ih rest (by simp at hlen ⊢; omega) hrne (by simp at h8 ⊢; omega))

/-! ## Pad-then-data inside a window forces a failing position -/

/-- If a pad sits at position `j` of a Base64 window and an in-map
non-pad character at a later position `j'`, some position of the window
is an `ErrorPos64`. -/
theorem paddata64 (w : List Char) (dm : Char → Option Nat) (p : DecodingPadding)
    (j : Nat) (hpad : w[j]? = some '=') :
    ∀ j', j < j' → j' < 4 → ∀ c, w[j']? = some c → c ≠ '=' → dm c ≠ none →
      ∃ t, t < 4 ∧ ErrorPos64 w dm p t := by
  intro j'
  induction j' using Nat.strong_induction_on with
  | _ j' ih =>
    intro hjj hj4 c hc hcne hdm
    cases hprev : w[j' - 1]? with
    | none =>
      have h1 := List.getElem?_eq_none_iff.mp hprev
      have h2 := lt_of_getElem?_some hc
      omega
    | some d =>
      by_cases hd : d = '='
      · subst hd
        exact ⟨j', hj4, Or.inr (Or.inr ⟨c, hc, hcne, by omega, hprev⟩)⟩
      · by_cases hdm' : dm d = none
        · exact ⟨j' - 1, by omega, Or.inr (Or.inl ⟨d, hprev, hd, hdm'⟩)⟩
        · by_cases hj : j = j' - 1
          · subst hj
            rw [hpad] at hprev
            exact absurd (Option.some.injEq _ _ ▸ hprev).symm hd
          · exact ih (j' - 1) (by omega) (by omega) (by omega) d hprev hd hdm'

/-- Base32 version of `paddata64`. -/
theorem paddata32 (w : List Char) (dm : Char → Option Nat) (p : DecodingPadding)
    (j : Nat) (hpad : w[j]? = some '=') :
    ∀ j', j < j' → j' < 8 → ∀ c, w[j']? = some c → c ≠ '=' → dm c ≠ none →
      ∃ t, t < 8 ∧ ErrorPos32 w dm p t := by
  intro j'
  induction j' using Nat.strong_induction_on with
  | _ j' ih =>
    intro hjj hj4 c hc hcne hdm
    cases hprev : w[j' - 1]? with
    | none =>
      have h1 := List.getElem?_eq_none_iff.mp hprev
      have h2 := lt_of_getElem?_some hc
      omega
    | some d =>
      by_cases hd : d = '='
      · subst hd
        exact ⟨j', hj4, Or.inr (Or.inr ⟨c, hc, hcne, by omega, hprev⟩)⟩
      · by_cases hdm' : dm d = none
        · exact ⟨j' - 1, by omega, Or.inr (Or.inl ⟨d, hprev, hd, hdm'⟩)⟩
        · by_cases hj : j = j' - 1
          · subst hj
            rw [hpad] at hprev
            exact absurd (Option.some.injEq _ _ ▸ hprev).symm hd
          · exact ih (j' - 1) (by omega) (by omega) (by omega) d hprev hd hdm'

theorem window4_getElem (c0 c1 c2 c3 : Char) (rest : List Char) (j : Nat)
    (hj : j < 4) :
    ([c0, c1, c2, c3] : List Char)[j]? = (c0 :: c1 :: c2 :: c3 :: rest)[j]? := by
  interval_cases j <;> simp

theorem window8_getElem (c0 c1 c2 c3 c4 c5 c6 c7 : Char) (rest : List Char) (j : Nat)
    (hj : j < 8) :
    ([c0, c1, c2, c3, c4, c5, c6, c7] : List Char)[j]? =
      (c0 :: c1 :: c2 :: c3 :: c4 :: c5 :: c6 :: c7 :: rest)[j]? := by
  interval_cases j <;> simp

/-- A pad character (or, in Ignore mode, the end of the input) at window
position `j` followed by an in-map non-pad character at a later position
`j'` of the same Base64 window makes the whole decode fail. -/
theorem dec64_pad_then_data (dm : Char → Option Nat) (pd : DecodingPadding) :
    ∀ (i : Nat) (encoded : List Char) (j j' : Nat), j < j' → j' < 4 →
      (encoded[4 * i + j]? = some '=' ∨
        (pd = DecodingPadding.Ignore ∧ encoded.length ≤ 4 * i + j)) →
      ∀ c, encoded[4 * i + j']? = some c → c ≠ '=' → dm c ≠ none →
      ∃ e, decodeBase64_internal encoded dm pd = .error e := by
  intro i
  induction i with
  | zero =>
    intro encoded j j' hjj hj4 hpad c hc hcne hdm
    rcases hpad with hpe | ⟨hpI, hle⟩
    case inr.intro =>
      have := lt_of_getElem?_some hc
      omega
    simp only [Nat.mul_zero, Nat.zero_add] at hpe hc
    match encoded with
    | [] => simp at hpe
    | [c0] =>
      obtain ⟨t, ht, hEP⟩ := paddata64 [c0] dm pd j hpe j' hjj hj4 c hc hcne hdm
      exact dec64_err_short _ _ _ (by simp) (by simp)
        (go64_err _ _ _ 4 0 0 0 ⟨t, by omega, by omega, hEP⟩)
    | [c0, c1] =>
      obtain ⟨t, ht, hEP⟩ := paddata64 [c0, c1] dm pd j hpe j' hjj hj4 c hc hcne hdm
      exact dec64_err_short _ _ _ (by simp) (by simp)
        (go64_err _ _ _ 4 0 0 0 ⟨t, by omega, by omega, hEP⟩)
    | [c0, c1, c2] =>
      obtain ⟨t, ht, hEP⟩ := paddata64 [c0, c1, c2] dm pd j hpe j' hjj hj4 c hc
        hcne hdm
      exact dec64_err_short _ _ _ (by simp) (by simp)
        (go64_err _ _ _ 4 0 0 0 ⟨t, by omega, by omega, hEP⟩)
    | c0 :: c1 :: c2 :: c3 :: rest =>
      obtain ⟨t, ht, hEP⟩ := paddata64 [c0, c1, c2, c3] dm pd j
        (by rw [window4_getElem c0 c1 c2 c3 rest j (by omega)]; exact hpe)
        j' hjj hj4 c
        (by rw [window4_getElem c0 c1 c2 c3 rest j' hj4]; exact hc) hcne hdm
      exact dec64_err_head _ _ _ _ _ _ _
        (go64_err _ _ _ 4 0 0 0 ⟨t, by omega, by omega, hEP⟩)
  | succ i ih =>
    intro encoded j j' hjj hj4 hpad c hc hcne hdm
    have hlen := lt_of_getElem?_some hc
    match encoded with
    | [] => exact absurd hlen (by simp)
    | [c0] => simp only [List.length_cons, List.length_nil] at hlen; omega
    | [c0, c1] => simp only [List.length_cons, List.length_nil] at hlen; omega
    | [c0, c1, c2] => simp only [List.length_cons, List.length_nil] at hlen; omega
    | c0 :: c1 :: c2 :: c3 :: rest =>
      apply dec64_err_tail
      apply ih rest j j' hjj hj4 ?_ c ?_ hcne hdm
      · rcases hpad with hpe | ⟨hpI, hle⟩
        · left
          have hshift : 4 * (i + 1) + j = 4 * i + j + 4 := by ring
          rw [hshift] at hpe
          simpa using hpe
        · right
          refine ⟨hpI, ?_⟩
          simp only [List.length_cons] at hle
          omega
      · have hshift : 4 * (i + 1) + j' = 4 * i + j' + 4 := by ring
        rw [hshift] at hc
        simpa using hc

/-- Base32 version of `dec64_pad_then_data`. -/
theorem dec32_pad_then_data (dm : Char → Option Nat) (pd : DecodingPadding) :
    ∀ (i : Nat) (encoded : List Char) (j j' : Nat), j < j' → j' < 8 →
      (encoded[8 * i + j]? = some '=' ∨
        (pd = DecodingPadding.Ignore ∧ encoded.length ≤ 8 * i + j)) →
      ∀ c, encoded[8 * i + j']? = some c → c ≠ '=' → dm c ≠ none →
      ∃ e, decodeBase32_internal encoded dm pd = .error e := by
  intro i
  induction i with
  | zero =>
    intro encoded j j' hjj hj8 hpad c hc hcne hdm
    rcases hpad with hpe | ⟨hpI, hle⟩
    case inr.intro =>
      have := lt_of_getElem?_some hc
      omega
    simp only [Nat.mul_zero, Nat.zero_add] at hpe hc
    match encoded with
    | [] => simp at hpe
    | [c0] =>
      obtain ⟨t, ht, hEP⟩ := paddata32 [c0] dm pd j hpe j' hjj hj8 c hc hcne hdm
      exact dec32_err_short _ _ _ (by simp) (by simp)
        (go32_err _ _ _ 8 0 0 0 ⟨t, by omega, by omega, hEP⟩)
    | [c0, c1] =>
      obtain ⟨t, ht, hEP⟩ := paddata32 [c0, c1] dm pd j hpe j' hjj hj8 c hc hcne hdm
      exact dec32_err_short _ _ _ (by simp) (by simp)
        (go32_err _ _ _ 8 0 0 0 ⟨t, by omega, by omega, hEP⟩)
    | [c0, c1, c2] =>
      obtain ⟨t, ht, hEP⟩ := paddata32 [c0, c1, c2] dm pd j hpe j' hjj hj8 c hc hcne hdm
      exact dec32_err_short _ _ _ (by simp) (by simp)
        (go32_err _ _ _ 8 0 0 0 ⟨t, by omega, by omega, hEP⟩)
    | [c0, c1, c2, c3] =>
      obtain ⟨t, ht, hEP⟩ := paddata32 [c0, c1, c2, c3] dm pd j hpe j' hjj hj8 c hc hcne hdm
      exact dec32_err_short _ _ _ (by simp) (by simp)
        (go32_err _ _ _ 8 0 0 0 ⟨t, by omega, by omega, hEP⟩)
    | [c0, c1, c2, c3, c4] =>
      obtain ⟨t, ht, hEP⟩ := paddata32 [c0, c1, c2, c3, c4] dm pd j hpe j' hjj hj8 c hc hcne hdm
      exact dec32_err_short _ _ _ (by simp) (by simp)
        (go32_err _ _ _ 8 0 0 0 ⟨t, by omega, by omega, hEP⟩)
    | [c0, c1, c2, c3, c4, c5] =>
      obtain ⟨t, ht, hEP⟩ := paddata32 [c0, c1, c2, c3, c4, c5] dm pd j hpe j' hjj hj8 c hc hcne hdm
      exact dec32_err_short _ _ _ (by simp) (by simp)
        (go32_err _ _ _ 8 0 0 0 ⟨t, by omega, by omega, hEP⟩)
    | [c0, c1, c2, c3, c4, c5, c6] =>
      obtain ⟨t, ht, hEP⟩ := paddata32 [c0, c1, c2, c3, c4, c5, c6] dm pd j hpe j' hjj hj8 c hc hcne hdm
      exact dec32_err_short _ _ _ (by simp) (by simp)
        (go32_err _ _ _ 8 0 0 0 ⟨t, by omega, by omega, hEP⟩)
    | c0 :: c1 :: c2 :: c3 :: c4 :: c5 :: c6 :: c7 :: rest =>
      obtain ⟨t, ht, hEP⟩ := paddata32 [c0, c1, c2, c3, c4, c5, c6, c7] dm pd j
        (by rw [window8_getElem c0 c1 c2 c3 c4 c5 c6 c7 rest j (by omega)]; exact hpe)
        j' hjj hj8 c
        (by rw [window8_getElem c0 c1 c2 c3 c4 c5 c6 c7 rest j' hj8]; exact hc)
        hcne hdm
      exact dec32_err_head _ _ _ _ _ _ _ _ _ _ _
        (go32_err _ _ _ 8 0 0 0 ⟨t, by omega, by omega, hEP⟩)
  | succ i ih =>
    intro encoded j j' hjj hj8 hpad c hc hcne hdm
    have hlen := lt_of_getElem?_some hc
    match encoded with
    | [] => exact absurd hlen (by simp)
    | [c0] => simp only [List.length_cons, List.length_nil] at hlen; omega
    | [c0, c1] => simp only [List.length_cons, List.length_nil] at hlen; omega
    | [c0, c1, c2] => simp only [List.length_cons, List.length_nil] at hlen; omega
    | [c0, c1, c2, c3] => simp only [List.length_cons, List.length_nil] at hlen; omega
    | [c0, c1, c2, c3, c4] => simp only [List.length_cons, List.length_nil] at hlen; omega
    | [c0, c1, c2, c3, c4, c5] => simp only [List.length_cons, List.length_nil] at hlen; omega
    | [c0, c1, c2, c3, c4, c5, c6] => simp only [List.length_cons, List.length_nil] at hlen; omega
    | c0 :: c1 :: c2 :: c3 :: c4 :: c5 :: c6 :: c7 :: rest =>
      apply dec32_err_tail
      apply ih rest j j' hjj hj8 ?_ c ?_ hcne hdm
      · rcases hpad with hpe | ⟨hpI, hle⟩
        · left
          have hshift : 8 * (i + 1) + j = 8 * i + j + 8 := by ring
          rw [hshift] at hpe
          simpa using hpe
        · right
          refine ⟨hpI, ?_⟩
          simp only [List.length_cons] at hle
          omega
      · have hshift : 8 * (i + 1) + j' = 8 * i + j' + 8 := by ring
        rw [hshift] at hc
        simpa using hc

/-! ## Characters outside the decode map make the decode fail -/

/-- A non-pad character outside the decode map anywhere in the input
makes the Base64 decode fail. -/
theorem dec64_junk_fails (dm : Char → Option Nat) (pd : DecodingPadding) :
    ∀ (i : Nat) (encoded : List Char) (t : Nat), t < 4 →
      ∀ c, encoded[4 * i + t]? = some c → c ≠ '=' → dm c = none →
      ∃ e, decodeBase64_internal encoded dm pd = .error e := by
  intro i
  induction i with
  | zero =>
    intro encoded t ht4 c hc hcne hdm
    simp only [Nat.mul_zero, Nat.zero_add] at hc
    match encoded with
    | [] => simp at hc
    | [c0] =>
      exact dec64_err_short _ _ _ (by simp) (by simp)
        (go64_err _ _ _ 4 0 0 0 ⟨t, by omega, by omega,
          Or.inr (Or.inl ⟨c, hc, hcne, hdm⟩)⟩)
    | [c0, c1] =>
      exact dec64_err_short _ _ _ (by simp) (by simp)
        (go64_err _ _ _ 4 0 0 0 ⟨t, by omega, by omega,
          Or.inr (Or.inl ⟨c, hc, hcne, hdm⟩)⟩)
    | [c0, c1, c2] =>
      exact dec64_err_short _ _ _ (by simp) (by simp)
        (go64_err _ _ _ 4 0 0 0 ⟨t, by omega, by omega,
          Or.inr (Or.inl ⟨c, hc, hcne, hdm⟩)⟩)
    | c0 :: c1 :: c2 :: c3 :: rest =>
      exact dec64_err_head _ _ _ _ _ _ _
        (go64_err _ _ _ 4 0 0 0 ⟨t, by omega, by omega,
          Or.inr (Or.inl ⟨c, by rw [window4_getElem c0 c1 c2 c3 rest t ht4]; exact hc,
            hcne, hdm⟩)⟩)
  | succ i ih =>
    intro encoded t ht4 c hc hcne hdm
    have hlen := lt_of_getElem?_some hc
    match encoded with
    | [] => exact absurd hlen (by simp)
    | [c0] => simp only [List.length_cons, List.length_nil] at hlen; omega
    | [c0, c1] => simp only [List.length_cons, List.length_nil] at hlen; omega
    | [c0, c1, c2] => simp only [List.length_cons, List.length_nil] at hlen; omega
    | c0 :: c1 :: c2 :: c3 :: rest =>
      apply dec64_err_tail
      apply ih rest t ht4 c ?_ hcne hdm
      have hshift : 4 * (i + 1) + t = 4 * i + t + 4 := by ring
      rw [hshift] at hc
      simpa using hc

/-- The Base64 window loop reaches a failed decode-map lookup with
exactly the invalid-character error when every earlier position of the
window holds an in-map non-pad character. -/
theorem go64_clean (w : List Char) (dm : Char → Option Nat) (p : DecodingPadding)
    (t : Nat) (ht : t < 4) (c : Char) (hw : w[t]? = some c) (hc : c ≠ '=')
    (hdm : dm c = none)
    (hclean : ∀ u, u < t → ∃ cu, w[u]? = some cu ∧ cu ≠ '=' ∧ dm cu ≠ none) :
    ∀ (fuel u chunk bits : Nat), u + fuel = 4 → u ≤ t →
      decode64Go w dm p fuel u chunk bits = .error Err.invalidCharacter := by
  intro fuel
  induction fuel with
  | zero =>
    intro u chunk bits h4 hut
    omega
  | succ fuel ih =>
    intro u chunk bits h4 hut
    by_cases hu : u = t
    · subst hu
      have hnle : ¬ (w.length ≤ u) := by
        have := lt_of_getElem?_some hw
        omega
      have hpc : ¬ (0 < u ∧ w[u - 1]? = some '=') := by
        rintro ⟨hu0, hup⟩
        obtain ⟨cu, hwu, hcu, _⟩ := hclean (u - 1) (by omega)
        rw [hwu] at hup
        exact hcu (by simpa using hup)
      simp [decode64Go, hw, hc, hdm, hnle, hpc]
    · obtain ⟨cu, hwu, hcu, hdmu⟩ := hclean u (by omega)
      obtain ⟨v, hv⟩ := Option.ne_none_iff_exists'.mp hdmu
      have hnle : ¬ (w.length ≤ u) := by
        have := lt_of_getElem?_some hwu
        omega
      have hpc : ¬ (0 < u ∧ w[u - 1]? = some '=') := by
        rintro ⟨hu0, hup⟩
        obtain ⟨cp, hwp, hcp, _⟩ := hclean (u - 1) (by omega)
        rw [hwp] at hup
        exact hcp (by simpa using hup)
      rw [show decode64Go w dm p (fuel + 1) u chunk bits =
        decode64Go w dm p fuel (u + 1) (chunk ||| v <<< ((3 - u) * 6)) (bits + 6)
        from by simp [decode64Go, hwu, hcu, hv, hnle, hpc]]
      exact ih (u + 1) _ _ (by omega) (by omega)

/-- On a window whose first four positions all hold in-map non-pad
characters, the Base64 window loop succeeds with 6 bits per remaining
position. -/
theorem go64_data_ok (w : List Char) (dm : Char → Option Nat) (p : DecodingPadding)
    (hclean : ∀ u, u < 4 → ∃ cu, w[u]? = some cu ∧ cu ≠ '=' ∧ dm cu ≠ none) :
    ∀ (fuel u chunk bits : Nat), u + fuel = 4 →
      ∃ chunk', decode64Go w dm p fuel u chunk bits = .ok (chunk', bits + 6 * fuel) := by
  intro fuel
  induction fuel with
  | zero =>
    intro u chunk bits h4
    exact ⟨chunk, by simp [decode64Go]⟩
  | succ fuel ih =>
    intro u chunk bits h4
    obtain ⟨cu, hwu, hcu, hdmu⟩ := hclean u (by omega)
    obtain ⟨v, hv⟩ := Option.ne_none_iff_exists'.mp hdmu
    have hnle : ¬ (w.length ≤ u) := by
      have := lt_of_getElem?_some hwu
      omega
    have hpc : ¬ (0 < u ∧ w[u - 1]? = some '=') := by
      rintro ⟨hu0, hup⟩
      obtain ⟨cp, hwp, hcp, _⟩ := hclean (u - 1) (by omega)
      rw [hwp] at hup
      exact hcp (by simpa using hup)
    obtain ⟨chunk', heq⟩ := ih (u + 1) (chunk ||| v <<< ((3 - u) * 6)) (bits + 6)
      (by omega)
    refine ⟨chunk', ?_⟩
    rw [show decode64Go w dm p (fuel + 1) u chunk bits =
      decode64Go w dm p fuel (u + 1) (chunk ||| v <<< ((3 - u) * 6)) (bits + 6)
      from by simp [decode64Go, hwu, hcu, hv, hnle, hpc], heq]
    have harith : bits + 6 + 6 * fuel = bits + 6 * (fuel + 1) := by ring
    rw [harith]

/-- With an all-clean run up to position `m` and a failed lookup at `m`,
the Base64 decode fails with exactly the invalid-character error. -/
theorem dec64_clean_junk (dm : Char → Option Nat) (pd : DecodingPadding) :
    ∀ (n : Nat) (encoded : List Char), encoded.length ≤ n → ∀ (m : Nat) (c : Char),
      encoded[m]? = some c → c ≠ '=' → dm c = none →
      (∀ u, u < m → ∃ cu, encoded[u]? = some cu ∧ cu ≠ '=' ∧ dm cu ≠ none) →
      decodeBase64_internal encoded dm pd = .error Err.invalidCharacter := by
  intro n
  induction n with
  | zero =>
    intro encoded hlen m c hc hcne hdm hclean
    have hnil : encoded = [] := by
      cases encoded with
      | nil => rfl
      | cons a l => simp at hlen
    subst hnil
    simp at hc
  | succ n ih =>
    intro encoded hlen m c hc hcne hdm hclean
    have hmlen := lt_of_getElem?_some hc
    by_cases hm : m < 4
    · match encoded with
      | [] => simp at hc
      | [c0] =>
        have hgo := go64_clean [c0] dm pd m hm c hc hcne hdm hclean 4 0 0 0
          (by omega) (by omega)
        rw [decodeBase64_internal_short1, hgo]
      | [c0, c1] =>
        have hgo := go64_clean [c0, c1] dm pd m hm c hc hcne hdm hclean 4 0 0 0
          (by omega) (by omega)
        rw [decodeBase64_internal_short2, hgo]
      | [c0, c1, c2] =>
        have hgo := go64_clean [c0, c1, c2] dm pd m hm c hc hcne hdm hclean 4 0 0 0
          (by omega) (by omega)
        rw [decodeBase64_internal_short3, hgo]
      | c0 :: c1 :: c2 :: c3 :: rest =>
        have hgo := go64_clean [c0, c1, c2, c3] dm pd m hm c
          (by rw [window4_getElem c0 c1 c2 c3 rest m hm]; exact hc) hcne hdm
          (fun u hu => by
            obtain ⟨cu, hwu, hcu, hdmu⟩ := hclean u hu
            refine ⟨cu, ?_, hcu, hdmu⟩
            rw [window4_getElem c0 c1 c2 c3 rest u (by omega)]
            exact hwu)
          4 0 0 0 (by omega) (by omega)
        rw [decodeBase64_internal_cons4, hgo]
    · match encoded with
      | [] => simp at hc
      | [c0] => simp only [List.length_cons, List.length_nil] at hmlen; omega
      | [c0, c1] => simp only [List.length_cons, List.length_nil] at hmlen; omega
      | [c0, c1, c2] => simp only [List.length_cons, List.length_nil] at hmlen; omega
      | c0 :: c1 :: c2 :: c3 :: rest =>
        have hcleanw : ∀ u, u < 4 →
            ∃ cu, ([c0, c1, c2, c3] : List Char)[u]? = some cu ∧ cu ≠ '=' ∧
              dm cu ≠ none := by
          intro u hu
          obtain ⟨cu, hwu, hcu, hdmu⟩ := hclean u (by omega)
          refine ⟨cu, ?_, hcu, hdmu⟩
          rw [window4_getElem c0 c1 c2 c3 rest u hu]
          exact hwu
        obtain ⟨chunk', hgo⟩ := go64_data_ok [c0, c1, c2, c3] dm pd hcleanw 4 0 0 0
          (by omega)
        norm_num at hgo
        have hrec : decodeBase64_internal rest dm pd = .error Err.invalidCharacter := by
          apply ih rest (by simp at hlen ⊢; omega) (m - 4) c ?_ hcne hdm ?_
          · have hshift : m = m - 4 + 4 := by omega
            rw [hshift] at hc
            simpa using hc
          · intro u hu
            obtain ⟨cu, hwu, hcu, hdmu⟩ := hclean (u + 4) (by omega)
            exact ⟨cu, by simpa using hwu, hcu, hdmu⟩
        rw [decodeBase64_internal_cons4]
        simp [hgo, decode64Finish_24, hrec]

/-! ## Claim theorems -/

/-- C1: for every byte sequence `B`, every scheme (Hex, Base32, Base64,
Base64url) and every case/padding encode variant, decoding the encoded
text with the corresponding decode function (padded encode with the
Required-padding decoder, unpadded encode with the Ignore-padding
decoder, any-case hex encode with `decodeHex`) returns exactly `B`. -/
theorem C1_roundtrip (B : List Nat) (hB : ∀ b ∈ B, b < 256) :
    decodeHex (encodeHexUpperCase B) = .ok B ∧
    decodeHex (encodeHexLowerCase B) = .ok B ∧
    decodeBase64 (encodeBase64 B) = .ok B ∧
    decodeBase64IgnorePadding (encodeBase64NoPadding B) = .ok B ∧
    decodeBase64url (encodeBase64url B) = .ok B ∧
    decodeBase64urlIgnorePadding (encodeBase64urlNoPadding B) = .ok B ∧
    decodeBase32 (encodeBase32UpperCase B) = .ok B ∧
    decodeBase32 (encodeBase32LowerCase B) = .ok B ∧
    decodeBase32IgnorePadding (encodeBase32UpperCaseNoPadding B) = .ok B ∧
    decodeBase32IgnorePadding (encodeBase32LowerCaseNoPadding B) = .ok B := by
  refine ⟨decHex_encHexUpper B hB, decHex_encHexLower B hB,
    ?_, ?_, ?_, ?_, ?_, ?_, ?_, ?_⟩
  · exact dec64_enc64 base64Alphabet base64DecodeMap base64_inv _ _
      (Or.inl rfl) B.length B le_rfl hB
  · exact dec64_enc64 base64Alphabet base64DecodeMap base64_inv _ _
      (Or.inr rfl) B.length B le_rfl hB
  · exact dec64_enc64 base64urlAlphabet base64urlDecodeMap base64url_inv _ _
      (Or.inl rfl) B.length B le_rfl hB
  · exact dec64_enc64 base64urlAlphabet base64urlDecodeMap base64url_inv _ _
      (Or.inr rfl) B.length B le_rfl hB
  · exact dec32_enc32 base32UpperCaseAlphabet base32DecodeMap base32_upper_inv _ _
      (Or.inl rfl) B.length B le_rfl hB
  · exact dec32_enc32 base32LowerCaseAlphabet base32DecodeMap base32_lower_inv _ _
      (Or.inl rfl) B.length B le_rfl hB
  · exact dec32_enc32 base32UpperCaseAlphabet base32DecodeMap base32_upper_inv _ _
      (Or.inr rfl) B.length B le_rfl hB
  · exact dec32_enc32 base32LowerCaseAlphabet base32DecodeMap base32_lower_inv _ _
      (Or.inr rfl) B.length B le_rfl hB

/-- Witness for C1 at the bytes of `"Hello"`. -/
theorem C1_roundtrip_witness :
    decodeHex (encodeHexUpperCase [72, 101, 108, 108, 111]) =
      .ok [72, 101, 108, 108, 111] ∧
    decodeHex (encodeHexLowerCase [72, 101, 108, 108, 111]) =
      .ok [72, 101, 108, 108, 111] ∧
    decodeBase64 (encodeBase64 [72, 101, 108, 108, 111]) =
      .ok [72, 101, 108, 108, 111] ∧
    decodeBase64IgnorePadding (encodeBase64NoPadding [72, 101, 108, 108, 111]) =
      .ok [72, 101, 108, 108, 111] ∧
    decodeBase64url (encodeBase64url [72, 101, 108, 108, 111]) =
      .ok [72, 101, 108, 108, 111] ∧
    decodeBase64urlIgnorePadding (encodeBase64urlNoPadding [72, 101, 108, 108, 111]) =
      .ok [72, 101, 108, 108, 111] ∧
    decodeBase32 (encodeBase32UpperCase [72, 101, 108, 108, 111]) =
      .ok [72, 101, 108, 108, 111] ∧
    decodeBase32 (encodeBase32LowerCase [72, 101, 108, 108, 111]) =
      .ok [72, 101, 108, 108, 111] ∧
    decodeBase32IgnorePadding (encodeBase32UpperCaseNoPadding [72, 101, 108, 108, 111]) =
      .ok [72, 101, 108, 108, 111] ∧
    decodeBase32IgnorePadding (encodeBase32LowerCaseNoPadding [72, 101, 108, 108, 111]) =
      .ok [72, 101, 108, 108, 111] :=
  C1_roundtrip [72, 101, 108, 108, 111] (by decide)

/-- C9 (amended): in Required mode the decoders reject every non-empty
input that is not window-aligned: `decodeBase64` / `decodeBase64url`
throw a `FormatError` whenever the length is not a multiple of 4, and
`decodeBase32` whenever it is not a multiple of 8.  (The original
claim's parenthetical — that Base64 always raises the invalid-character
error on the out-of-range positions — is refuted by
`C9_nonaligned_counterexample`: when the character before the
out-of-range position is a pad, Base64 raises invalid padding instead,
and Base32 may fail with invalid character before reaching any
out-of-range position.) -/
theorem C9_nonaligned (encoded : List Char) (hne : encoded ≠ []) :
    (encoded.length % 4 ≠ 0 →
      (∃ e, decodeBase64 encoded = .error e) ∧
      (∃ e, decodeBase64url encoded = .error e)) ∧
    (encoded.length % 8 ≠ 0 → ∃ e, decodeBase32 encoded = .error e) :=
  ⟨fun h4 =>
    ⟨dec64_nonaligned base64DecodeMap encoded.length encoded le_rfl hne h4,
     dec64_nonaligned base64urlDecodeMap encoded.length encoded le_rfl hne h4⟩,
   fun h8 => dec32_nonaligned base32DecodeMap encoded.length encoded le_rfl hne h8⟩

/-- Counterexample to C9 as stated: `decodeBase64 "B="` (length 2, not
window aligned) fails with the invalid-padding error, not the
invalid-character error the claim attributes to Base64's out-of-range
positions; and `decodeBase32 "!"` fails with invalid character, not the
invalid-padding error the claim attributes to Base32. -/
theorem C9_nonaligned_counterexample :
    (['B', '='] : List Char).length % 4 ≠ 0 ∧
    decodeBase64 ['B', '='] = .error Err.invalidPadding ∧
    Err.invalidPadding ≠ Err.invalidCharacter ∧
    (['!'] : List Char).length % 8 ≠ 0 ∧
    decodeBase32 ['!'] = .error Err.invalidCharacter ∧
    Err.invalidCharacter ≠ Err.invalidPadding := by
  decide

/-- Witness for C9 at the one-character input `"B"`. -/
theorem C9_nonaligned_witness :
    (∃ e, decodeBase64 ['B'] = .error e) ∧
    (∃ e, decodeBase64url ['B'] = .error e) ∧
    (∃ e, decodeBase32 ['B'] = .error e) :=
  ⟨((C9_nonaligned ['B'] (by decide)).1 (by decide)).1,
   ((C9_nonaligned ['B'] (by decide)).1 (by decide)).2,
   (C9_nonaligned ['B'] (by decide)).2 (by decide)⟩

/-- C10 (implicit): the Ignore-padding decoders also accept correctly
padded input, because Ignore mode treats a pad character identically to
end-of-input within a window. -/
theorem C10_ignore_accepts_padded (B : List Nat) (hB : ∀ b ∈ B, b < 256) :
    decodeBase64IgnorePadding (encodeBase64 B) = .ok B ∧
    decodeBase64urlIgnorePadding (encodeBase64url B) = .ok B ∧
    decodeBase32IgnorePadding (encodeBase32UpperCase B) = .ok B :=
  ⟨dec64_enc64 base64Alphabet base64DecodeMap base64_inv _ _
      (Or.inr rfl) B.length B le_rfl hB,
   dec64_enc64 base64urlAlphabet base64urlDecodeMap base64url_inv _ _
      (Or.inr rfl) B.length B le_rfl hB,
   dec32_enc32 base32UpperCaseAlphabet base32DecodeMap base32_upper_inv _ _
      (Or.inr rfl) B.length B le_rfl hB⟩

/-- Witness for C10 at the bytes of `"Hello"`. -/
theorem C10_ignore_accepts_padded_witness :
    decodeBase64IgnorePadding (encodeBase64 [72, 101, 108, 108, 111]) =
      .ok [72, 101, 108, 108, 111] ∧
    decodeBase64urlIgnorePadding (encodeBase64url [72, 101, 108, 108, 111]) =
      .ok [72, 101, 108, 108, 111] ∧
    decodeBase32IgnorePadding (encodeBase32UpperCase [72, 101, 108, 108, 111]) =
      .ok [72, 101, 108, 108, 111] :=
  C10_ignore_accepts_padded [72, 101, 108, 108, 111] (by decide)

/-- C5: for every byte sequence of length n, the padded Base64/Base64url
encoders return `4 * ceil(n/3)` characters, the padded Base32 encoders
return `8 * ceil(n/5)` characters, both hex encoders return exactly `2n`
characters, and every unpadded variant returns `ceil(8n/k)` characters
(`(8n+5)/6` for k = 6, `(8n+4)/5` for k = 5; for hex, `ceil(8n/4) = 2n`
is the same count).  In particular every encoder maps the empty byte
sequence to the empty string. -/
theorem C5_lengths (B : List Nat) :
    ((encodeHexUpperCase B).length = 2 * B.length ∧
     (encodeHexLowerCase B).length = 2 * B.length) ∧
    ((encodeBase64 B).length = 4 * ((B.length + 2) / 3) ∧
     (encodeBase64url B).length = 4 * ((B.length + 2) / 3)) ∧
    ((encodeBase32UpperCase B).length = 8 * ((B.length + 4) / 5) ∧
     (encodeBase32LowerCase B).length = 8 * ((B.length + 4) / 5)) ∧
    ((encodeBase64NoPadding B).length = (8 * B.length + 5) / 6 ∧
     (encodeBase64urlNoPadding B).length = (8 * B.length + 5) / 6 ∧
     (encodeBase32UpperCaseNoPadding B).length = (8 * B.length + 4) / 5 ∧
     (encodeBase32LowerCaseNoPadding B).length = (8 * B.length + 4) / 5) ∧
    (encodeHexUpperCase [] = [] ∧ encodeHexLowerCase [] = [] ∧
     encodeBase64 [] = [] ∧ encodeBase64NoPadding [] = [] ∧
     encodeBase64url [] = [] ∧ encodeBase64urlNoPadding [] = [] ∧
     encodeBase32UpperCase [] = [] ∧ encodeBase32UpperCaseNoPadding [] = [] ∧
     encodeBase32LowerCase [] = [] ∧ encodeBase32LowerCaseNoPadding [] = [] ∧
     encodeBase32 [] = [] ∧ encodeBase32NoPadding [] = []) := by
  refine ⟨⟨encodeHexUpperCase_length B, encodeHexLowerCase_length B⟩,
    ⟨?_, ?_⟩, ⟨?_, ?_⟩, ⟨?_, ?_, ?_, ?_⟩,
    rfl, rfl, rfl, rfl, rfl, rfl, rfl, rfl, rfl, rfl, rfl, rfl⟩
  · have h := enc64_len base64Alphabet EncodingPadding.Include B.length B le_rfl
    rwa [if_pos rfl] at h
  · have h := enc64_len base64urlAlphabet EncodingPadding.Include B.length B le_rfl
    rwa [if_pos rfl] at h
  · have h := enc32_len base32UpperCaseAlphabet EncodingPadding.Include B.length B
      le_rfl
    rwa [if_pos rfl] at h
  · have h := enc32_len base32LowerCaseAlphabet EncodingPadding.Include B.length B
      le_rfl
    rwa [if_pos rfl] at h
  · have h := enc64_len base64Alphabet EncodingPadding.None B.length B le_rfl
    rwa [if_neg (by decide)] at h
  · have h := enc64_len base64urlAlphabet EncodingPadding.None B.length B le_rfl
    rwa [if_neg (by decide)] at h
  · have h := enc32_len base32UpperCaseAlphabet EncodingPadding.None B.length B le_rfl
    rwa [if_neg (by decide)] at h
  · have h := enc32_len base32LowerCaseAlphabet EncodingPadding.None B.length B le_rfl
    rwa [if_neg (by decide)] at h

/-- C8: whenever the bit length of the input is not a multiple of the
group width k, the last data character emitted by each encoder (position
`ceil(8n/k) - 1` of the output, which is the last character of the
unpadded variants) is the alphabet character indexed by the `r = 8n mod k`
remaining bits of the last byte, left-shifted by `k - r` to fill a k-bit
slot with zero bits on the right. -/
theorem C8_partial_group (B : List Nat) (hB : ∀ b ∈ B, b < 256) (lastb : Nat)
    (hlast : B.getLast? = some lastb) :
    (B.length % 3 ≠ 0 →
      ((encodeBase64 B).getD ((8 * B.length + 5) / 6 - 1) ' ' =
        base64Alphabet.getD
          ((lastb % 2 ^ (8 * B.length % 6)) <<< (6 - 8 * B.length % 6)) ' ' ∧
       (encodeBase64NoPadding B).getD ((8 * B.length + 5) / 6 - 1) ' ' =
        base64Alphabet.getD
          ((lastb % 2 ^ (8 * B.length % 6)) <<< (6 - 8 * B.length % 6)) ' ' ∧
       (encodeBase64url B).getD ((8 * B.length + 5) / 6 - 1) ' ' =
        base64urlAlphabet.getD
          ((lastb % 2 ^ (8 * B.length % 6)) <<< (6 - 8 * B.length % 6)) ' ' ∧
       (encodeBase64urlNoPadding B).getD ((8 * B.length + 5) / 6 - 1) ' ' =
        base64urlAlphabet.getD
          ((lastb % 2 ^ (8 * B.length % 6)) <<< (6 - 8 * B.length % 6)) ' ')) ∧
    (B.length % 5 ≠ 0 →
      ((encodeBase32UpperCase B).getD ((8 * B.length + 4) / 5 - 1) ' ' =
        base32UpperCaseAlphabet.getD
          ((lastb % 2 ^ (8 * B.length % 5)) <<< (5 - 8 * B.length % 5)) ' ' ∧
       (encodeBase32UpperCaseNoPadding B).getD ((8 * B.length + 4) / 5 - 1) ' ' =
        base32UpperCaseAlphabet.getD
          ((lastb % 2 ^ (8 * B.length % 5)) <<< (5 - 8 * B.length % 5)) ' ' ∧
       (encodeBase32LowerCase B).getD ((8 * B.length + 4) / 5 - 1) ' ' =
        base32LowerCaseAlphabet.getD
          ((lastb % 2 ^ (8 * B.length % 5)) <<< (5 - 8 * B.length % 5)) ' ' ∧
       (encodeBase32LowerCaseNoPadding B).getD ((8 * B.length + 4) / 5 - 1) ' ' =
        base32LowerCaseAlphabet.getD
          ((lastb % 2 ^ (8 * B.length % 5)) <<< (5 - 8 * B.length % 5)) ' ')) := by
  constructor
  · intro h3
    exact ⟨enc64_last base64Alphabet EncodingPadding.Include B.length B lastb
        le_rfl hB h3 hlast,
      enc64_last base64Alphabet EncodingPadding.None B.length B lastb
        le_rfl hB h3 hlast,
      enc64_last base64urlAlphabet EncodingPadding.Include B.length B lastb
        le_rfl hB h3 hlast,
      enc64_last base64urlAlphabet EncodingPadding.None B.length B lastb
        le_rfl hB h3 hlast⟩
  · intro h5
    exact ⟨enc32_last base32UpperCaseAlphabet EncodingPadding.Include B.length B lastb
        le_rfl hB h5 hlast,
      enc32_last base32UpperCaseAlphabet EncodingPadding.None B.length B lastb
        le_rfl hB h5 hlast,
      enc32_last base32LowerCaseAlphabet EncodingPadding.Include B.length B lastb
        le_rfl hB h5 hlast,
      enc32_last base32LowerCaseAlphabet EncodingPadding.None B.length B lastb
        le_rfl hB h5 hlast⟩

/-- Witness for C8 at `B = [72, 101]` (two bytes: one leftover nibble for
Base64, one leftover bit for Base32). -/
theorem C8_partial_group_witness :
    (encodeBase64 [72, 101]).getD ((8 * ([72, 101] : List Nat).length + 5) / 6 - 1)
        ' ' =
      base64Alphabet.getD ((101 % 2 ^ (8 * ([72, 101] : List Nat).length % 6)) <<<
        (6 - 8 * ([72, 101] : List Nat).length % 6)) ' ' ∧
    (encodeBase32UpperCase [72, 101]).getD
        ((8 * ([72, 101] : List Nat).length + 4) / 5 - 1) ' ' =
      base32UpperCaseAlphabet.getD ((101 % 2 ^ (8 * ([72, 101] : List Nat).length % 5))
        <<< (5 - 8 * ([72, 101] : List Nat).length % 5)) ' ' :=
  ⟨((C8_partial_group [72, 101] (by decide) 101 (by decide)).1 (by decide)).1,
   ((C8_partial_group [72, 101] (by decide) 101 (by decide)).2 (by decide)).1⟩

/-- C2: a decode window that contributed fewer bits than the full window
width (24 for Base64/Base64url, 40 for Base32) succeeds exactly when the
contributed-bit count is one of the RFC-valid short-window sizes (12 or
18 for k = 6; 10, 20, 25 or 35 for k = 5) and the low-order accumulator
bits beyond the last complete byte boundary are all zero; in every other
case the post-window validation fails with the invalid-padding
`FormatError`.  `decode64Finish` / `decode32Finish` are the post-window
validation and byte extraction steps of the two decoders. -/
theorem C2_short_window_validation (chunk bitsRead : Nat) :
    (bitsRead < 24 →
      (((bitsRead = 12 ∧ chunk &&& 65535 = 0) ∨ (bitsRead = 18 ∧ chunk &&& 255 = 0) →
        ∃ bs, decode64Finish chunk bitsRead = .ok bs) ∧
       (¬ ((bitsRead = 12 ∧ chunk &&& 65535 = 0) ∨ (bitsRead = 18 ∧ chunk &&& 255 = 0)) →
        decode64Finish chunk bitsRead = .error Err.invalidPadding))) ∧
    (bitsRead < 40 →
      (((bitsRead = 10 ∧ chunk &&& 4294967295 = 0) ∨
        (bitsRead = 20 ∧ chunk &&& 16777215 = 0) ∨
        (bitsRead = 25 ∧ chunk &&& 65535 = 0) ∨
        (bitsRead = 35 ∧ chunk &&& 255 = 0) →
        ∃ bs, decode32Finish chunk bitsRead = .ok bs) ∧
       (¬ ((bitsRead = 10 ∧ chunk &&& 4294967295 = 0) ∨
        (bitsRead = 20 ∧ chunk &&& 16777215 = 0) ∨
        (bitsRead = 25 ∧ chunk &&& 65535 = 0) ∨
        (bitsRead = 35 ∧ chunk &&& 255 = 0)) →
        decode32Finish chunk bitsRead = .error Err.invalidPadding))) := by
  constructor
  · intro h24
    constructor
    · rintro (⟨hb, hz⟩ | ⟨hb, hz⟩) <;> subst hb
      · exact ⟨_, decode64Finish_12 chunk hz⟩
      · exact ⟨_, decode64Finish_18 chunk hz⟩
    · intro hnot
      rw [decode64Finish, if_pos h24]
      by_cases h12 : bitsRead = 12
      · subst h12
        rw [if_pos rfl, if_pos (fun hz => hnot (Or.inl ⟨rfl, hz⟩))]
      · rw [if_neg h12]
        by_cases h18 : bitsRead = 18
        · subst h18
          rw [if_pos rfl, if_pos (fun hz => hnot (Or.inr ⟨rfl, hz⟩))]
        · rw [if_neg h18]
  · intro h40
    constructor
    · rintro (⟨hb, hz⟩ | ⟨hb, hz⟩ | ⟨hb, hz⟩ | ⟨hb, hz⟩) <;> subst hb
      · exact ⟨_, decode32Finish_10 chunk hz⟩
      · exact ⟨_, decode32Finish_20 chunk hz⟩
      · exact ⟨_, decode32Finish_25 chunk hz⟩
      · exact ⟨_, decode32Finish_35 chunk hz⟩
    · intro hnot
      rw [decode32Finish, if_pos h40]
      by_cases h10 : bitsRead = 10
      · subst h10
        rw [if_pos rfl, if_pos (fun hz => hnot (Or.inl ⟨rfl, hz⟩))]
      · rw [if_neg h10]
        by_cases h20 : bitsRead = 20
        · subst h20
          rw [if_pos rfl, if_pos (fun hz => hnot (Or.inr (Or.inl ⟨rfl, hz⟩)))]
        · rw [if_neg h20]
          by_cases h25 : bitsRead = 25
          · subst h25
            rw [if_pos rfl, if_pos (fun hz => hnot (Or.inr (Or.inr (Or.inl ⟨rfl, hz⟩))))]
          · rw [if_neg h25]
            by_cases h35 : bitsRead = 35
            · subst h35
              rw [if_pos rfl,
                if_pos (fun hz => hnot (Or.inr (Or.inr (Or.inr ⟨rfl, hz⟩))))]
            · rw [if_neg h35]

/-- Witness for C2: a 12-bit window with clean low bits succeeds, a
6-bit window (one lone character) fails with invalid padding, a 10-bit
Base32 window succeeds, a 15-bit Base32 window fails. -/
theorem C2_short_window_validation_witness :
    (∃ bs, decode64Finish 0 12 = .ok bs) ∧
    decode64Finish 0 6 = .error Err.invalidPadding ∧
    (∃ bs, decode32Finish 0 10 = .ok bs) ∧
    decode32Finish 0 15 = .error Err.invalidPadding :=
  ⟨((C2_short_window_validation 0 12).1 (by decide)).1 (Or.inl ⟨rfl, by decide⟩),
   ((C2_short_window_validation 0 6).1 (by decide)).2 (by decide),
   ((C2_short_window_validation 0 10).2 (by decide)).1 (Or.inl ⟨rfl, by decide⟩),
   ((C2_short_window_validation 0 15).2 (by decide)).2 (by decide)⟩

/-- C3 (amended): for every decode input, every decode map and both
padding modes — which covers all six Base64/Base64url/Base32 decoders —
if a pad character (or, in Ignore mode, the end of the input) occurs at
position `j` of a fixed-size window and a non-pad in-map character
occurs at a later position `j' > j` of the same window, the decode
fails with a `FormatError`.  (The original claim additionally named the
invalid-padding reason; `C3_pad_ordering_counterexample` shows an
earlier invalid character in the same window can raise the
invalid-character reason instead.) -/
theorem C3_pad_ordering :
    (∀ (encoded : List Char) (dm : Char → Option Nat) (pd : DecodingPadding)
       (i j j' : Nat), j < j' → j' < 4 →
       (encoded[4 * i + j]? = some '=' ∨
         (pd = DecodingPadding.Ignore ∧ encoded.length ≤ 4 * i + j)) →
       ∀ c, encoded[4 * i + j']? = some c → c ≠ '=' → dm c ≠ none →
       ∃ e, decodeBase64_internal encoded dm pd = .error e) ∧
    (∀ (encoded : List Char) (dm : Char → Option Nat) (pd : DecodingPadding)
       (i j j' : Nat), j < j' → j' < 8 →
       (encoded[8 * i + j]? = some '=' ∨
         (pd = DecodingPadding.Ignore ∧ encoded.length ≤ 8 * i + j)) →
       ∀ c, encoded[8 * i + j']? = some c → c ≠ '=' → dm c ≠ none →
       ∃ e, decodeBase32_internal encoded dm pd = .error e) :=
  ⟨fun encoded dm pd i j j' hjj hj4 hpad c hc hcne hdm =>
    dec64_pad_then_data dm pd i encoded j j' hjj hj4 hpad c hc hcne hdm,
   fun encoded dm pd i j j' hjj hj8 hpad c hc hcne hdm =>
    dec32_pad_then_data dm pd i encoded j j' hjj hj8 hpad c hc hcne hdm⟩

/-- Counterexample to C3 as stated: the window `"A!=B"` has a pad at
position 2 and the in-alphabet character `'B'` at position 3, yet
`decodeBase64` fails with the invalid-character error (tripping first
over `'!'`), not the invalid-padding error the claim names. -/
theorem C3_pad_ordering_counterexample :
    (['A', '!', '=', 'B'] : List Char)[2]? = some '=' ∧
    base64DecodeMap 'B' = some 1 ∧
    decodeBase64 ['A', '!', '=', 'B'] = .error Err.invalidCharacter ∧
    Err.invalidCharacter ≠ Err.invalidPadding := by
  decide

/-- Witness for C3 at the spec's own example `decodeBase64 "SG=sbG8="`:
pad at window position 2, data character `'s'` at position 3. -/
theorem C3_pad_ordering_witness :
    ∃ e, decodeBase64 ['S', 'G', '=', 's', 'b', 'G', '8', '='] = .error e :=
  C3_pad_ordering.1 ['S', 'G', '=', 's', 'b', 'G', '8', '='] base64DecodeMap
    DecodingPadding.Required 0 2 3 (by decide) (by decide) (Or.inl (by decide))
    's' (by decide) (by decide) (by decide)

/-- C4: `decodeBase64 "sgvsbg8="` (all lowercase) succeeds — the decode
map is case-sensitive, so lowercase letters are valid but map to
different 6-bit values — and its result `[178, 11, 236, 110, 15]` is not
the bytes of `"Hello"` (`[72, 101, 108, 108, 111]`). -/
theorem C4_case_sensitive :
    decodeBase64 ['s', 'g', 'v', 's', 'b', 'g', '8', '='] =
      .ok [178, 11, 236, 110, 15] ∧
    ([178, 11, 236, 110, 15] : List Nat) ≠ [72, 101, 108, 108, 111] := by
  constructor
  · decide
  · decide

/-- C6: for every input string of odd length, `decodeHex` fails with the
odd-length `FormatError` (`"Invalid hex string"`), and the check is a
precondition evaluated before any character is consumed — the theorem
holds for arbitrary characters, in the decode map or not. -/
theorem C6_hex_odd_length (data : List Char) (h : data.length % 2 = 1) :
    decodeHex data = .error Err.invalidHexString := by
  rw [decodeHex, if_pos (by omega)]

/-- Witness for C6 at `"a!c"`, an odd-length string that even contains a
character outside the hex decode map. -/
theorem C6_hex_odd_length_witness :
    decodeHex ['a', '!', 'c'] = .error Err.invalidHexString ∧
    (['a', '!', 'c'] : List Char).length % 2 = 1 :=
  ⟨C6_hex_odd_length ['a', '!', 'c'] (by decide), by decide⟩

/-- C7: the crossover characters are outside the wrong scheme's decode
map, and a crossover character in a data position makes the wrong-scheme
decoder fail: any input containing `'-'` or `'_'` makes `decodeBase64`
and `decodeBase64IgnorePadding` fail, any input containing `'+'` or
`'/'` makes `decodeBase64url` and `decodeBase64urlIgnorePadding` fail,
and when every earlier position holds an in-map non-pad character (so
the crossover character itself occupies a data position that the window
loop actually looks up), the error is exactly the invalid-character
`FormatError`. -/
theorem C7_crossover :
    (base64DecodeMap '-' = none ∧ base64DecodeMap '_' = none ∧
     base64urlDecodeMap '+' = none ∧ base64urlDecodeMap '/' = none) ∧
    (∀ (encoded : List Char) (m : Nat) (c : Char), encoded[m]? = some c →
      ((c = '-' ∨ c = '_') →
        (∃ e, decodeBase64 encoded = .error e) ∧
        (∃ e, decodeBase64IgnorePadding encoded = .error e) ∧
        ((∀ u, u < m → ∃ cu, encoded[u]? = some cu ∧ cu ≠ '=' ∧
            base64DecodeMap cu ≠ none) →
          decodeBase64 encoded = .error Err.invalidCharacter ∧
          decodeBase64IgnorePadding encoded = .error Err.invalidCharacter)) ∧
      ((c = '+' ∨ c = '/') →
        (∃ e, decodeBase64url encoded = .error e) ∧
        (∃ e, decodeBase64urlIgnorePadding encoded = .error e) ∧
        ((∀ u, u < m → ∃ cu, encoded[u]? = some cu ∧ cu ≠ '=' ∧
            base64urlDecodeMap cu ≠ none) →
          decodeBase64url encoded = .error Err.invalidCharacter ∧
          decodeBase64urlIgnorePadding encoded = .error Err.invalidCharacter))) := by
  refine ⟨⟨by decide, by decide, by decide, by decide⟩, ?_⟩
  intro encoded m c hc
  have hmod : 4 * (m / 4) + m % 4 = m := Nat.div_add_mod m 4
  constructor
  · intro hcross
    have hcne : c ≠ '=' := by rcases hcross with h | h <;> subst h <;> decide
    have hdm : base64DecodeMap c = none := by
      rcases hcross with h | h <;> subst h <;> decide
    refine ⟨?_, ?_, ?_⟩
    · exact dec64_junk_fails base64DecodeMap DecodingPadding.Required (m / 4)
        encoded (m % 4) (by omega) c (by rw [hmod]; exact hc) hcne hdm
    · exact dec64_junk_fails base64DecodeMap DecodingPadding.Ignore (m / 4)
        encoded (m % 4) (by omega) c (by rw [hmod]; exact hc) hcne hdm
    · intro hclean
      exact ⟨dec64_clean_junk base64DecodeMap DecodingPadding.Required
          encoded.length encoded le_rfl m c hc hcne hdm hclean,
        dec64_clean_junk base64DecodeMap DecodingPadding.Ignore
          encoded.length encoded le_rfl m c hc hcne hdm hclean⟩
  · intro hcross
    have hcne : c ≠ '=' := by rcases hcross with h | h <;> subst h <;> decide
    have hdm : base64urlDecodeMap c = none := by
      rcases hcross with h | h <;> subst h <;> decide
    refine ⟨?_, ?_, ?_⟩
    · exact dec64_junk_fails base64urlDecodeMap DecodingPadding.Required (m / 4)
        encoded (m % 4) (by omega) c (by rw [hmod]; exact hc) hcne hdm
    · exact dec64_junk_fails base64urlDecodeMap DecodingPadding.Ignore (m / 4)
        encoded (m % 4) (by omega) c (by rw [hmod]; exact hc) hcne hdm
    · intro hclean
      exact ⟨dec64_clean_junk base64urlDecodeMap DecodingPadding.Required
          encoded.length encoded le_rfl m c hc hcne hdm hclean,
        dec64_clean_junk base64urlDecodeMap DecodingPadding.Ignore
          encoded.length encoded le_rfl m c hc hcne hdm hclean⟩

/-- Witness for C7: `'-'` makes `decodeBase64` fail and `'+'` makes
`decodeBase64url` fail, both with the invalid-character error. -/
theorem C7_crossover_witness :
    decodeBase64 ['-'] = .error Err.invalidCharacter ∧
    decodeBase64url ['+'] = .error Err.invalidCharacter := by
  constructor
  · exact (((C7_crossover.2 ['-'] 0 '-' (by decide)).1 (Or.inl rfl)).2.2
      (fun u hu => absurd hu (by omega))).1
  · exact (((C7_crossover.2 ['+'] 0 '+' (by decide)).2 (Or.inl rfl)).2.2
      (fun u hu => absurd hu (by omega))).1

end NoteEnc
